import Mathlib

/-! NTV2Capture8K: the 8K capture demo of libajantv2.

A shallow embedding of `demos/ntv2capture8k/ntv2capture8k.cpp`.

* The calls the class makes on the device, on the ring (`mAVCircularBuffer`) and on its
  threads are recorded as `Call`s, in program order, so that orderings can be stated.
  Capability queries that change nothing (`NTV2DeviceCanDoCapture` and the like) are not
  recorded; their answers are fields of `Device`.
* What a method reads from the outside world (device answers, the shared quit flag being
  raised by another thread, slots becoming available in the ring) is supplied as data.
* `mGlobalQuit` is only ever written `true` in the source, so the value a thread reads is
  the disjunction of what it read before and of what other threads have raised since.
* `AJACircularBuffer` (ajabase) is not part of the listed sources; it is modelled from
  the written specification of the ring.
-/

namespace NTV2Capture8K

/-! ## Data model -/

/-- The four host buffers of one `NTV2FrameData`. -/
inductive BufferKind where
  | video
  | audio
  | anc
  | anc2
deriving DecidableEq, Repr

/-- A host buffer as handed to the device: the slot of `mHostBuffers` it belongs to,
which of the four buffers it is, and its byte count. -/
structure BufferRef where
  slot : Nat
  kind : BufferKind
  size : Nat
deriving DecidableEq, Repr

/-- One slot: `NTV2FrameData`.  A buffer is represented by its allocated byte count. -/
structure NTV2FrameData where
  fVideoBuffer : Nat
  fAudioBuffer : Nat
  fAncBuffer : Nat
  fAncBuffer2 : Nat
  fNumAudioBytes : Nat
  fTimecodes : List (Nat × Nat)
deriving DecidableEq, Repr

/-- The value `NTV2FrameData()` of a default-constructed slot. -/
instance : Inhabited NTV2FrameData := ⟨⟨0, 0, 0, 0, 0, []⟩⟩

/-- The part of `AUTOCIRCULATE_STATUS` that `CaptureFrames` reads. -/
structure AUTOCIRCULATE_STATUS where
  IsRunning : Bool
  HasAvailableInputFrame : Bool
  WithAudio : Bool
  WithCustomAnc : Bool
deriving DecidableEq, Repr

/-- The buffers registered in an `AUTOCIRCULATE_TRANSFER`; `none` until the setter is called. -/
structure AUTOCIRCULATE_TRANSFER where
  acVideoBuffer : Option BufferRef
  acAudioBuffer : Option BufferRef
  acANCBuffer : Option BufferRef
  acANCField2Buffer : Option BufferRef
deriving DecidableEq, Repr

/-- A default-constructed `AUTOCIRCULATE_TRANSFER` (line 357). -/
def AUTOCIRCULATE_TRANSFER.empty : AUTOCIRCULATE_TRANSFER := ⟨none, none, none, none⟩

/-- The two worker threads of the class. -/
inductive Worker where
  | consumer
  | producer
deriving DecidableEq, Repr

/-- Values of `AJAStatus` returned by `Init`. -/
inductive AJAStatus where
  | AJA_STATUS_SUCCESS
  | AJA_STATUS_OPEN
  | AJA_STATUS_INITIALIZE
  | AJA_STATUS_FEATURE
  | AJA_STATUS_UNSUPPORTED
  | AJA_STATUS_BUSY
  | AJA_STATUS_BAD_PARAM
  | AJA_STATUS_NOINPUT
  | AJA_STATUS_FAIL
deriving DecidableEq, Repr

/-- The test `AJA_FAILURE(status)`. -/
def AJA_FAILURE (s : AJAStatus) : Bool := decide (s ≠ AJAStatus.AJA_STATUS_SUCCESS)

/-- Task modes used with `SetEveryFrameServices`. -/
inductive NTV2TaskMode where
  | NTV2_DISABLE_TASKS
  | NTV2_STANDARD_TASKS
  | NTV2_OEM_TASKS
deriving DecidableEq, Repr

/-- A channel set as built by `NTV2MakeChannelSet (first, count)`, kept as its arguments. -/
structure NTV2ChannelSet where
  first : Nat
  count : Nat
deriving DecidableEq, Repr

/-- The calls of the class on the device, the ring and its threads, and the writes of the
shared quit flag.  Results that the caller branches on are part of the record. -/
inductive Call where
  | WriteGlobalQuit
  | ThreadActive (w : Worker) (result : Bool)
  | Sleep (ms : Nat)
  | ThreadAttach (w : Worker)
  | ThreadSetPriority (w : Worker)
  | ThreadStart (w : Worker)
  | DMABufferUnlockAll
  | DMABufferLock (b : BufferRef)
  | ReleaseStreamForApplication
  | AcquireStreamForApplication (result : Bool)
  | GetStreamingApplication
  | GetEveryFrameServices
  | SetEveryFrameServices (mode : NTV2TaskMode)
  | SetMultiFormatMode (enable : Bool)
  | UnsubscribeInputVerticalEvent (ch : Nat)
  | UnsubscribeOutputVerticalEvent (ch : Nat)
  | GetFirstDeviceFromArgument (result : Bool)
  | IsDeviceReady (result : Bool)
  | EnableChannels (chans : NTV2ChannelSet) (disableOthers : Bool)
  | EnableInputInterrupt (ch : Nat)
  | SubscribeInputVerticalEvent (ch : Nat)
  | SubscribeOutputVerticalEvent (ch : Nat)
  | SetSDITransmitEnable (sdis : NTV2ChannelSet) (enable : Bool)
  | WaitForOutputVerticalInterrupt (ch : Nat) (repeats : Nat)
  | GetInputVideoFormat (known : Bool)
  | SetReference
  | SetVideoFormat (ch : Nat)
  | SetVANCMode (chans : NTV2ChannelSet)
  | SetQuadQuadFrameEnable (enable : Bool) (ch : Nat)
  | SetQuadQuadSquaresEnable (enable : Bool) (ch : Nat)
  | SetFrameBufferFormat (chans : NTV2ChannelSet)
  | ConfigureAudioSystems (audioSystem : Option Nat)
  | ReadRegister (field : Nat) (value : Nat)
  | ApplySignalRoute (replace : Bool) (result : Bool)
  | SetAbortFlag
  | Add (slot : Nat)
  | AutoCirculateStop (chans : NTV2ChannelSet)
  | AutoCirculateInitForInput (ch : Nat) (audioSystem : Option Nat) (result : Bool)
  | AutoCirculateStart (ch : Nat) (result : Bool)
  | AutoCirculateGetStatus (ch : Nat) (result : AUTOCIRCULATE_STATUS)
  | AutoCirculateTransfer (ch : Nat) (xfer : AUTOCIRCULATE_TRANSFER)
  | WaitForInputVerticalInterrupt (ch : Nat)
  | StartProduceNextBuffer (result : Option Nat)
  | EndProduceNextBuffer
  | StartConsumeNextBuffer (result : Option Nat)
  | EndConsumeNextBuffer
deriving DecidableEq, Repr

/-! ## The ring (`AJACircularBuffer`), from its specification -/

/-- The three ways a request for a slot can go: a slot, the "no slot" (null) result, or
the caller stays blocked. -/
inductive SlotResult where
  | slot (i : Nat)
  | noSlot
  | blocks
deriving DecidableEq, Repr

/-- Modelled from the spec: the ring `AJACircularBuffer` (ajabase/common/circularbuffer.h
is not among the sources).  "Fixed capacity N (pool size), a mapping of slot identity to
current owner-state, and head/tail cursors for the produce and consume sequences":
`slots` are the registered slots in registration order (capacity is their number),
`published` counts the published-but-unconsumed slots, `producing` and `consuming` hold
the slot of a produce or consume in progress, and `abortRegistered` records that
`setAbortFlag` was called. -/
structure AJACircularBuffer where
  slots : List Nat
  abortRegistered : Bool
  head : Nat
  tail : Nat
  published : Nat
  producing : Option Nat
  consuming : Option Nat
deriving DecidableEq, Repr

namespace AJACircularBuffer

/-- Modelled from the spec: a default-constructed ring (`mAVCircularBuffer ()`), holding
no slot. -/
def empty : AJACircularBuffer := ⟨[], false, 0, 0, 0, none, none⟩

/-- Modelled from the spec: `setAbortFlag(reference to shared boolean)` "registers the
shutdown signal". -/
def SetAbortFlag (r : AJACircularBuffer) : AJACircularBuffer :=
  { r with abortRegistered := true }

/-- Modelled from the spec: `Add` registers one more slot with the ring ("all N slots are
allocated and registered with the ring during setup"). -/
def Add (r : AJACircularBuffer) (slot : Nat) : AJACircularBuffer :=
  { r with slots := r.slots ++ [slot] }

/-- Modelled from the spec: the answer of a slot request, given the value of the abort
flag and the slot that can be handed out, if any: "slot-reference | blocks |
none-if-aborting"; "requesting a slot after abort returns a null/empty result rather than
blocking indefinitely or failing with an error". -/
def slotOrAbort (abort : Bool) (avail : Option Nat) : SlotResult :=
  if abort then SlotResult.noSlot
  else match avail with
    | some i => SlotResult.slot i
    | none => SlotResult.blocks

/-- Modelled from the spec: the slot `startProduceNextSlot` can hand out: none "while the
ring is full (all slots already published and unconsumed)", otherwise "the slot after the
last published one", found by the produce cursor. -/
def nextFree (r : AJACircularBuffer) : Option Nat :=
  if r.published < r.slots.length then r.slots[r.head]? else none

/-- Modelled from the spec: the slot `startConsumeNextSlot` can hand out: "the oldest
published, not-yet-consumed slot", found by the consume cursor; none "while no published
slot exists". -/
def nextPublished (r : AJACircularBuffer) : Option Nat :=
  if 0 < r.published then r.slots[r.tail]? else none

/-- Modelled from the spec: `startProduceNextSlot`, one attempt; `abort` is the current
value of the shared boolean, which counts once it has been registered with the ring.  On
success the produce cursor advances and the slot is the produce in progress. -/
def StartProduceNextBuffer (r : AJACircularBuffer) (abort : Bool) :
    SlotResult × AJACircularBuffer :=
  match slotOrAbort (r.abortRegistered && abort) r.nextFree with
  | SlotResult.slot i =>
      (SlotResult.slot i,
        { r with head := (r.head + 1) % r.slots.length, producing := some i })
  | res => (res, r)

/-- Modelled from the spec: `endProduceNextSlot` "marks the most recently acquired
produce-slot as published, advancing the count of consumer-visible slots by one". -/
def EndProduceNextBuffer (r : AJACircularBuffer) : AJACircularBuffer :=
  match r.producing with
  | some _ => { r with published := r.published + 1, producing := none }
  | none => r

/-- Modelled from the spec: `startConsumeNextSlot`, one attempt; `abort` is the current
value of the shared boolean, which counts once it has been registered with the ring.  On
success the consume cursor advances and the slot is the consume in progress. -/
def StartConsumeNextBuffer (r : AJACircularBuffer) (abort : Bool) :
    SlotResult × AJACircularBuffer :=
  match slotOrAbort (r.abortRegistered && abort) r.nextPublished with
  | SlotResult.slot i =>
      (SlotResult.slot i,
        { r with tail := (r.tail + 1) % r.slots.length, consuming := some i })
  | res => (res, r)

/-- Modelled from the spec: `endConsumeNextSlot` "returns the slot to the free pool,
decrementing the published count". -/
def EndConsumeNextBuffer (r : AJACircularBuffer) : AJACircularBuffer :=
  match r.consuming with
  | some _ => { r with published := r.published - 1, consuming := none }
  | none => r

/-- Modelled from the spec: a blocking `startProduceNextSlot` call as its successive
bounded wait cycles.  Each cycle sees the abort flag and the ring as they are then (the
consumer may have changed the ring meanwhile) and makes one attempt; the call goes on
waiting while the attempt blocks.  The empty list is a call that is never woken. -/
def StartProduceBlocking : List (Bool × AJACircularBuffer) → SlotResult
  | [] => SlotResult.blocks
  | (abort, r) :: rest =>
      match (r.StartProduceNextBuffer abort).1 with
      | SlotResult.blocks => StartProduceBlocking rest
      | res => res

/-- Modelled from the spec: a blocking `startConsumeNextSlot` call as its successive
bounded wait cycles, as for `StartProduceBlocking`. -/
def StartConsumeBlocking : List (Bool × AJACircularBuffer) → SlotResult
  | [] => SlotResult.blocks
  | (abort, r) :: rest =>
      match (r.StartConsumeNextBuffer abort).1 with
      | SlotResult.blocks => StartConsumeBlocking rest
      | res => res

end AJACircularBuffer

/-! ## The object and its environment -/

/-- The fields of `CaptureConfig` that the class reads or writes. -/
structure CaptureConfig where
  fInputChannel : Nat
  fInputSource : Nat
  fFrames : Option (Nat × Nat)
  fDoMultiFormat : Bool
  fWithAudio : Bool
  fWithAnc : Bool
  fDoTSIRouting : Bool
deriving DecidableEq, Repr

/-- Constants of headers that are not among the sources, taken as parameters. -/
structure Constants where
  CIRCULAR_BUFFER_SIZE : Nat
  NTV2_AUDIOSIZE_MAX : Nat
deriving DecidableEq, Repr

/-- The member variables of an `NTV2Capture8K` object.  `mAudioSystem = none` stands for
`NTV2_AUDIOSYSTEM_INVALID`, `mVideoFormat = none` for `NTV2_FORMAT_UNKNOWN`, and
`mFormatDesc` is represented by its `GetVideoWriteSize()`.  Of the ring, a thread only
follows what was registered with it; its cursors are shared with the other thread and
what the ring has to offer is part of the thread's input. -/
structure State where
  mConfig : CaptureConfig
  mVideoFormat : Option Nat
  mFormatDesc : Nat
  mSavedTaskMode : NTV2TaskMode
  mAudioSystem : Option Nat
  mActiveFrameStores : NTV2ChannelSet
  mActiveSDIs : NTV2ChannelSet
  mHostBuffers : List NTV2FrameData
  mAVCircularBuffer : AJACircularBuffer
  mGlobalQuit : Bool
deriving DecidableEq, Repr

/-- The constructor `NTV2Capture8K (inConfig)` (lines 19-31). -/
def construct (inConfig : CaptureConfig) : State :=
  { mConfig := inConfig
    mVideoFormat := none
    mFormatDesc := 0
    mSavedTaskMode := NTV2TaskMode.NTV2_DISABLE_TASKS
    mAudioSystem := if inConfig.fWithAudio then some 0 else none
    mActiveFrameStores := ⟨0, 0⟩
    mActiveSDIs := ⟨0, 0⟩
    mHostBuffers := []
    mAVCircularBuffer := AJACircularBuffer.empty
    mGlobalQuit := false }

/-- What the device and the SDK helpers answer during `Init`: one field per call or
helper whose result the source branches on or stores. -/
structure Device where
  found : Bool
  ready : Bool
  canDoCapture : Bool
  canDo12gRouting : Bool
  canDoFrameBufferFormat : Bool
  taskMode : NTV2TaskMode
  acquireOk : Bool
  taskModeAcquired : NTV2TaskMode
  canDoMultiFormat : Bool
  numFrameStores : Nat
  channelToInputSource : Nat → Nat
  hasBiDirectionalSDI : Bool
  inputSourceIsSDI : Bool
  inputVideoFormat : Option Nat
  get8KInputFormat : Nat → Nat
  videoWriteSize : Nat
  isRGBFormat : Bool
  isQuadQuadHFR : Bool
  numAudioSystems : Nat
  channelToAudioSystem : Nat → Option Nat
  ancField1Offset : Nat
  ancField2Offset : Nat
  inputRoutingOk : Bool
  applySignalRouteOk : Bool

/-- How an execution of a method ends: it returned; it is blocked for ever inside a ring
call; or the recorded observations ran out while it was still looping (the execution is
then a prefix of a longer one). -/
inductive Outcome where
  | returned
  | blocked
  | pending
deriving DecidableEq, Repr

/-- An execution of a method: the calls it made, in order, the object afterwards, and how
it ended. -/
structure Exec where
  calls : List Call
  final : State
  outcome : Outcome
deriving DecidableEq, Repr

/-- The execution `r` preceded by the calls `cs`. -/
def Exec.prepend (cs : List Call) (r : Exec) : Exec :=
  { r with calls := cs ++ r.calls }

/-! ## Shutdown: `Quit` and the destructor -/

/-- The loop `while (thread.Active()) AJATime::Sleep(10);` (lines 51-55) over the
successive answers of `Active()`.  The flag tells whether the loop was left. -/
def waitInactive (w : Worker) : List Bool → List Call × Bool
  | [] => ([], false)
  | false :: _ => ([Call.ThreadActive w false], true)
  | true :: rest =>
      (Call.ThreadActive w true :: Call.Sleep 10 :: (waitInactive w rest).1,
        (waitInactive w rest).2)

/-- The calls of lines 57-64: unlock, and if the device is not shared, release it. -/
def releaseCalls (st : State) : List Call :=
  Call.DMABufferUnlockAll ::
    (if !st.mConfig.fDoMultiFormat then
      [Call.ReleaseStreamForApplication, Call.SetEveryFrameServices st.mSavedTaskMode]
    else [])

/-- The method `Quit` (lines 46-66). -/
def Quit (st : State) (consumerActive producerActive : List Bool) : Exec :=
  let st1 := { st with mGlobalQuit := true }
  let c := waitInactive Worker.consumer consumerActive
  if !c.2 then ⟨Call.WriteGlobalQuit :: c.1, st1, Outcome.pending⟩
  else
    let p := waitInactive Worker.producer producerActive
    if !p.2 then ⟨Call.WriteGlobalQuit :: (c.1 ++ p.1), st1, Outcome.pending⟩
    else ⟨Call.WriteGlobalQuit :: (c.1 ++ p.1 ++ releaseCalls st1), st1, Outcome.returned⟩

/-- The destructor (lines 34-43); channel 0 is `NTV2_CHANNEL1`. -/
def destroy (st : State) (consumerActive producerActive : List Bool) : Exec :=
  let q := Quit st consumerActive producerActive
  match q.outcome with
  | Outcome.returned =>
      { q with calls := q.calls ++
          [Call.UnsubscribeInputVerticalEvent q.final.mConfig.fInputChannel,
           Call.UnsubscribeOutputVerticalEvent 0] }
  | _ => q

/-! ## Initialisation: `Init`, `SetupVideo`, `SetupAudio`, `SetupHostBuffers` -/

/-- The method `SetupVideo` (lines 157-201). -/
def SetupVideo (st : State) (dev : Device) : AJAStatus × Exec :=
  let ch := st.mConfig.fInputChannel
  let c1 : List Call :=
    [Call.EnableChannels st.mActiveFrameStores (!st.mConfig.fDoMultiFormat),
     Call.EnableInputInterrupt ch,
     Call.SubscribeInputVerticalEvent ch,
     Call.SubscribeOutputVerticalEvent 0]
  let c2 : List Call :=
    if dev.hasBiDirectionalSDI && dev.inputSourceIsSDI then
      [Call.SetSDITransmitEnable st.mActiveSDIs false, Call.WaitForOutputVerticalInterrupt 0 10]
    else []
  let c3 : List Call := [Call.GetInputVideoFormat dev.inputVideoFormat.isSome]
  match dev.inputVideoFormat with
  | none =>
      (AJAStatus.AJA_STATUS_NOINPUT,
        ⟨c1 ++ c2 ++ c3, { st with mVideoFormat := none }, Outcome.returned⟩)
  | some fmt =>
      let st1 := { st with mVideoFormat := some (dev.get8KInputFormat fmt),
                           mFormatDesc := dev.videoWriteSize }
      let addSDIs := st1.mConfig.fDoTSIRouting && !dev.isRGBFormat && dev.isQuadQuadHFR
      let st2 := if addSDIs then { st1 with mActiveSDIs := ⟨ch, 4⟩ } else st1
      let c4 : List Call :=
        if addSDIs then [Call.SetSDITransmitEnable st2.mActiveSDIs false] else []
      let c5 : List Call := if !st2.mConfig.fDoMultiFormat then [Call.SetReference] else []
      let c6 : List Call :=
        [Call.SetVideoFormat ch,
         Call.SetVANCMode st2.mActiveFrameStores,
         Call.SetQuadQuadFrameEnable true ch,
         Call.SetQuadQuadSquaresEnable (!st2.mConfig.fDoTSIRouting) ch,
         Call.SetFrameBufferFormat st2.mActiveFrameStores]
      (AJAStatus.AJA_STATUS_SUCCESS,
        ⟨c1 ++ c2 ++ c3 ++ c4 ++ c5 ++ c6, st2, Outcome.returned⟩)

/-- The method `SetupAudio` (lines 204-216). -/
def SetupAudio (st : State) (dev : Device) : AJAStatus × Exec :=
  let st1 :=
    if st.mConfig.fDoMultiFormat then
      if dev.numAudioSystems > 1 then
        if st.mConfig.fInputChannel % 65536 < dev.numAudioSystems then
          { st with mAudioSystem := dev.channelToAudioSystem st.mConfig.fInputChannel }
        else st
      else st
    else st
  (AJAStatus.AJA_STATUS_SUCCESS,
    ⟨[Call.ConfigureAudioSystems st1.mAudioSystem], st1, Outcome.returned⟩)

/-- Lines 224-233 of `SetupHostBuffers`: the two ancillary buffer sizes from the two
register values, in 32-bit unsigned arithmetic. -/
def ancSizes (withAnc : Bool) (F1OffsetFromEnd F2OffsetFromEnd : Nat) : Nat × Nat :=
  if withAnc then
    (if F2OffsetFromEnd > F1OffsetFromEnd then 0
      else (F1OffsetFromEnd + 4294967296 - F2OffsetFromEnd) % 4294967296,
     if F2OffsetFromEnd > F1OffsetFromEnd
      then (F2OffsetFromEnd + 4294967296 - F1OffsetFromEnd) % 4294967296
      else F2OffsetFromEnd)
  else (0, 0)

/-- The page-locking calls of lines 250-255 for the slot with index `i`. -/
def lockCalls (i : Nat) (frameData : NTV2FrameData) : List Call :=
  (if frameData.fVideoBuffer ≠ 0
    then [Call.DMABufferLock ⟨i, BufferKind.video, frameData.fVideoBuffer⟩] else []) ++
  (if frameData.fAudioBuffer ≠ 0
    then [Call.DMABufferLock ⟨i, BufferKind.audio, frameData.fAudioBuffer⟩] else []) ++
  (if frameData.fAncBuffer ≠ 0
    then [Call.DMABufferLock ⟨i, BufferKind.anc, frameData.fAncBuffer⟩] else [])

/-- The loop of lines 239-256, `while (mHostBuffers.size() < CIRCULAR_BUFFER_SIZE)`, run
for at most `fuel` iterations.  A slot is named by its index in `mHostBuffers`. -/
def hostBufferLoop (K : Constants) (F1AncSize F2AncSize : Nat) : Nat → State → Exec
  | 0, st => ⟨[], st, if st.mHostBuffers.length < K.CIRCULAR_BUFFER_SIZE
                        then Outcome.pending else Outcome.returned⟩
  | fuel + 1, st =>
      if st.mHostBuffers.length < K.CIRCULAR_BUFFER_SIZE then
        let i := st.mHostBuffers.length
        let frameData : NTV2FrameData :=
          { fVideoBuffer := st.mFormatDesc
            fAudioBuffer := if st.mAudioSystem.isSome then K.NTV2_AUDIOSIZE_MAX else 0
            fAncBuffer := F1AncSize
            fAncBuffer2 := F2AncSize
            fNumAudioBytes := 0
            fTimecodes := [] }
        let st1 := { st with mHostBuffers := st.mHostBuffers ++ [frameData],
                             mAVCircularBuffer := st.mAVCircularBuffer.Add i }
        (hostBufferLoop K F1AncSize F2AncSize fuel st1).prepend
          (Call.Add i :: lockCalls i frameData)
      else ⟨[], st, Outcome.returned⟩

/-- The method `SetupHostBuffers` (lines 219-258).  The loop gets as many iterations as
there are slots missing, which is what it needs. -/
def SetupHostBuffers (K : Constants) (st : State) (dev : Device) : Exec :=
  let st1 := { st with mAVCircularBuffer := st.mAVCircularBuffer.SetAbortFlag }
  let F1 := dev.ancField1Offset % 4294967296
  let F2 := dev.ancField2Offset % 4294967296
  let reads : List Call :=
    if st1.mConfig.fWithAnc then [Call.ReadRegister 1 F1, Call.ReadRegister 2 F2] else []
  let sizes := ancSizes st1.mConfig.fWithAnc F1 F2
  (hostBufferLoop K sizes.1 sizes.2
      (K.CIRCULAR_BUFFER_SIZE - st1.mHostBuffers.length) st1).prepend
    (Call.SetAbortFlag :: reads)

/-- The method `RouteInputSignal` (lines 261-267): the route is applied only when
`GetInputRouting8K` succeeded. -/
def RouteInputSignal (st : State) (dev : Device) : Bool × List Call :=
  if dev.inputRoutingOk then
    (dev.applySignalRouteOk,
      [Call.ApplySignalRoute (!st.mConfig.fDoMultiFormat) dev.applySignalRouteOk])
  else (false, [])

/-- Lines 111-154 of `Init`: from the check of the input channel to the end. -/
def InitChannel (K : Constants) (st : State) (dev : Device) : AJAStatus × Exec :=
  let origCh := st.mConfig.fInputChannel
  if origCh % 65536 ≥ dev.numFrameStores then
    (AJAStatus.AJA_STATUS_BAD_PARAM, ⟨[], st, Outcome.returned⟩)
  else if origCh % 2 = 1 ∨ (origCh ≠ 0 ∧ st.mConfig.fDoTSIRouting = false) then
    (AJAStatus.AJA_STATUS_BAD_PARAM, ⟨[], st, Outcome.returned⟩)
  else
    let tsi := st.mConfig.fDoTSIRouting
    let st1 := { st with
      mConfig := { st.mConfig with fInputSource := dev.channelToInputSource origCh },
      mActiveFrameStores := ⟨origCh, if tsi then 2 else 4⟩,
      mActiveSDIs := ⟨origCh, if tsi then (if dev.isRGBFormat then 4 else 2) else 4⟩ }
    let v := SetupVideo st1 dev
    if AJA_FAILURE v.1 then (v.1, v.2)
    else
      let a := if v.2.final.mConfig.fWithAudio then SetupAudio v.2.final dev
               else (v.1, ⟨[], v.2.final, Outcome.returned⟩)
      if AJA_FAILURE a.1 then (a.1, a.2.prepend v.2.calls)
      else
        let h := SetupHostBuffers K a.2.final dev
        let r := RouteInputSignal h.final dev
        (if r.1 then AJAStatus.AJA_STATUS_SUCCESS else AJAStatus.AJA_STATUS_FAIL,
          ⟨v.2.calls ++ a.2.calls ++ h.calls ++ r.2, h.final, h.outcome⟩)

/-- The method `Init` (lines 69-154). -/
def Init (K : Constants) (st : State) (dev : Device) : AJAStatus × Exec :=
  let c1 : List Call := [Call.GetFirstDeviceFromArgument dev.found]
  if !dev.found then (AJAStatus.AJA_STATUS_OPEN, ⟨c1, st, Outcome.returned⟩)
  else
    let c2 := c1 ++ [Call.IsDeviceReady dev.ready]
    if !dev.ready then (AJAStatus.AJA_STATUS_INITIALIZE, ⟨c2, st, Outcome.returned⟩)
    else if !dev.canDoCapture then (AJAStatus.AJA_STATUS_FEATURE, ⟨c2, st, Outcome.returned⟩)
    else if !dev.canDo12gRouting then (AJAStatus.AJA_STATUS_FEATURE, ⟨c2, st, Outcome.returned⟩)
    else if !dev.canDoFrameBufferFormat then
      (AJAStatus.AJA_STATUS_UNSUPPORTED, ⟨c2, st, Outcome.returned⟩)
    else
      let c3 := c2 ++ [Call.GetStreamingApplication, Call.GetEveryFrameServices]
      let st1 := { st with mSavedTaskMode := dev.taskMode }
      if !st1.mConfig.fDoMultiFormat && !dev.acquireOk then
        (AJAStatus.AJA_STATUS_BUSY,
          ⟨c3 ++ [Call.AcquireStreamForApplication false], st1, Outcome.returned⟩)
      else
        let c4 : List Call :=
          if !st1.mConfig.fDoMultiFormat then
            [Call.AcquireStreamForApplication true, Call.GetEveryFrameServices]
          else []
        let st2 :=
          if !st1.mConfig.fDoMultiFormat then { st1 with mSavedTaskMode := dev.taskModeAcquired }
          else st1
        let c5 : List Call := [Call.SetEveryFrameServices NTV2TaskMode.NTV2_OEM_TASKS]
        let c6 : List Call :=
          if dev.canDoMultiFormat then [Call.SetMultiFormatMode st2.mConfig.fDoMultiFormat]
          else []
        let r := InitChannel K st2 dev
        (r.1, r.2.prepend (c3 ++ c4 ++ c5 ++ c6))

/-! ## Starting the threads: `Run` -/

/-- The methods `StartConsumerThread` and `StartProducerThread` (lines 283-290, 332-339). -/
def startThread (w : Worker) : List Call :=
  [Call.ThreadAttach w, Call.ThreadSetPriority w, Call.ThreadStart w]

/-- The method `Run` (lines 270-277). -/
def Run (st : State) : AJAStatus × Exec :=
  (AJAStatus.AJA_STATUS_SUCCESS,
    ⟨startThread Worker.consumer ++ startThread Worker.producer, st, Outcome.returned⟩)

/-! ## The producer: `CaptureFrames` -/

/-- What the producer meets when it starts the ingest (lines 363-371): the result of
`AutoCirculateInitForInput`, whether another thread has raised the quit flag by the time
line 370 reads it, and the result of `AutoCirculateStart`. -/
structure IngestStart where
  initOk : Bool
  quitAtStart : Bool
  startOk : Bool
deriving DecidableEq, Repr

/-- What the producer meets in one pass of its loop: whether another thread has raised
the quit flag by the time the loop condition reads it; the device status; whether the
flag has been raised by the time the ring answers, and the slot the ring has free, if
any; what the transfer reports. -/
structure ProducerCycle where
  quitAtTest : Bool
  acStatus : AUTOCIRCULATE_STATUS
  quitAtProduce : Bool
  freeSlot : Option Nat
  capturedAudioBytes : Nat
  timecodes : List (Nat × Nat)
deriving DecidableEq, Repr

/-- One pass through a loop body: the calls made, the object and the transfer structure
afterwards, and whether the thread is left blocked inside a ring call. -/
structure Pass where
  calls : List Call
  st : State
  xfer : AUTOCIRCULATE_TRANSFER
  blocked : Bool
deriving DecidableEq, Repr

/-- The body of the loop of `CaptureFrames` (lines 376-415).  The ring answers as
`slotOrAbort` says, on the value the registered flag `mGlobalQuit` has at that moment. -/
def captureCycle (st : State) (xfer : AUTOCIRCULATE_TRANSFER) (e : ProducerCycle) : Pass :=
  let ch := st.mConfig.fInputChannel
  let status := Call.AutoCirculateGetStatus ch e.acStatus
  if e.acStatus.IsRunning && e.acStatus.HasAvailableInputFrame then
    let st1 := { st with mGlobalQuit := st.mGlobalQuit || e.quitAtProduce }
    match AJACircularBuffer.slotOrAbort
        (st1.mAVCircularBuffer.abortRegistered && st1.mGlobalQuit) e.freeSlot with
    | SlotResult.blocks => ⟨[status], st1, xfer, true⟩
    | SlotResult.noSlot => ⟨[status, Call.StartProduceNextBuffer none], st1, xfer, false⟩
    | SlotResult.slot i =>
        let frameData := st1.mHostBuffers.getD i default
        let x1 := { xfer with
          acVideoBuffer := some ⟨i, BufferKind.video, frameData.fVideoBuffer⟩ }
        let x2 := if e.acStatus.WithAudio
          then { x1 with acAudioBuffer := some ⟨i, BufferKind.audio, frameData.fAudioBuffer⟩ }
          else x1
        let x3 := if e.acStatus.WithCustomAnc
          then { x2 with
            acANCBuffer := some ⟨i, BufferKind.anc, frameData.fAncBuffer⟩,
            acANCField2Buffer := some ⟨i, BufferKind.anc2, frameData.fAncBuffer2⟩ }
          else x2
        let fd1 := if e.acStatus.WithAudio
          then { frameData with fNumAudioBytes := e.capturedAudioBytes }
          else frameData
        let fd2 := { fd1 with fTimecodes := e.timecodes }
        ⟨[status, Call.StartProduceNextBuffer (some i), Call.AutoCirculateTransfer ch x3,
            Call.EndProduceNextBuffer],
          { st1 with mHostBuffers := st1.mHostBuffers.set i fd2 }, x3, false⟩
  else ⟨[status, Call.WaitForInputVerticalInterrupt ch], st, xfer, false⟩

/-- The loop `while (!mGlobalQuit)` of `CaptureFrames` (lines 374-416), one
`ProducerCycle` per test of the condition. -/
def captureLoop : State → AUTOCIRCULATE_TRANSFER → List ProducerCycle → Exec
  | st, _, [] => ⟨[], st, if st.mGlobalQuit then Outcome.returned else Outcome.pending⟩
  | st, xfer, e :: es =>
      let st1 := { st with mGlobalQuit := st.mGlobalQuit || e.quitAtTest }
      if st1.mGlobalQuit then ⟨[], st1, Outcome.returned⟩
      else
        let c := captureCycle st1 xfer e
        if c.blocked then ⟨c.calls, c.st, Outcome.blocked⟩
        else (captureLoop c.st c.xfer es).prepend c.calls

/-- Lines 361-371 of `CaptureFrames`: the frame range, the precautionary stop, and the
start of the ingest, which raises the quit flag when it fails. -/
def startIngest (st : State) (s : IngestStart) : List Call × State :=
  let st0 := { st with mConfig := { st.mConfig with fFrames := some (0, 6) } }
  let ch := st0.mConfig.fInputChannel
  let c1 : List Call :=
    [Call.AutoCirculateStop st0.mActiveFrameStores,
     Call.AutoCirculateInitForInput ch st0.mAudioSystem s.initOk]
  let c2 : List Call := if !s.initOk then [Call.WriteGlobalQuit] else []
  let st1 := if !s.initOk then { st0 with mGlobalQuit := true } else st0
  let st2 := { st1 with mGlobalQuit := st1.mGlobalQuit || s.quitAtStart }
  if !st2.mGlobalQuit then
    if !s.startOk then
      (c1 ++ c2 ++ [Call.AutoCirculateStart ch false, Call.WriteGlobalQuit],
        { st2 with mGlobalQuit := true })
    else (c1 ++ c2 ++ [Call.AutoCirculateStart ch true], st2)
  else (c1 ++ c2, st2)

/-- The method `CaptureFrames` (lines 355-422). -/
def CaptureFrames (st : State) (s : IngestStart) (cycles : List ProducerCycle) : Exec :=
  let i := startIngest st s
  let l := captureLoop i.2 AUTOCIRCULATE_TRANSFER.empty cycles
  match l.outcome with
  | Outcome.returned =>
      ⟨i.1 ++ l.calls ++ [Call.AutoCirculateStop ⟨l.final.mConfig.fInputChannel, 1⟩],
        l.final, Outcome.returned⟩
  | _ => l.prepend i.1

/-! ## The consumer: `ConsumeFrames` -/

/-- What the consumer meets in one pass of its loop: whether another thread has raised
the quit flag by the time the loop condition reads it, whether it has by the time the
ring answers, and the oldest published slot, if any. -/
structure ConsumerCycle where
  quitAtTest : Bool
  quitAtConsume : Bool
  publishedSlot : Option Nat
deriving DecidableEq, Repr

/-- The body of the loop of `ConsumeFrames` (lines 311-322). -/
def consumeCycle (st : State) (e : ConsumerCycle) : Pass :=
  let st1 := { st with mGlobalQuit := st.mGlobalQuit || e.quitAtConsume }
  match AJACircularBuffer.slotOrAbort
      (st1.mAVCircularBuffer.abortRegistered && st1.mGlobalQuit) e.publishedSlot with
  | SlotResult.blocks => ⟨[], st1, AUTOCIRCULATE_TRANSFER.empty, true⟩
  | SlotResult.noSlot =>
      ⟨[Call.StartConsumeNextBuffer none], st1, AUTOCIRCULATE_TRANSFER.empty, false⟩
  | SlotResult.slot i =>
      ⟨[Call.StartConsumeNextBuffer (some i), Call.EndConsumeNextBuffer], st1,
        AUTOCIRCULATE_TRANSFER.empty, false⟩

/-- The loop `while (!mGlobalQuit)` of `ConsumeFrames` (lines 309-323). -/
def consumeLoop : State → List ConsumerCycle → Exec
  | st, [] => ⟨[], st, if st.mGlobalQuit then Outcome.returned else Outcome.pending⟩
  | st, e :: es =>
      let st1 := { st with mGlobalQuit := st.mGlobalQuit || e.quitAtTest }
      if st1.mGlobalQuit then ⟨[], st1, Outcome.returned⟩
      else
        let c := consumeCycle st1 e
        if c.blocked then ⟨c.calls, c.st, Outcome.blocked⟩
        else (consumeLoop c.st es).prepend c.calls

/-- The method `ConsumeFrames` (lines 306-326). -/
def ConsumeFrames (st : State) (cycles : List ConsumerCycle) : Exec :=
  consumeLoop st cycles

/-! ## The two users of the ring, interleaved -/

/-- The ring in use: the ring itself, the slots published so far (`EndProduceNextBuffer`),
and the slots the consumer has received so far (`StartConsumeNextBuffer`), oldest first. -/
structure RingUse where
  ring : AJACircularBuffer
  publishedLog : List Nat
  consumedLog : List Nat
deriving DecidableEq, Repr

/-- The next ring call of the producer, which alternates `StartProduceNextBuffer` and
`EndProduceNextBuffer` as `captureCycle` does; `abort` is the value of the quit flag. -/
def producerStep (u : RingUse) (abort : Bool) : RingUse :=
  match u.ring.producing with
  | none => { u with ring := (u.ring.StartProduceNextBuffer abort).2 }
  | some i => { u with ring := u.ring.EndProduceNextBuffer,
                       publishedLog := u.publishedLog ++ [i] }

/-- The next ring call of the consumer, which alternates `StartConsumeNextBuffer` and
`EndConsumeNextBuffer` as `consumeCycle` does; `abort` is the value of the quit flag. -/
def consumerStep (u : RingUse) (abort : Bool) : RingUse :=
  match u.ring.consuming with
  | none =>
      match u.ring.StartConsumeNextBuffer abort with
      | (SlotResult.slot i, r) => { u with ring := r, consumedLog := u.consumedLog ++ [i] }
      | _ => u
  | some _ => { u with ring := u.ring.EndConsumeNextBuffer }

/-- One step of the thread `w`. -/
def ringStep (u : RingUse) (step : Worker × Bool) : RingUse :=
  match step.1 with
  | Worker.producer => producerStep u step.2
  | Worker.consumer => consumerStep u step.2

/-- The ring after any interleaving of the two threads. -/
def ringRun (u : RingUse) (schedule : List (Worker × Bool)) : RingUse :=
  schedule.foldl ringStep u

/-- A ring as `SetupHostBuffers` leaves it, nothing published or consumed yet. -/
def ringStart (r : AJACircularBuffer) : RingUse := ⟨r, [], []⟩

/-! ## Protocols read off a sequence of calls -/

/-- Where the producer stands with respect to the ring. -/
inductive ProduceStage where
  | idle
  | acquired (slot : Nat)
  | transferred
deriving DecidableEq, Repr

/-- The produce protocol, one call at a time; `none` is a violation.  A slot obtained
from `StartProduceNextBuffer` must next be the video buffer of a device transfer, which
must next be followed by `EndProduceNextBuffer`; outside of that no transfer, no
`EndProduceNextBuffer`, and no second acquisition. -/
def produceStage : ProduceStage → Call → Option ProduceStage
  | ProduceStage.idle, Call.StartProduceNextBuffer (some i) => some (ProduceStage.acquired i)
  | ProduceStage.idle, Call.StartProduceNextBuffer none => some ProduceStage.idle
  | ProduceStage.idle, Call.AutoCirculateTransfer _ _ => none
  | ProduceStage.idle, Call.EndProduceNextBuffer => none
  | ProduceStage.idle, _ => some ProduceStage.idle
  | ProduceStage.acquired i, Call.AutoCirculateTransfer _ x =>
      if x.acVideoBuffer.map (fun b => (b.slot, b.kind)) = some (i, BufferKind.video)
      then some ProduceStage.transferred else none
  | ProduceStage.acquired _, _ => none
  | ProduceStage.transferred, Call.EndProduceNextBuffer => some ProduceStage.idle
  | ProduceStage.transferred, _ => none

/-- The produce protocol along a sequence of calls. -/
def followProduce : ProduceStage → List Call → Option ProduceStage
  | s, [] => some s
  | s, c :: cs =>
      match produceStage s c with
      | some s1 => followProduce s1 cs
      | none => none

/-- The number of produces in progress after a sequence of calls: successful
`StartProduceNextBuffer` calls minus `EndProduceNextBuffer` calls. -/
def producesInProgress : List Call → Int
  | [] => 0
  | Call.StartProduceNextBuffer (some _) :: cs => producesInProgress cs + 1
  | Call.EndProduceNextBuffer :: cs => producesInProgress cs - 1
  | _ :: cs => producesInProgress cs

/-- Where the consumer stands with respect to the ring. -/
inductive ConsumeStage where
  | idle
  | holding (slot : Nat)
deriving DecidableEq, Repr

/-- The consume protocol, one call at a time; `none` is a violation.  A slot obtained
from `StartConsumeNextBuffer` must be given back by `EndConsumeNextBuffer` before the
next `StartConsumeNextBuffer`, and there is no `EndConsumeNextBuffer` otherwise. -/
def consumeStage : ConsumeStage → Call → Option ConsumeStage
  | ConsumeStage.idle, Call.StartConsumeNextBuffer (some i) => some (ConsumeStage.holding i)
  | ConsumeStage.idle, Call.StartConsumeNextBuffer none => some ConsumeStage.idle
  | ConsumeStage.idle, Call.EndConsumeNextBuffer => none
  | ConsumeStage.idle, _ => some ConsumeStage.idle
  | ConsumeStage.holding _, Call.EndConsumeNextBuffer => some ConsumeStage.idle
  | ConsumeStage.holding _, Call.StartConsumeNextBuffer _ => none
  | ConsumeStage.holding i, _ => some (ConsumeStage.holding i)

/-- The consume protocol along a sequence of calls. -/
def followConsume : ConsumeStage → List Call → Option ConsumeStage
  | s, [] => some s
  | s, c :: cs =>
      match consumeStage s c with
      | some s1 => followConsume s1 cs
      | none => none

/-- The number of consumes in progress after a sequence of calls. -/
def consumesInProgress : List Call → Int
  | [] => 0
  | Call.StartConsumeNextBuffer (some _) :: cs => consumesInProgress cs + 1
  | Call.EndConsumeNextBuffer :: cs => consumesInProgress cs - 1
  | _ :: cs => consumesInProgress cs

/-- The calls by which `Quit` gives resources back (lines 57-63). -/
def isRelease : Call → Bool
  | Call.DMABufferUnlockAll => true
  | Call.ReleaseStreamForApplication => true
  | Call.SetEveryFrameServices _ => true
  | _ => false

/-- The calls that register something with the ring. -/
def isRingSetup : Call → Bool
  | Call.SetAbortFlag => true
  | Call.Add _ => true
  | _ => false

/-- The calls that start a worker thread. -/
def isThreadStart : Call → Bool
  | Call.ThreadStart _ => true
  | _ => false

/-- Whether, in a sequence of calls, what follows the first occurrence of the call `m` is
exactly `rest` (true when `m` does not occur). -/
def endsAfter (m : Call) (rest : List Call) : List Call → Bool
  | [] => true
  | c :: cs => if c = m then decide (cs = rest) else endsAfter m rest cs

/-- The call by which `Init` acquires the device's streaming claim. -/
def isAcquire : Call → Bool
  | Call.AcquireStreamForApplication true => true
  | _ => false

/-- The calls made inside the loop of `CaptureFrames`. -/
def isCaptureLoopCall : Call → Bool
  | Call.AutoCirculateGetStatus _ _ => true
  | Call.WaitForInputVerticalInterrupt _ => true
  | Call.StartProduceNextBuffer _ => true
  | Call.AutoCirculateTransfer _ _ => true
  | Call.EndProduceNextBuffer => true
  | _ => false

/-- The calls made inside the loop of `ConsumeFrames`. -/
def isConsumeLoopCall : Call → Bool
  | Call.StartConsumeNextBuffer _ => true
  | Call.EndConsumeNextBuffer => true
  | _ => false

/-- The calls by which `CaptureFrames` starts and stops the ingest, outside of its loop,
and its writes of the quit flag. -/
def isIngestControlCall : Call → Bool
  | Call.AutoCirculateStop _ => true
  | Call.AutoCirculateInitForInput _ _ _ => true
  | Call.AutoCirculateStart _ _ => true
  | Call.WriteGlobalQuit => true
  | _ => false

/-! ## Sample values -/

/-- A sample configuration: channel 1 (index 0), audio and ancillary capture on, TSI
routing, the device not shared. -/
def sampleConfig : CaptureConfig :=
  { fInputChannel := 0
    fInputSource := 0
    fFrames := none
    fDoMultiFormat := false
    fWithAudio := true
    fWithAnc := true
    fDoTSIRouting := true }

/-- A sample device that answers every call of `Init` favourably. -/
def sampleDevice : Device :=
  { found := true
    ready := true
    canDoCapture := true
    canDo12gRouting := true
    canDoFrameBufferFormat := true
    taskMode := NTV2TaskMode.NTV2_STANDARD_TASKS
    acquireOk := true
    taskModeAcquired := NTV2TaskMode.NTV2_STANDARD_TASKS
    canDoMultiFormat := true
    numFrameStores := 8
    channelToInputSource := fun ch => ch
    hasBiDirectionalSDI := true
    inputSourceIsSDI := true
    inputVideoFormat := some 1
    get8KInputFormat := fun f => f
    videoWriteSize := 4096
    isRGBFormat := false
    isQuadQuadHFR := false
    numAudioSystems := 8
    channelToAudioSystem := fun ch => some ch
    ancField1Offset := 512
    ancField2Offset := 256
    inputRoutingOk := true
    applySignalRouteOk := true }

/-- Sample constants: a pool of seven slots. -/
def sampleConstants : Constants := ⟨7, 1024⟩

/-- The object after a successful `Init` on the sample values. -/
def sampleState : State := (Init sampleConstants (construct sampleConfig) sampleDevice).2.final

/-- A device status with the ingest running and a frame available. -/
def statusReady : AUTOCIRCULATE_STATUS := ⟨true, true, true, true⟩

/-- A device status with the ingest running and no frame available. -/
def statusWaiting : AUTOCIRCULATE_STATUS := ⟨true, false, true, true⟩

/-- Three passes of the producer loop: the device has no frame yet; then it has one but
the quit flag is raised while the producer waits for a free slot; a third pass that would
find a slot. -/
def sampleAbortCycles : List ProducerCycle :=
  [⟨false, statusWaiting, false, none, 0, []⟩,
   ⟨false, statusReady, true, none, 0, []⟩,
   ⟨false, statusReady, false, some 0, 0, []⟩]

/-- Two passes of the consumer loop: a published slot is consumed; then the quit flag is
raised while the consumer waits for the next one. -/
def sampleConsumerCycles : List ConsumerCycle :=
  [⟨false, false, some 0⟩, ⟨false, true, none⟩]

/-- The slot that the `k`-th acquisition (counting from 0) finds under a cursor that goes
round the registered slots `sl`. -/
def slotAt (sl : List Nat) (k : Nat) : Nat := (sl[k % sl.length]?).getD 0

/-- The ring in use after `p` publications and `c` deliveries to the consumer, described
by these two numbers: both logs follow the cursor round the registered slots `sl`, the
cursors stand where the counts say, and the published count is the difference, a consume
in progress still being counted. -/
def RingUse.inv (sl : List Nat) (p c : Nat) (u : RingUse) : Prop :=
  u.ring.slots = sl ∧
  u.publishedLog = (List.range p).map (slotAt sl) ∧
  u.consumedLog = (List.range c).map (slotAt sl) ∧
  u.ring.tail = c % sl.length ∧
  (u.ring.producing = none ∧ u.ring.head = p % sl.length ∨
    u.ring.producing = some (slotAt sl p) ∧ u.ring.head = (p + 1) % sl.length) ∧
  (u.ring.consuming = none ∧ u.ring.published + c = p ∨
    u.ring.consuming.isSome = true ∧ 1 ≤ u.ring.published ∧ u.ring.published + c = p + 1)

/-- A ring that is full: the sample ring with all seven slots published. -/
def sampleFullRing : AJACircularBuffer := { sampleState.mAVCircularBuffer with published := 7 }

/-! ## The slots of the pool -/

/-- The slot that one iteration of the loop of `SetupHostBuffers` allocates (lines
241-246) on the object `st`, for the ancillary sizes computed before the loop. -/
def allocatedSlot (K : Constants) (st : State) (F1AncSize F2AncSize : Nat) : NTV2FrameData :=
  { fVideoBuffer := st.mFormatDesc
    fAudioBuffer := if st.mAudioSystem.isSome then K.NTV2_AUDIOSIZE_MAX else 0
    fAncBuffer := F1AncSize
    fAncBuffer2 := F2AncSize
    fNumAudioBytes := 0
    fTimecodes := [] }

/-- The capacities of the four buffers of a slot: video, audio, ancillary field 1,
ancillary field 2. -/
def capacities (fd : NTV2FrameData) : Nat × Nat × Nat × Nat :=
  (fd.fVideoBuffer, fd.fAudioBuffer, fd.fAncBuffer, fd.fAncBuffer2)

/-- The reference for the two ancillary buffer sizes, in the words of the specification
and in exact integer arithmetic: nothing when ancillary capture is disabled; otherwise
`(0, F2Off - F1Off)` when `F2Off > F1Off` and `(F1Off - F2Off, F2Off)` when
`F2Off <= F1Off`. -/
def ancSizesReference (withAnc : Bool) (F1Off F2Off : Int) : Int × Int :=
  if withAnc then
    if F2Off > F1Off then (0, F2Off - F1Off) else (F1Off - F2Off, F2Off)
  else (0, 0)

/-- The calls by which `Init` allocates and registers host buffers or routes the signal. -/
def isAllocOrRoute : Call → Bool
  | Call.SetAbortFlag => true
  | Call.Add _ => true
  | Call.DMABufferLock _ => true
  | Call.ReadRegister _ _ => true
  | Call.ApplySignalRoute _ _ => true
  | _ => false

/-- A second sample configuration: channel 3 (index 2) on a shared device (multi-format
mode), audio and ancillary capture on, TSI routing. -/
def sampleSharedConfig : CaptureConfig :=
  { fInputChannel := 2
    fInputSource := 0
    fFrames := none
    fDoMultiFormat := true
    fWithAudio := true
    fWithAnc := true
    fDoTSIRouting := true }

/-- A sample configuration that asks for channel 2 (index 1), which `Init` refuses. -/
def sampleOddConfig : CaptureConfig := { sampleConfig with fInputChannel := 1 }

/-- The page-locking of a field-2 ancillary buffer. -/
def isAnc2Lock : Call → Bool
  | Call.DMABufferLock b => decide (b.kind = BufferKind.anc2)
  | _ => false

/-- One pass of the producer loop that finds the device ready and slot 0 free, the
transfer reporting 16 audio bytes and one timecode. -/
def sampleProduceCycle : ProducerCycle := ⟨false, statusReady, false, some 0, 16, [(0, 1)]⟩

/-! ## Buffers handed to a transfer -/

/-- Whether every buffer registered in a transfer structure belongs to the slot `i`. -/
def AUTOCIRCULATE_TRANSFER.onlySlot (x : AUTOCIRCULATE_TRANSFER) (i : Nat) : Bool :=
  (x.acVideoBuffer.all fun b => decide (b.slot = i)) &&
  (x.acAudioBuffer.all fun b => decide (b.slot = i)) &&
  (x.acANCBuffer.all fun b => decide (b.slot = i)) &&
  (x.acANCField2Buffer.all fun b => decide (b.slot = i))

/-- A device transfer that is handed a buffer of another slot than the slot of its video
buffer, or no video buffer. -/
def hasForeignBuffer : Call → Bool
  | Call.AutoCirculateTransfer _ x =>
      match x.acVideoBuffer with
      | some v => !x.onlySlot v.slot
      | none => true
  | _ => false

/-- A device transfer that is handed an audio buffer. -/
def hasAudioBuffer : Call → Bool
  | Call.AutoCirculateTransfer _ x => x.acAudioBuffer.isSome
  | _ => false

/-- What a transfer structure may still hold from earlier passes when every pass reports
the flags `withAudio` and `withCustomAnc`: no audio buffer if audio is off, no ancillary
buffer if custom ancillary data is off. -/
def AUTOCIRCULATE_TRANSFER.fitsFlags (x : AUTOCIRCULATE_TRANSFER)
    (withAudio withCustomAnc : Bool) : Prop :=
  (withAudio = false → x.acAudioBuffer = none) ∧
  (withCustomAnc = false → x.acANCBuffer = none ∧ x.acANCField2Buffer = none)

/-- A third sample configuration: as `sampleConfig`, with audio capture off. -/
def sampleSilentConfig : CaptureConfig := { sampleConfig with fWithAudio := false }

/-- The object after a successful `Init` on the configuration without audio. -/
def sampleSilentState : State :=
  (Init sampleConstants (construct sampleSilentConfig) sampleDevice).2.final

/-- A device status with the ingest running, a frame available, and no audio. -/
def statusSilent : AUTOCIRCULATE_STATUS := ⟨true, true, false, true⟩

/-- Two passes of the producer loop without audio, filling slot 0 and then slot 1. -/
def sampleSilentCycles : List ProducerCycle :=
  [⟨false, statusSilent, false, some 0, 16, [(0, 1)]⟩,
   ⟨false, statusSilent, false, some 1, 16, [(0, 2)]⟩]

/-- The object after any interleaving of passes of the two loops on the shared slot
pool: a producer pass (`captureCycle`) or a consumer pass (`consumeCycle`) at a time. -/
def sharedPasses : State → AUTOCIRCULATE_TRANSFER → List (ProducerCycle ⊕ ConsumerCycle) → State
  | st, _, [] => st
  | st, xf, Sum.inl e :: rest =>
      sharedPasses (captureCycle st xf e).st (captureCycle st xf e).xfer rest
  | st, xf, Sum.inr e :: rest => sharedPasses (consumeCycle st e).st xf rest

/-- Slot 0 is produced, consumed, and produced again. -/
def sampleRecycling : List (ProducerCycle ⊕ ConsumerCycle) :=
  [Sum.inl sampleProduceCycle, Sum.inr ⟨false, false, some 0⟩, Sum.inl sampleProduceCycle]

/-! ## Kinds of calls -/

/-- The calls that `Init` makes: opening and claiming the device, configuring video and
audio, allocating, registering and page-locking the host buffers, routing the signal. -/
def isSetupCall : Call → Bool
  | Call.GetFirstDeviceFromArgument _ => true
  | Call.IsDeviceReady _ => true
  | Call.GetStreamingApplication => true
  | Call.GetEveryFrameServices => true
  | Call.AcquireStreamForApplication _ => true
  | Call.SetEveryFrameServices _ => true
  | Call.SetMultiFormatMode _ => true
  | Call.EnableChannels _ _ => true
  | Call.EnableInputInterrupt _ => true
  | Call.SubscribeInputVerticalEvent _ => true
  | Call.SubscribeOutputVerticalEvent _ => true
  | Call.SetSDITransmitEnable _ _ => true
  | Call.WaitForOutputVerticalInterrupt _ _ => true
  | Call.GetInputVideoFormat _ => true
  | Call.SetReference => true
  | Call.SetVideoFormat _ => true
  | Call.SetVANCMode _ => true
  | Call.SetQuadQuadFrameEnable _ _ => true
  | Call.SetQuadQuadSquaresEnable _ _ => true
  | Call.SetFrameBufferFormat _ => true
  | Call.ConfigureAudioSystems _ => true
  | Call.ReadRegister _ _ => true
  | Call.ApplySignalRoute _ _ => true
  | Call.SetAbortFlag => true
  | Call.Add _ => true
  | Call.DMABufferLock _ => true
  | _ => false

/-- The calls that are made on the device (`mDevice`, or the device scanner), as opposed
to the calls on the ring, on the threads, and the writes of the quit flag. -/
def isDeviceCall : Call → Bool
  | Call.WriteGlobalQuit => false
  | Call.ThreadActive _ _ => false
  | Call.Sleep _ => false
  | Call.ThreadAttach _ => false
  | Call.ThreadSetPriority _ => false
  | Call.ThreadStart _ => false
  | Call.SetAbortFlag => false
  | Call.Add _ => false
  | Call.StartProduceNextBuffer _ => false
  | Call.EndProduceNextBuffer => false
  | Call.StartConsumeNextBuffer _ => false
  | Call.EndConsumeNextBuffer => false
  | _ => true

/-- The ingest calls: status query, frame transfer, wait for the input interrupt. -/
def isIngestCall : Call → Bool
  | Call.AutoCirculateGetStatus _ _ => true
  | Call.AutoCirculateTransfer _ _ => true
  | Call.WaitForInputVerticalInterrupt _ => true
  | _ => false

/-- The calls that configure, start or stop the ingest engine (AutoCirculate). -/
def isEngineControl : Call → Bool
  | Call.AutoCirculateStop _ => true
  | Call.AutoCirculateInitForInput _ _ _ => true
  | Call.AutoCirculateStart _ _ => true
  | _ => false

/-! ## General facts -/

@[simp] theorem Exec.prepend_calls (cs : List Call) (r : Exec) :
    (r.prepend cs).calls = cs ++ r.calls := rfl

@[simp] theorem Exec.prepend_final (cs : List Call) (r : Exec) :
    (r.prepend cs).final = r.final := rfl

@[simp] theorem Exec.prepend_outcome (cs : List Call) (r : Exec) :
    (r.prepend cs).outcome = r.outcome := rfl

/-! ## The producer loop: the produce protocol -/

theorem followProduce_append (s : ProduceStage) (a b : List Call) :
    followProduce s (a ++ b) = (followProduce s a).bind (fun s1 => followProduce s1 b) := by
  induction a generalizing s with
  | nil => simp [followProduce]
  | cons c cs ih =>
      simp only [List.cons_append, followProduce]
      cases produceStage s c with
      | none => simp
      | some s1 => simpa using ih s1

theorem followProduce_take (s s1 : ProduceStage) (cs : List Call) (k : Nat)
    (h : followProduce s cs = some s1) : ∃ s2, followProduce s (cs.take k) = some s2 := by
  induction cs generalizing s k with
  | nil => exact ⟨s, by simp [followProduce]⟩
  | cons c cs ih =>
      cases k with
      | zero => exact ⟨s, by simp [followProduce]⟩
      | succ k =>
          simp only [followProduce] at h
          simp only [List.take_succ_cons, followProduce]
          cases hc : produceStage s c with
          | none => simp [hc] at h
          | some s3 =>
              rw [hc] at h
              exact ih s3 k h

theorem captureCycle_followProduce (st : State) (xfer : AUTOCIRCULATE_TRANSFER)
    (e : ProducerCycle) :
    followProduce ProduceStage.idle (captureCycle st xfer e).calls = some ProduceStage.idle := by
  unfold captureCycle
  by_cases hr : (e.acStatus.IsRunning && e.acStatus.HasAvailableInputFrame) = true
  · simp only [hr, if_true]
    generalize AJACircularBuffer.slotOrAbort _ _ = res
    cases res with
    | blocks => simp [followProduce, produceStage]
    | noSlot => simp [followProduce, produceStage]
    | slot i =>
        simp only [followProduce, produceStage]
        by_cases ha : e.acStatus.WithAudio = true <;>
          by_cases hc : e.acStatus.WithCustomAnc = true <;>
          simp [ha, hc, followProduce, produceStage]
  · simp [hr, followProduce, produceStage]

theorem captureLoop_followProduce (st : State) (xfer : AUTOCIRCULATE_TRANSFER)
    (es : List ProducerCycle) :
    followProduce ProduceStage.idle (captureLoop st xfer es).calls = some ProduceStage.idle := by
  induction es generalizing st xfer with
  | nil => simp [captureLoop, followProduce]
  | cons e es ih =>
      simp only [captureLoop]
      split
      · simp [followProduce]
      · split
        · exact captureCycle_followProduce _ _ _
        · rw [Exec.prepend_calls, followProduce_append, captureCycle_followProduce]
          exact ih _ _

theorem startIngest_followProduce (st : State) (s : IngestStart) :
    followProduce ProduceStage.idle (startIngest st s).1 = some ProduceStage.idle := by
  unfold startIngest
  cases s.initOk <;> cases s.startOk <;> cases s.quitAtStart <;> cases st.mGlobalQuit <;>
    simp [followProduce, produceStage]

theorem CaptureFrames_followProduce (st : State) (s : IngestStart)
    (cycles : List ProducerCycle) :
    followProduce ProduceStage.idle (CaptureFrames st s cycles).calls
      = some ProduceStage.idle := by
  simp only [CaptureFrames]
  split
  · simp [followProduce_append, startIngest_followProduce, captureLoop_followProduce,
      followProduce, produceStage]
  · simp [followProduce_append, startIngest_followProduce, captureLoop_followProduce]

theorem produceStage_inProgress (s s1 : ProduceStage) (c : Call) (cs : List Call)
    (h : produceStage s c = some s1) :
    (if s = ProduceStage.idle then 0 else 1) + producesInProgress (c :: cs)
      = (if s1 = ProduceStage.idle then (0 : Int) else 1) + producesInProgress cs := by
  cases s with
  | idle =>
      cases c with
      | StartProduceNextBuffer r =>
          cases r <;> simp [produceStage] at h <;> subst h <;> simp [producesInProgress]
          omega
      | _ => simp [produceStage] at h <;> subst h <;> simp [producesInProgress]
  | acquired i =>
      cases c with
      | AutoCirculateTransfer ch x =>
          simp only [produceStage] at h
          split at h
          · simp only [Option.some.injEq] at h
            subst h
            simp [producesInProgress]
          · simp at h
      | _ => simp [produceStage] at h
  | transferred =>
      cases c with
      | EndProduceNextBuffer =>
          simp [produceStage] at h
          subst h
          simp [producesInProgress]
      | _ => simp [produceStage] at h

theorem followProduce_inProgress (s s1 : ProduceStage) (cs : List Call)
    (h : followProduce s cs = some s1) :
    (if s = ProduceStage.idle then 0 else 1) + producesInProgress cs
      = (if s1 = ProduceStage.idle then (0 : Int) else 1) := by
  induction cs generalizing s with
  | nil =>
      simp only [followProduce, Option.some.injEq] at h
      simp [producesInProgress, h]
  | cons c cs ih =>
      simp only [followProduce] at h
      cases hc : produceStage s c with
      | none => simp [hc] at h
      | some s3 =>
          rw [hc] at h
          rw [produceStage_inProgress s s3 c cs hc]
          exact ih s3 h

/-- C1: in every execution of CaptureFrames, each StartProduceNextBuffer that returns a
slot is followed at once by one device transfer whose video buffer is the video buffer of
that slot, and then by one EndProduceNextBuffer, with no transfer, no EndProduceNextBuffer
and no further acquisition outside of that; so after any number of calls the number of
produces in progress is 0 or 1. -/
theorem CaptureFrames_produce_alternates (st : State) (s : IngestStart)
    (cycles : List ProducerCycle) :
    followProduce ProduceStage.idle (CaptureFrames st s cycles).calls
      = some ProduceStage.idle ∧
    ∀ k : Nat, producesInProgress ((CaptureFrames st s cycles).calls.take k) = 0 ∨
      producesInProgress ((CaptureFrames st s cycles).calls.take k) = 1 := by
  refine ⟨CaptureFrames_followProduce st s cycles, fun k => ?_⟩
  obtain ⟨s2, h2⟩ := followProduce_take _ _ _ k (CaptureFrames_followProduce st s cycles)
  have h := followProduce_inProgress _ _ _ h2
  simp only [if_true, zero_add] at h
  rw [h]
  by_cases hs : s2 = ProduceStage.idle <;> simp [hs]

/-! ## The producer loop: leaving on "no slot" -/

theorem captureLoop_quit (st : State) (xfer : AUTOCIRCULATE_TRANSFER)
    (es : List ProducerCycle) (h : st.mGlobalQuit = true) :
    (captureLoop st xfer es).calls = [] ∧ (captureLoop st xfer es).outcome = Outcome.returned := by
  cases es with
  | nil => simp [captureLoop, h]
  | cons e es => simp [captureLoop, h]

theorem captureCycle_config (st : State) (xfer : AUTOCIRCULATE_TRANSFER) (e : ProducerCycle) :
    (captureCycle st xfer e).st.mConfig = st.mConfig ∧
    (captureCycle st xfer e).st.mAVCircularBuffer = st.mAVCircularBuffer := by
  unfold captureCycle
  by_cases hr : (e.acStatus.IsRunning && e.acStatus.HasAvailableInputFrame) = true
  · simp only [hr, if_true]
    generalize AJACircularBuffer.slotOrAbort _ _ = res
    cases res <;> simp
  · simp [hr]

theorem captureLoop_config (st : State) (xfer : AUTOCIRCULATE_TRANSFER)
    (es : List ProducerCycle) :
    (captureLoop st xfer es).final.mConfig = st.mConfig := by
  induction es generalizing st xfer with
  | nil => simp [captureLoop]
  | cons e es ih =>
      simp only [captureLoop]
      split
      · rfl
      · split
        · exact (captureCycle_config _ _ _).1
        · rw [Exec.prepend_final, ih, (captureCycle_config _ _ _).1]

theorem startIngest_channel (st : State) (s : IngestStart) :
    (startIngest st s).2.mConfig.fInputChannel = st.mConfig.fInputChannel := by
  unfold startIngest
  cases s.initOk <;> cases s.startOk <;> cases s.quitAtStart <;> cases st.mGlobalQuit <;> simp

theorem endsAfter_append_free (m : Call) (r a b : List Call) (h : m ∉ a) :
    endsAfter m r (a ++ b) = endsAfter m r b := by
  induction a with
  | nil => rfl
  | cons c cs ih =>
      have hc : c ≠ m := fun e => h (by simp [e])
      have hcs : m ∉ cs := fun e => h (by simp [e])
      simp only [List.cons_append, endsAfter, hc, if_false]
      exact ih hcs

theorem endsAfter_free (m : Call) (r a : List Call) (h : m ∉ a) : endsAfter m r a = true := by
  have := endsAfter_append_free m r a [] h
  simpa [endsAfter] using this

theorem endsAfter_append_rest (m : Call) (r a : List Call) (h : endsAfter m [] a = true)
    (hr : m ∉ r) : endsAfter m r (a ++ r) = true := by
  induction a with
  | nil => simpa using endsAfter_free m r r hr
  | cons c cs ih =>
      by_cases hc : c = m
      · simp only [endsAfter, hc, if_true, decide_eq_true_eq] at h
        subst h
        simp [endsAfter, hc]
      · simp only [endsAfter, hc, if_false] at h
        simp only [List.cons_append, endsAfter, hc, if_false]
        exact ih h

theorem endsAfter_split (m : Call) (r cs pre post : List Call) (h : endsAfter m r cs = true)
    (hr : m ∉ r) (hcs : cs = pre ++ m :: post) : post = r := by
  induction pre generalizing cs with
  | nil =>
      subst hcs
      simpa [endsAfter] using h
  | cons c pre ih =>
      subst hcs
      by_cases hc : c = m
      · simp only [List.cons_append, endsAfter, hc, if_true, decide_eq_true_eq] at h
        exact absurd (by rw [← h]; simp) hr
      · simp only [List.cons_append, endsAfter, hc, if_false] at h
        exact ih _ h rfl

theorem slotOrAbort_noSlot (abort : Bool) (avail : Option Nat)
    (h : AJACircularBuffer.slotOrAbort abort avail = SlotResult.noSlot) : abort = true := by
  unfold AJACircularBuffer.slotOrAbort at h
  cases abort with
  | true => rfl
  | false => cases avail <;> simp at h

theorem captureCycle_noSlot (st : State) (xfer : AUTOCIRCULATE_TRANSFER) (e : ProducerCycle) :
    endsAfter (Call.StartProduceNextBuffer none) [] (captureCycle st xfer e).calls = true ∧
    (Call.StartProduceNextBuffer none ∈ (captureCycle st xfer e).calls →
      (captureCycle st xfer e).st.mGlobalQuit = true ∧
      (captureCycle st xfer e).blocked = false) := by
  unfold captureCycle
  by_cases hr : (e.acStatus.IsRunning && e.acStatus.HasAvailableInputFrame) = true
  · simp only [hr, if_true]
    generalize hres : AJACircularBuffer.slotOrAbort _ _ = res
    cases res with
    | blocks => simp [endsAfter]
    | noSlot =>
        have := slotOrAbort_noSlot _ _ hres
        simp only [Bool.and_eq_true] at this
        simp [endsAfter, this.2]
    | slot i => simp [endsAfter]
  · simp [hr, endsAfter]

theorem captureLoop_noSlot (st : State) (xfer : AUTOCIRCULATE_TRANSFER)
    (es : List ProducerCycle) :
    endsAfter (Call.StartProduceNextBuffer none) [] (captureLoop st xfer es).calls = true ∧
    (Call.StartProduceNextBuffer none ∈ (captureLoop st xfer es).calls →
      (captureLoop st xfer es).outcome = Outcome.returned) := by
  induction es generalizing st xfer with
  | nil => simp [captureLoop, endsAfter]
  | cons e es ih =>
      simp only [captureLoop]
      split
      · simp [endsAfter]
      · have hc := captureCycle_noSlot
          { st with mGlobalQuit := st.mGlobalQuit || e.quitAtTest } xfer e
        split
        · next hb =>
            refine ⟨hc.1, fun hm => ?_⟩
            have := (hc.2 hm).2
            simp [this] at hb
        · by_cases hm : Call.StartProduceNextBuffer none ∈
              (captureCycle { st with mGlobalQuit := st.mGlobalQuit || e.quitAtTest } xfer e).calls
          · have hq := captureLoop_quit _
              (captureCycle { st with mGlobalQuit := st.mGlobalQuit || e.quitAtTest } xfer e).xfer
              es (hc.2 hm).1
            simp only [Exec.prepend_calls, Exec.prepend_outcome, hq.1, hq.2, List.append_nil]
            exact ⟨hc.1, fun _ => trivial⟩
          · simp only [Exec.prepend_calls, Exec.prepend_outcome]
            rw [endsAfter_append_free _ _ _ _ hm]
            refine ⟨(ih _ _).1, fun h => (ih _ _).2 ?_⟩
            rcases List.mem_append.1 h with h | h
            · exact absurd h hm
            · exact h

theorem startIngest_noSlot_free (st : State) (s : IngestStart) :
    Call.StartProduceNextBuffer none ∉ (startIngest st s).1 := by
  unfold startIngest
  cases s.initOk <;> cases s.startOk <;> cases s.quitAtStart <;> cases st.mGlobalQuit <;> simp

/-- C2: in every execution of CaptureFrames, once StartProduceNextBuffer has returned no
slot, the only call that follows is the AutoCirculateStop of the loop exit (no status
query, no transfer, no interrupt wait, no EndProduceNextBuffer), and the method returns. -/
theorem CaptureFrames_noSlot_exits (st : State) (s : IngestStart)
    (cycles : List ProducerCycle) (pre post : List Call)
    (h : (CaptureFrames st s cycles).calls = pre ++ Call.StartProduceNextBuffer none :: post) :
    post = [Call.AutoCirculateStop ⟨st.mConfig.fInputChannel, 1⟩] ∧
    (CaptureFrames st s cycles).outcome = Outcome.returned := by
  have hl := captureLoop_noSlot (startIngest st s).2 AUTOCIRCULATE_TRANSFER.empty cycles
  have hi := startIngest_noSlot_free st s
  have hch : (captureLoop (startIngest st s).2 AUTOCIRCULATE_TRANSFER.empty cycles).final.mConfig.fInputChannel
      = st.mConfig.fInputChannel := by
    rw [captureLoop_config, startIngest_channel]
  simp only [CaptureFrames] at h ⊢
  split at h
  · next hret =>
      simp only [hret, hch] at h ⊢
      refine ⟨?_, trivial⟩
      refine endsAfter_split _ _ _ pre post ?_ (by simp) h
      rw [List.append_assoc, endsAfter_append_free _ _ _ _ hi]
      exact endsAfter_append_rest _ _ _ hl.1 (by simp)
  · next hret =>
      exfalso
      have hm : Call.StartProduceNextBuffer none ∈
          (startIngest st s).1 ++
            (captureLoop (startIngest st s).2 AUTOCIRCULATE_TRANSFER.empty cycles).calls := by
        rw [Exec.prepend_calls] at h
        rw [h]
        simp
      rcases List.mem_append.1 hm with hm | hm
      · exact hi hm
      · exact hret (hl.2 hm)

/-- A run in which the ring answers "no slot" in the second pass: the quit flag is raised
while the producer waits for a free slot. -/
theorem CaptureFrames_noSlot_exits_witness :
    (CaptureFrames sampleState ⟨true, false, true⟩ sampleAbortCycles).calls
      = [Call.AutoCirculateStop ⟨0, 2⟩, Call.AutoCirculateInitForInput 0 (some 0) true,
          Call.AutoCirculateStart 0 true, Call.AutoCirculateGetStatus 0 statusWaiting,
          Call.WaitForInputVerticalInterrupt 0, Call.AutoCirculateGetStatus 0 statusReady]
        ++ Call.StartProduceNextBuffer none :: [Call.AutoCirculateStop ⟨0, 1⟩] ∧
    ([Call.AutoCirculateStop ⟨0, 1⟩]
        = [Call.AutoCirculateStop ⟨sampleState.mConfig.fInputChannel, 1⟩] ∧
      (CaptureFrames sampleState ⟨true, false, true⟩ sampleAbortCycles).outcome
        = Outcome.returned) :=
  ⟨by decide,
    CaptureFrames_noSlot_exits sampleState ⟨true, false, true⟩ sampleAbortCycles
      [Call.AutoCirculateStop ⟨0, 2⟩, Call.AutoCirculateInitForInput 0 (some 0) true,
        Call.AutoCirculateStart 0 true, Call.AutoCirculateGetStatus 0 statusWaiting,
        Call.WaitForInputVerticalInterrupt 0, Call.AutoCirculateGetStatus 0 statusReady]
      [Call.AutoCirculateStop ⟨0, 1⟩] (by decide)⟩

/-! ## Setting up the slot pool -/

theorem lockCalls_ringSetup (i : Nat) (fd : NTV2FrameData) :
    (lockCalls i fd).filter isRingSetup = [] := by
  unfold lockCalls
  split <;> split <;> split <;> simp [isRingSetup]

theorem hostBufferLoop_spec (K : Constants) (F1 F2 : Nat) (fuel : Nat) (st : State)
    (h : st.mHostBuffers.length + fuel = K.CIRCULAR_BUFFER_SIZE) :
    (hostBufferLoop K F1 F2 fuel st).final.mHostBuffers.length = K.CIRCULAR_BUFFER_SIZE ∧
    (hostBufferLoop K F1 F2 fuel st).outcome = Outcome.returned ∧
    (hostBufferLoop K F1 F2 fuel st).final.mAVCircularBuffer
      = { st.mAVCircularBuffer with
          slots := st.mAVCircularBuffer.slots ++ List.range' st.mHostBuffers.length fuel } ∧
    (hostBufferLoop K F1 F2 fuel st).calls.filter isRingSetup
      = (List.range' st.mHostBuffers.length fuel).map Call.Add ∧
    (hostBufferLoop K F1 F2 fuel st).final.mConfig = st.mConfig ∧
    (hostBufferLoop K F1 F2 fuel st).final.mGlobalQuit = st.mGlobalQuit := by
  induction fuel generalizing st with
  | zero =>
      simp only [Nat.add_zero] at h
      simp [hostBufferLoop, h]
  | succ fuel ih =>
      have hlt : st.mHostBuffers.length < K.CIRCULAR_BUFFER_SIZE := by omega
      simp only [hostBufferLoop, hlt, if_true, Exec.prepend_calls, Exec.prepend_final,
        Exec.prepend_outcome]
      have := ih
        { st with
          mHostBuffers := st.mHostBuffers ++
            [{ fVideoBuffer := st.mFormatDesc
               fAudioBuffer := if st.mAudioSystem.isSome then K.NTV2_AUDIOSIZE_MAX else 0
               fAncBuffer := F1
               fAncBuffer2 := F2
               fNumAudioBytes := 0
               fTimecodes := [] }],
          mAVCircularBuffer := st.mAVCircularBuffer.Add st.mHostBuffers.length }
        (by simp only [List.length_append, List.length_singleton]; omega)
      obtain ⟨h1, h2, h3, h4, h5, h6⟩ := this
      refine ⟨h1, h2, ?_, ?_, h5, h6⟩
      · rw [h3]
        simp [AJACircularBuffer.Add, List.range'_succ]
      · rw [List.cons_append, List.filter_cons, List.filter_append, lockCalls_ringSetup, h4]
        simp [isRingSetup, List.range'_succ]

theorem SetupHostBuffers_spec (K : Constants) (st : State) (dev : Device)
    (hpool : st.mHostBuffers = []) :
    (SetupHostBuffers K st dev).outcome = Outcome.returned ∧
    (SetupHostBuffers K st dev).final.mHostBuffers.length = K.CIRCULAR_BUFFER_SIZE ∧
    (SetupHostBuffers K st dev).final.mAVCircularBuffer
      = { st.mAVCircularBuffer with
          slots := st.mAVCircularBuffer.slots ++ List.range K.CIRCULAR_BUFFER_SIZE,
          abortRegistered := true } ∧
    (SetupHostBuffers K st dev).calls.filter isRingSetup
      = Call.SetAbortFlag :: (List.range K.CIRCULAR_BUFFER_SIZE).map Call.Add := by
  have h := hostBufferLoop_spec K
    (ancSizes st.mConfig.fWithAnc (dev.ancField1Offset % 4294967296)
      (dev.ancField2Offset % 4294967296)).1
    (ancSizes st.mConfig.fWithAnc (dev.ancField1Offset % 4294967296)
      (dev.ancField2Offset % 4294967296)).2
    (K.CIRCULAR_BUFFER_SIZE - st.mHostBuffers.length)
    { st with mAVCircularBuffer := st.mAVCircularBuffer.SetAbortFlag }
    (by simp [hpool])
  obtain ⟨h1, h2, h3, h4, -, -⟩ := h
  simp only [hpool, List.length_nil, Nat.sub_zero] at h1 h2 h3 h4
  simp only [SetupHostBuffers, hpool, List.length_nil, Nat.sub_zero, Exec.prepend_calls,
    Exec.prepend_final, Exec.prepend_outcome]
  refine ⟨h2, h1, ?_, ?_⟩
  · rw [h3]
    simp [AJACircularBuffer.SetAbortFlag, List.range_eq_range']
  · rw [List.cons_append, List.filter_cons, List.filter_append, h4]
    by_cases hw : st.mConfig.fWithAnc = true <;> simp [hw, isRingSetup, List.range_eq_range']

theorem SetupVideo_keeps (st : State) (dev : Device) :
    (SetupVideo st dev).2.final.mHostBuffers = st.mHostBuffers ∧
    (SetupVideo st dev).2.final.mAVCircularBuffer = st.mAVCircularBuffer ∧
    (SetupVideo st dev).2.final.mConfig = st.mConfig ∧
    (SetupVideo st dev).2.calls.filter isRingSetup = [] ∧
    (SetupVideo st dev).2.calls.filter isThreadStart = [] ∧
    (SetupVideo st dev).2.calls.filter isAcquire = [] := by
  unfold SetupVideo
  cases dev.inputVideoFormat with
  | none =>
      by_cases h1 : (dev.hasBiDirectionalSDI && dev.inputSourceIsSDI) = true <;>
        simp [h1, isRingSetup, isThreadStart, isAcquire]
  | some fmt =>
      by_cases h1 : (dev.hasBiDirectionalSDI && dev.inputSourceIsSDI) = true <;>
        by_cases h2 : (st.mConfig.fDoTSIRouting && !dev.isRGBFormat && dev.isQuadQuadHFR) = true <;>
        by_cases h3 : st.mConfig.fDoMultiFormat = true <;>
        simp [h1, h2, h3, isRingSetup, isThreadStart, isAcquire]

theorem SetupAudio_keeps (st : State) (dev : Device) :
    (SetupAudio st dev).2.final.mHostBuffers = st.mHostBuffers ∧
    (SetupAudio st dev).2.final.mAVCircularBuffer = st.mAVCircularBuffer ∧
    (SetupAudio st dev).2.final.mConfig = st.mConfig ∧
    (SetupAudio st dev).2.calls.filter isRingSetup = [] ∧
    (SetupAudio st dev).2.calls.filter isThreadStart = [] ∧
    (SetupAudio st dev).2.calls.filter isAcquire = [] := by
  unfold SetupAudio
  refine ⟨?_, ?_, ?_, ?_, ?_, ?_⟩
  · split_ifs <;> rfl
  · split_ifs <;> rfl
  · split_ifs <;> rfl
  · simp [isRingSetup]
  · simp [isThreadStart]
  · simp [isAcquire]

theorem lockCalls_plain (i : Nat) (fd : NTV2FrameData) :
    (lockCalls i fd).filter isThreadStart = [] ∧ (lockCalls i fd).filter isAcquire = [] := by
  unfold lockCalls
  constructor <;> split <;> split <;> split <;> simp [isThreadStart, isAcquire]

theorem hostBufferLoop_plain (K : Constants) (F1 F2 : Nat) (fuel : Nat) (st : State) :
    (hostBufferLoop K F1 F2 fuel st).calls.filter isThreadStart = [] ∧
    (hostBufferLoop K F1 F2 fuel st).calls.filter isAcquire = [] := by
  induction fuel generalizing st with
  | zero => simp [hostBufferLoop]
  | succ fuel ih =>
      simp only [hostBufferLoop]
      split
      · simp only [Exec.prepend_calls, List.cons_append, List.filter_cons, List.filter_append,
          (lockCalls_plain _ _).1, (lockCalls_plain _ _).2, (ih _).1, (ih _).2]
        simp [isThreadStart, isAcquire]
      · simp

theorem SetupHostBuffers_plain (K : Constants) (st : State) (dev : Device) :
    (SetupHostBuffers K st dev).calls.filter isThreadStart = [] ∧
    (SetupHostBuffers K st dev).calls.filter isAcquire = [] ∧
    (SetupHostBuffers K st dev).final.mConfig = st.mConfig := by
  simp only [SetupHostBuffers, Exec.prepend_calls, Exec.prepend_final, List.cons_append,
    List.filter_cons, List.filter_append, (hostBufferLoop_plain _ _ _ _ _).1,
    (hostBufferLoop_plain _ _ _ _ _).2]
  refine ⟨?_, ?_, ?_⟩
  · by_cases hw : st.mConfig.fWithAnc = true <;> simp [hw, isThreadStart]
  · by_cases hw : st.mConfig.fWithAnc = true <;> simp [hw, isAcquire]
  · by_cases hlt : K.CIRCULAR_BUFFER_SIZE - st.mHostBuffers.length = 0
    · rw [hlt]
      simp [hostBufferLoop]
    · by_cases hle : st.mHostBuffers.length ≤ K.CIRCULAR_BUFFER_SIZE
      · exact (hostBufferLoop_spec K _ _ _ _ (by simp only; omega)).2.2.2.2.1
      · omega

theorem RouteInputSignal_plain (st : State) (dev : Device) :
    (RouteInputSignal st dev).2.filter isThreadStart = [] ∧
    (RouteInputSignal st dev).2.filter isAcquire = [] ∧
    (RouteInputSignal st dev).2.filter isRingSetup = [] := by
  unfold RouteInputSignal
  split <;> simp [isThreadStart, isAcquire, isRingSetup]

theorem InitChannel_plain (K : Constants) (st : State) (dev : Device) :
    (InitChannel K st dev).2.calls.filter isThreadStart = [] ∧
    (InitChannel K st dev).2.calls.filter isAcquire = [] ∧
    (InitChannel K st dev).2.final.mConfig.fDoMultiFormat = st.mConfig.fDoMultiFormat := by
  unfold InitChannel
  by_cases h1 : st.mConfig.fInputChannel % 65536 ≥ dev.numFrameStores
  · simp [h1]
  · by_cases h2 : st.mConfig.fInputChannel % 2 = 1 ∨
        (st.mConfig.fInputChannel ≠ 0 ∧ st.mConfig.fDoTSIRouting = false)
    · simp [h1, h2]
    · simp only [h1, h2, if_false]
      generalize hst1 : ({ st with
        mConfig := { st.mConfig with
          fInputSource := dev.channelToInputSource st.mConfig.fInputChannel },
        mActiveFrameStores := ⟨st.mConfig.fInputChannel,
          if st.mConfig.fDoTSIRouting then 2 else 4⟩,
        mActiveSDIs := ⟨st.mConfig.fInputChannel,
          if st.mConfig.fDoTSIRouting then (if dev.isRGBFormat then 4 else 2) else 4⟩ } : State)
        = st1
      have hcfg : st1.mConfig.fDoMultiFormat = st.mConfig.fDoMultiFormat := by
        rw [← hst1]
      obtain ⟨-, -, v3, -, v5, v6⟩ := SetupVideo_keeps st1 dev
      obtain ⟨-, -, a3, -, a5, a6⟩ := SetupAudio_keeps (SetupVideo st1 dev).2.final dev
      have hsa : AJA_FAILURE (SetupAudio (SetupVideo st1 dev).2.final dev).1 = false := by
        simp [SetupAudio, AJA_FAILURE]
      obtain ⟨b1, b2, b3⟩ := SetupHostBuffers_plain K
        (SetupAudio (SetupVideo st1 dev).2.final dev).2.final dev
      obtain ⟨d1, d2, d3⟩ := SetupHostBuffers_plain K (SetupVideo st1 dev).2.final dev
      have r1 := fun x => (RouteInputSignal_plain x dev).1
      have r2 := fun x => (RouteInputSignal_plain x dev).2.1
      by_cases hv : AJA_FAILURE (SetupVideo st1 dev).1 = true
      · simp only [hv, if_true]
        exact ⟨v5, v6, by rw [v3, hcfg]⟩
      · by_cases ha : (SetupVideo st1 dev).2.final.mConfig.fWithAudio = true
        · simp only [hv, ha, hsa, if_true, if_false, Bool.false_eq_true, List.filter_append]
          rw [v5, v6, a5, a6, b1, b2, r1, r2, b3, a3, v3, hcfg]
          simp
        · simp only [hv, ha, if_false, Bool.false_eq_true, List.filter_append]
          rw [v5, v6, d1, d2, r1, r2, d3, v3, hcfg]
          simp

theorem InitChannel_success (K : Constants) (st : State) (dev : Device)
    (hpool : st.mHostBuffers = [])
    (hs : (InitChannel K st dev).1 = AJAStatus.AJA_STATUS_SUCCESS) :
    (InitChannel K st dev).2.outcome = Outcome.returned ∧
    (InitChannel K st dev).2.final.mHostBuffers.length = K.CIRCULAR_BUFFER_SIZE ∧
    (InitChannel K st dev).2.final.mAVCircularBuffer
      = { st.mAVCircularBuffer with
          slots := st.mAVCircularBuffer.slots ++ List.range K.CIRCULAR_BUFFER_SIZE,
          abortRegistered := true } ∧
    (InitChannel K st dev).2.calls.filter isRingSetup
      = Call.SetAbortFlag :: (List.range K.CIRCULAR_BUFFER_SIZE).map Call.Add := by
  unfold InitChannel at hs ⊢
  by_cases h1 : st.mConfig.fInputChannel % 65536 ≥ dev.numFrameStores
  · simp [h1] at hs
  · by_cases h2 : st.mConfig.fInputChannel % 2 = 1 ∨
        (st.mConfig.fInputChannel ≠ 0 ∧ st.mConfig.fDoTSIRouting = false)
    · simp [h1, h2] at hs
    · simp only [h1, h2, if_false] at hs ⊢
      generalize hst1 : ({ st with
        mConfig := { st.mConfig with
          fInputSource := dev.channelToInputSource st.mConfig.fInputChannel },
        mActiveFrameStores := ⟨st.mConfig.fInputChannel,
          if st.mConfig.fDoTSIRouting then 2 else 4⟩,
        mActiveSDIs := ⟨st.mConfig.fInputChannel,
          if st.mConfig.fDoTSIRouting then (if dev.isRGBFormat then 4 else 2) else 4⟩ } : State)
        = st1 at hs ⊢
      have hp1 : st1.mHostBuffers = [] := by rw [← hst1]; exact hpool
      have hr1 : st1.mAVCircularBuffer = st.mAVCircularBuffer := by rw [← hst1]
      obtain ⟨v1, v2, -, v4, -, -⟩ := SetupVideo_keeps st1 dev
      obtain ⟨a1, a2, -, a4, -, -⟩ := SetupAudio_keeps (SetupVideo st1 dev).2.final dev
      have hsa : AJA_FAILURE (SetupAudio (SetupVideo st1 dev).2.final dev).1 = false := by
        simp [SetupAudio, AJA_FAILURE]
      have r3 := fun x => (RouteInputSignal_plain x dev).2.2
      by_cases hv : AJA_FAILURE (SetupVideo st1 dev).1 = true
      · simp only [hv, if_true] at hs
        simp [AJA_FAILURE, hs] at hv
      · by_cases ha : (SetupVideo st1 dev).2.final.mConfig.fWithAudio = true
        · obtain ⟨b1, b2, b3, b4⟩ := SetupHostBuffers_spec K
            (SetupAudio (SetupVideo st1 dev).2.final dev).2.final dev
            (by rw [a1, v1, hp1])
          simp only [hv, ha, hsa, if_true, if_false, Bool.false_eq_true, List.filter_append]
          rw [v4, a4, b4, r3, b1, b2, b3, a2, v2, hr1]
          simp
        · obtain ⟨b1, b2, b3, b4⟩ := SetupHostBuffers_spec K (SetupVideo st1 dev).2.final dev
            (by rw [v1, hp1])
          simp only [hv, ha, if_false, Bool.false_eq_true, List.filter_append]
          rw [v4, b4, r3, b1, b2, b3, v2, hr1]
          simp [isRingSetup]

theorem Init_plain (K : Constants) (st : State) (dev : Device) :
    (Init K st dev).2.calls.filter isThreadStart = [] ∧
    ((Init K st dev).2.calls.filter isAcquire).length ≤ 1 ∧
    ((Init K st dev).2.calls.filter isAcquire ≠ [] → st.mConfig.fDoMultiFormat = false) ∧
    (Init K st dev).2.final.mConfig.fDoMultiFormat = st.mConfig.fDoMultiFormat := by
  have c1 := fun x => (InitChannel_plain K x dev).1
  have c2 := fun x => (InitChannel_plain K x dev).2.1
  have c3 := fun x => (InitChannel_plain K x dev).2.2
  unfold Init
  cases hf : dev.found
  · simp [isThreadStart, isAcquire]
  cases hr : dev.ready
  · simp [isThreadStart, isAcquire]
  cases h1 : dev.canDoCapture
  · simp [isThreadStart, isAcquire]
  cases h2 : dev.canDo12gRouting
  · simp [isThreadStart, isAcquire]
  cases h3 : dev.canDoFrameBufferFormat
  · simp [isThreadStart, isAcquire]
  cases hm : st.mConfig.fDoMultiFormat <;> cases ha : dev.acquireOk <;>
    cases hc : dev.canDoMultiFormat <;>
    simp only [hm, ha, Bool.not_true, Bool.not_false, Bool.and_true, Bool.and_false,
      Bool.false_eq_true, if_true, if_false, Exec.prepend_calls, Exec.prepend_final,
      List.filter_append, c1, c2, c3] <;>
    simp [isThreadStart, isAcquire, hm]

theorem Init_success (K : Constants) (st : State) (dev : Device)
    (hpool : st.mHostBuffers = [])
    (hs : (Init K st dev).1 = AJAStatus.AJA_STATUS_SUCCESS) :
    (Init K st dev).2.outcome = Outcome.returned ∧
    (Init K st dev).2.final.mHostBuffers.length = K.CIRCULAR_BUFFER_SIZE ∧
    (Init K st dev).2.final.mAVCircularBuffer
      = { st.mAVCircularBuffer with
          slots := st.mAVCircularBuffer.slots ++ List.range K.CIRCULAR_BUFFER_SIZE,
          abortRegistered := true } ∧
    (Init K st dev).2.calls.filter isRingSetup
      = Call.SetAbortFlag :: (List.range K.CIRCULAR_BUFFER_SIZE).map Call.Add := by
  unfold Init at hs ⊢
  cases hf : dev.found
  · simp [hf] at hs
  cases hr : dev.ready
  · simp [hf, hr] at hs
  cases h1 : dev.canDoCapture
  · simp [hf, hr, h1] at hs
  cases h2 : dev.canDo12gRouting
  · simp [hf, hr, h1, h2] at hs
  cases h3 : dev.canDoFrameBufferFormat
  · simp [hf, hr, h1, h2, h3] at hs
  simp only [hf, hr, h1, h2, h3, Bool.not_true, Bool.false_eq_true, if_false] at hs ⊢
  cases hm : st.mConfig.fDoMultiFormat
  · cases ha : dev.acquireOk
    · simp [hm, ha] at hs
    · simp only [hm, ha, Bool.not_true, Bool.not_false, Bool.and_false, Bool.false_eq_true,
        if_true, if_false] at hs ⊢
      obtain ⟨i1, i2, i3, i4⟩ := InitChannel_success K _ dev (by exact hpool) hs
      simp only [Exec.prepend_calls, Exec.prepend_final, Exec.prepend_outcome,
        List.filter_append]
      refine ⟨i1, i2, i3, ?_⟩
      rw [i4]
      by_cases hc : dev.canDoMultiFormat = true <;> simp [hc, isRingSetup]
  · simp only [hm, Bool.not_true, Bool.false_and, Bool.false_eq_true, if_false] at hs ⊢
    obtain ⟨i1, i2, i3, i4⟩ := InitChannel_success K _ dev (by exact hpool) hs
    simp only [Exec.prepend_calls, Exec.prepend_final, Exec.prepend_outcome,
      List.filter_append]
    refine ⟨i1, i2, i3, ?_⟩
    rw [i4]
    by_cases hc : dev.canDoMultiFormat = true <;> simp [hc, isRingSetup]

theorem split_after (p : Call → Bool) (a r pre post : List Call) (c : Call)
    (ha : a.filter p = []) (hc : p c = true) (h : a ++ r = pre ++ c :: post) :
    ∃ mid, pre = a ++ mid ∧ r = mid ++ c :: post := by
  induction a generalizing pre with
  | nil => exact ⟨pre, by simp, by simpa using h⟩
  | cons x xs ih =>
      have hx : p x = false := by
        cases hpx : p x with
        | false => rfl
        | true => simp [List.filter_cons, hpx] at ha
      have hxs : xs.filter p = [] := by simpa [List.filter_cons, hx] using ha
      cases pre with
      | nil =>
          simp only [List.cons_append, List.nil_append, List.cons.injEq] at h
          rw [h.1, hc] at hx
          exact absurd hx (by simp)
      | cons y ys =>
          simp only [List.cons_append, List.cons.injEq] at h
          obtain ⟨mid, h1, h2⟩ := ih ys hxs h.2
          exact ⟨mid, by rw [h.1, h1]; rfl, h2⟩

/-! ## Which calls each method makes -/

theorem captureCycle_calls (st : State) (xfer : AUTOCIRCULATE_TRANSFER) (e : ProducerCycle) :
    ∀ c ∈ (captureCycle st xfer e).calls, isCaptureLoopCall c = true := by
  unfold captureCycle
  by_cases hr : (e.acStatus.IsRunning && e.acStatus.HasAvailableInputFrame) = true
  · simp only [hr, if_true]
    generalize AJACircularBuffer.slotOrAbort _ _ = res
    cases res <;> simp [isCaptureLoopCall]
  · simp [hr, isCaptureLoopCall]

theorem captureLoop_calls (st : State) (xfer : AUTOCIRCULATE_TRANSFER)
    (es : List ProducerCycle) :
    ∀ c ∈ (captureLoop st xfer es).calls, isCaptureLoopCall c = true := by
  induction es generalizing st xfer with
  | nil => simp [captureLoop]
  | cons e es ih =>
      simp only [captureLoop]
      split
      · simp
      · split
        · exact captureCycle_calls _ _ _
        · intro c hc
          rw [Exec.prepend_calls] at hc
          rcases List.mem_append.1 hc with h | h
          · exact captureCycle_calls _ _ _ c h
          · exact ih _ _ c h

theorem startIngest_calls (st : State) (s : IngestStart) :
    ∀ c ∈ (startIngest st s).1, isIngestControlCall c = true := by
  unfold startIngest
  cases s.initOk <;> cases s.startOk <;> cases s.quitAtStart <;> cases st.mGlobalQuit <;>
    simp [isIngestControlCall]

theorem CaptureFrames_calls (st : State) (s : IngestStart) (cycles : List ProducerCycle) :
    ∀ c ∈ (CaptureFrames st s cycles).calls,
      isCaptureLoopCall c = true ∨ isIngestControlCall c = true := by
  intro c hc
  simp only [CaptureFrames] at hc
  split at hc
  · simp only [List.mem_append, List.mem_singleton] at hc
    rcases hc with (h | h) | h
    · exact Or.inr (startIngest_calls _ _ c h)
    · exact Or.inl (captureLoop_calls _ _ _ c h)
    · subst h
      exact Or.inr rfl
  · rw [Exec.prepend_calls] at hc
    rcases List.mem_append.1 hc with h | h
    · exact Or.inr (startIngest_calls _ _ c h)
    · exact Or.inl (captureLoop_calls _ _ _ c h)

theorem consumeCycle_calls (st : State) (e : ConsumerCycle) :
    ∀ c ∈ (consumeCycle st e).calls, isConsumeLoopCall c = true := by
  unfold consumeCycle
  simp only
  generalize AJACircularBuffer.slotOrAbort _ _ = res
  cases res <;> simp [isConsumeLoopCall]

theorem ConsumeFrames_calls (st : State) (cycles : List ConsumerCycle) :
    ∀ c ∈ (ConsumeFrames st cycles).calls, isConsumeLoopCall c = true := by
  unfold ConsumeFrames
  induction cycles generalizing st with
  | nil => simp [consumeLoop]
  | cons e es ih =>
      simp only [consumeLoop]
      split
      · simp
      · split
        · exact consumeCycle_calls _ _
        · intro c hc
          rw [Exec.prepend_calls] at hc
          rcases List.mem_append.1 hc with h | h
          · exact consumeCycle_calls _ _ c h
          · exact ih _ c h

theorem filter_nil_of_forall (p q : Call → Bool) (l : List Call)
    (h : ∀ c ∈ l, q c = true) (hpq : ∀ c, q c = true → p c = false) : l.filter p = [] := by
  rw [List.filter_eq_nil_iff]
  intro c hc
  simp [hpq c (h c hc)]

/-! ## Shutdown -/

theorem waitInactive_left (w : Worker) (l : List Bool) (h : (waitInactive w l).2 = true) :
    ∃ polls, (waitInactive w l).1 = polls ++ [Call.ThreadActive w false] ∧
      ∀ c ∈ polls, c = Call.ThreadActive w true ∨ c = Call.Sleep 10 := by
  induction l with
  | nil => simp [waitInactive] at h
  | cons b bs ih =>
      cases b with
      | false => exact ⟨[], by simp [waitInactive], by simp⟩
      | true =>
          simp only [waitInactive] at h ⊢
          obtain ⟨polls, h1, h2⟩ := ih h
          refine ⟨Call.ThreadActive w true :: Call.Sleep 10 :: polls, by rw [h1]; rfl, ?_⟩
          intro c hc
          simp only [List.mem_cons] at hc
          rcases hc with hc | hc | hc
          · exact Or.inl hc
          · exact Or.inr hc
          · exact h2 c hc

theorem waitInactive_calls (w : Worker) (l : List Bool) :
    ∀ c ∈ (waitInactive w l).1, ∃ b, c = Call.ThreadActive w b ∨ c = Call.Sleep 10 := by
  induction l with
  | nil => simp [waitInactive]
  | cons b bs ih =>
      cases b with
      | false =>
          intro c hc
          simp only [waitInactive, List.mem_singleton] at hc
          exact ⟨false, Or.inl hc⟩
      | true =>
          intro c hc
          simp only [waitInactive, List.mem_cons] at hc
          rcases hc with hc | hc | hc
          · exact ⟨true, Or.inl hc⟩
          · exact ⟨true, Or.inr hc⟩
          · exact ih c hc

theorem waitInactive_of_mem (w : Worker) (l : List Bool) (h : false ∈ l) :
    (waitInactive w l).2 = true := by
  induction l with
  | nil => simp at h
  | cons b bs ih =>
      cases b with
      | false => simp [waitInactive]
      | true =>
          simp only [waitInactive]
          exact ih (by simpa using h)

theorem waitInactive_filter (p : Call → Bool) (w : Worker) (l : List Bool)
    (hp : ∀ b, p (Call.ThreadActive w b) = false) (hs : p (Call.Sleep 10) = false) :
    (waitInactive w l).1.filter p = [] := by
  rw [List.filter_eq_nil_iff]
  intro c hc
  obtain ⟨b, h | h⟩ := waitInactive_calls w l c hc
  · simp [h, hp b]
  · simp [h, hs]

theorem releaseCalls_noActive (st : State) (w : Worker) (b : Bool) :
    Call.ThreadActive w b ∉ releaseCalls st := by
  unfold releaseCalls
  split <;> simp

/-- C5: Quit writes the quit flag first, and at every resource-release call of Quit
(DMABufferUnlockAll, ReleaseStreamForApplication, restoring the task mode) the consumer
thread and, after it, the producer thread have been observed inactive, and no later call
observes a thread as active. -/
theorem Quit_releases_after_threads (st : State) (consumerActive producerActive : List Bool) :
    (Quit st consumerActive producerActive).calls.head? = some Call.WriteGlobalQuit ∧
    (Quit st consumerActive producerActive).final.mGlobalQuit = true ∧
    ∀ pre c post, (Quit st consumerActive producerActive).calls = pre ++ c :: post →
      isRelease c = true →
      pre.head? = some Call.WriteGlobalQuit ∧
      (∃ a b d, pre = a ++ Call.ThreadActive Worker.consumer false ::
          (b ++ Call.ThreadActive Worker.producer false :: d)) ∧
      ∀ w, Call.ThreadActive w true ∉ c :: post := by
  have hcf : ∀ l, (waitInactive Worker.consumer l).1.filter isRelease = [] :=
    fun l => waitInactive_filter _ _ l (fun _ => rfl) rfl
  have hpf : ∀ l, (waitInactive Worker.producer l).1.filter isRelease = [] :=
    fun l => waitInactive_filter _ _ l (fun _ => rfl) rfl
  refine ⟨?_, ?_, ?_⟩
  · unfold Quit
    simp only
    split
    · rfl
    · split <;> rfl
  · unfold Quit
    simp only
    split
    · rfl
    · split <;> rfl
  · intro pre c post h hc
    unfold Quit at h
    simp only at h
    split at h
    · exfalso
      dsimp only at h
      have hmem : c ∈ Call.WriteGlobalQuit :: (waitInactive Worker.consumer consumerActive).1 := by
        rw [h]; simp
      have hf : (Call.WriteGlobalQuit ::
          (waitInactive Worker.consumer consumerActive).1).filter isRelease = [] := by
        simp [List.filter_cons, isRelease, hcf]
      rw [List.filter_eq_nil_iff] at hf
      exact hf c hmem hc
    · next hc2 =>
      split at h
      · exfalso
        dsimp only at h
        have hmem : c ∈ Call.WriteGlobalQuit ::
            ((waitInactive Worker.consumer consumerActive).1 ++
              (waitInactive Worker.producer producerActive).1) := by
          rw [h]; simp
        have hf : (Call.WriteGlobalQuit ::
            ((waitInactive Worker.consumer consumerActive).1 ++
              (waitInactive Worker.producer producerActive).1)).filter isRelease = [] := by
          simp [List.filter_cons, isRelease, hcf, hpf]
        rw [List.filter_eq_nil_iff] at hf
        exact hf c hmem hc
      · next hp2 =>
        dsimp only at h
        simp only [Bool.not_eq_true, Bool.not_eq_false, Bool.not_eq_true',
          Bool.not_eq_false'] at hc2 hp2
        obtain ⟨pc, hpc, -⟩ := waitInactive_left _ _ hc2
        obtain ⟨pp, hpp, -⟩ := waitInactive_left _ _ hp2
        have hf : (Call.WriteGlobalQuit ::
            ((waitInactive Worker.consumer consumerActive).1 ++
              (waitInactive Worker.producer producerActive).1)).filter isRelease = [] := by
          simp [List.filter_cons, isRelease, hcf, hpf]
        have h2 : (Call.WriteGlobalQuit ::
            ((waitInactive Worker.consumer consumerActive).1 ++
              (waitInactive Worker.producer producerActive).1)) ++
            releaseCalls { st with mGlobalQuit := true } = pre ++ c :: post := by
          rw [← h]; simp
        obtain ⟨mid, hpre, hrel⟩ := split_after isRelease _ _ pre post c hf hc h2
        refine ⟨by rw [hpre]; rfl, ⟨Call.WriteGlobalQuit :: pc, pp, mid, ?_⟩, ?_⟩
        · rw [hpre, hpc, hpp]
          simp
        · intro w hw
          have : Call.ThreadActive w true ∈ releaseCalls { st with mGlobalQuit := true } := by
            rw [hrel]
            exact List.mem_append_right _ hw
          exact releaseCalls_noActive _ _ _ this

/-- A shutdown in which the consumer is seen active once and the producer twice before
they stop, checked at the call that releases the streaming claim. -/
theorem Quit_releases_after_threads_witness :
    (Quit sampleState [true, false] [true, true, false]).calls
      = [Call.WriteGlobalQuit, Call.ThreadActive Worker.consumer true, Call.Sleep 10,
          Call.ThreadActive Worker.consumer false, Call.ThreadActive Worker.producer true,
          Call.Sleep 10, Call.ThreadActive Worker.producer true, Call.Sleep 10,
          Call.ThreadActive Worker.producer false, Call.DMABufferUnlockAll]
        ++ Call.ReleaseStreamForApplication
          :: [Call.SetEveryFrameServices NTV2TaskMode.NTV2_STANDARD_TASKS] ∧
    isRelease Call.ReleaseStreamForApplication = true ∧
    Call.ThreadActive Worker.producer true ∉ Call.ReleaseStreamForApplication
          :: [Call.SetEveryFrameServices NTV2TaskMode.NTV2_STANDARD_TASKS] :=
  ⟨by decide, by decide,
    ((Quit_releases_after_threads sampleState [true, false] [true, true, false]).2.2
      [Call.WriteGlobalQuit, Call.ThreadActive Worker.consumer true, Call.Sleep 10,
        Call.ThreadActive Worker.consumer false, Call.ThreadActive Worker.producer true,
        Call.Sleep 10, Call.ThreadActive Worker.producer true, Call.Sleep 10,
        Call.ThreadActive Worker.producer false, Call.DMABufferUnlockAll]
      Call.ReleaseStreamForApplication
      [Call.SetEveryFrameServices NTV2TaskMode.NTV2_STANDARD_TASKS]
      (by decide) (by decide)).2.2 Worker.producer⟩

/-! ## The consumer loop -/

theorem followConsume_append (s : ConsumeStage) (a b : List Call) :
    followConsume s (a ++ b) = (followConsume s a).bind (fun s1 => followConsume s1 b) := by
  induction a generalizing s with
  | nil => simp [followConsume]
  | cons c cs ih =>
      simp only [List.cons_append, followConsume]
      cases consumeStage s c with
      | none => simp
      | some s1 => simpa using ih s1

theorem followConsume_take (s s1 : ConsumeStage) (cs : List Call) (k : Nat)
    (h : followConsume s cs = some s1) : ∃ s2, followConsume s (cs.take k) = some s2 := by
  induction cs generalizing s k with
  | nil => exact ⟨s, by simp [followConsume]⟩
  | cons c cs ih =>
      cases k with
      | zero => exact ⟨s, by simp [followConsume]⟩
      | succ k =>
          simp only [followConsume] at h
          simp only [List.take_succ_cons, followConsume]
          cases hc : consumeStage s c with
          | none => simp [hc] at h
          | some s3 =>
              rw [hc] at h
              exact ih s3 k h

theorem consumeStage_inProgress (s s1 : ConsumeStage) (c : Call) (cs : List Call)
    (h : consumeStage s c = some s1) :
    (if s = ConsumeStage.idle then 0 else 1) + consumesInProgress (c :: cs)
      = (if s1 = ConsumeStage.idle then (0 : Int) else 1) + consumesInProgress cs := by
  cases s with
  | idle =>
      cases c with
      | StartConsumeNextBuffer r =>
          cases r <;> simp [consumeStage] at h <;> subst h <;> simp [consumesInProgress]
          omega
      | EndConsumeNextBuffer => simp [consumeStage] at h
      | _ =>
          simp only [consumeStage, Option.some.injEq] at h
          subst h
          simp [consumesInProgress]
  | holding i =>
      cases c with
      | StartConsumeNextBuffer r => simp [consumeStage] at h
      | _ =>
          simp only [consumeStage, Option.some.injEq] at h
          subst h
          simp [consumesInProgress]

theorem followConsume_inProgress (s s1 : ConsumeStage) (cs : List Call)
    (h : followConsume s cs = some s1) :
    (if s = ConsumeStage.idle then 0 else 1) + consumesInProgress cs
      = (if s1 = ConsumeStage.idle then (0 : Int) else 1) := by
  induction cs generalizing s with
  | nil =>
      simp only [followConsume, Option.some.injEq] at h
      simp [consumesInProgress, h]
  | cons c cs ih =>
      simp only [followConsume] at h
      cases hc : consumeStage s c with
      | none => simp [hc] at h
      | some s3 =>
          rw [hc] at h
          rw [consumeStage_inProgress s s3 c cs hc]
          exact ih s3 h

theorem consumeCycle_facts (st : State) (e : ConsumerCycle) :
    followConsume ConsumeStage.idle (consumeCycle st e).calls = some ConsumeStage.idle ∧
    endsAfter (Call.StartConsumeNextBuffer none) [] (consumeCycle st e).calls = true ∧
    (Call.StartConsumeNextBuffer none ∈ (consumeCycle st e).calls →
      (consumeCycle st e).st.mGlobalQuit = true ∧ (consumeCycle st e).blocked = false) := by
  unfold consumeCycle
  simp only
  generalize hres : AJACircularBuffer.slotOrAbort _ _ = res
  cases res with
  | blocks => simp [followConsume, endsAfter]
  | noSlot =>
      have := slotOrAbort_noSlot _ _ hres
      simp only [Bool.and_eq_true] at this
      simp [followConsume, consumeStage, endsAfter, this.2]
  | slot i => simp [followConsume, consumeStage, endsAfter]

theorem consumeLoop_quit (st : State) (es : List ConsumerCycle) (h : st.mGlobalQuit = true) :
    (consumeLoop st es).calls = [] ∧ (consumeLoop st es).outcome = Outcome.returned := by
  cases es with
  | nil => simp [consumeLoop, h]
  | cons e es => simp [consumeLoop, h]

theorem consumeLoop_facts (st : State) (es : List ConsumerCycle) :
    followConsume ConsumeStage.idle (consumeLoop st es).calls = some ConsumeStage.idle ∧
    endsAfter (Call.StartConsumeNextBuffer none) [] (consumeLoop st es).calls = true ∧
    (Call.StartConsumeNextBuffer none ∈ (consumeLoop st es).calls →
      (consumeLoop st es).outcome = Outcome.returned) := by
  induction es generalizing st with
  | nil => simp [consumeLoop, followConsume, endsAfter]
  | cons e es ih =>
      simp only [consumeLoop]
      split
      · simp [followConsume, endsAfter]
      · have hc := consumeCycle_facts { st with mGlobalQuit := st.mGlobalQuit || e.quitAtTest } e
        split
        · next hb =>
            refine ⟨hc.1, hc.2.1, fun hm => ?_⟩
            have := (hc.2.2 hm).2
            simp [this] at hb
        · refine ⟨?_, ?_⟩
          · rw [Exec.prepend_calls, followConsume_append, hc.1]
            exact (ih _).1
          · by_cases hm : Call.StartConsumeNextBuffer none ∈
                (consumeCycle { st with mGlobalQuit := st.mGlobalQuit || e.quitAtTest } e).calls
            · have hq := consumeLoop_quit _ es (hc.2.2 hm).1
              simp only [Exec.prepend_calls, Exec.prepend_outcome, hq.1, hq.2, List.append_nil]
              exact ⟨hc.2.1, fun _ => trivial⟩
            · simp only [Exec.prepend_calls, Exec.prepend_outcome]
              rw [endsAfter_append_free _ _ _ _ hm]
              refine ⟨(ih _).2.1, fun h => (ih _).2.2 ?_⟩
              rcases List.mem_append.1 h with h | h
              · exact absurd h hm
              · exact h

/-- C4: in every execution of ConsumeFrames, each StartConsumeNextBuffer that returns a
slot is followed by one EndConsumeNextBuffer before the next StartConsumeNextBuffer, and
there is no EndConsumeNextBuffer otherwise, so the number of consumes in progress is
always 0 or 1; and once StartConsumeNextBuffer has returned no slot, no call follows at
all and the method returns. -/
theorem ConsumeFrames_consume_alternates (st : State) (cycles : List ConsumerCycle) :
    followConsume ConsumeStage.idle (ConsumeFrames st cycles).calls = some ConsumeStage.idle ∧
    (∀ k : Nat, consumesInProgress ((ConsumeFrames st cycles).calls.take k) = 0 ∨
      consumesInProgress ((ConsumeFrames st cycles).calls.take k) = 1) ∧
    ∀ pre post, (ConsumeFrames st cycles).calls = pre ++ Call.StartConsumeNextBuffer none :: post →
      post = [] ∧ (ConsumeFrames st cycles).outcome = Outcome.returned := by
  have hf := consumeLoop_facts st cycles
  refine ⟨hf.1, fun k => ?_, fun pre post h => ?_⟩
  · obtain ⟨s2, h2⟩ := followConsume_take _ _ _ k hf.1
    have h := followConsume_inProgress _ _ _ h2
    simp only [if_true, zero_add] at h
    unfold ConsumeFrames
    rw [h]
    by_cases hs : s2 = ConsumeStage.idle <;> simp [hs]
  · unfold ConsumeFrames at h ⊢
    refine ⟨endsAfter_split _ _ _ pre post hf.2.1 (by simp) h, hf.2.2 ?_⟩
    rw [h]
    simp

/-- A run of the consumer in which a slot is consumed and then the ring answers "no
slot": nothing follows that answer. -/
theorem ConsumeFrames_consume_alternates_witness :
    (ConsumeFrames sampleState sampleConsumerCycles).calls
      = [Call.StartConsumeNextBuffer (some 0), Call.EndConsumeNextBuffer]
        ++ Call.StartConsumeNextBuffer none :: [] ∧
    (([] : List Call) = [] ∧
      (ConsumeFrames sampleState sampleConsumerCycles).outcome = Outcome.returned) :=
  ⟨by decide,
    (ConsumeFrames_consume_alternates sampleState sampleConsumerCycles).2.2
      [Call.StartConsumeNextBuffer (some 0), Call.EndConsumeNextBuffer] [] (by decide)⟩

/-! ## Starting the ingest, and waiting for the device -/

/-- C6: when AutoCirculateInitForInput fails, or AutoCirculateStart is attempted and
fails, CaptureFrames makes exactly these calls: the precautionary stop, the init, the
start only if the init succeeded, the write of the quit flag, and the final
AutoCirculateStop; the loop body makes no call, the quit flag ends up true and the method
returns. -/
theorem CaptureFrames_start_failure (st : State) (s : IngestStart)
    (cycles : List ProducerCycle)
    (h : s.initOk = false ∨
      (st.mGlobalQuit = false ∧ s.quitAtStart = false ∧ s.startOk = false)) :
    (CaptureFrames st s cycles).calls
      = Call.AutoCirculateStop st.mActiveFrameStores ::
        Call.AutoCirculateInitForInput st.mConfig.fInputChannel st.mAudioSystem s.initOk ::
        ((if s.initOk then [Call.AutoCirculateStart st.mConfig.fInputChannel false] else []) ++
          [Call.WriteGlobalQuit, Call.AutoCirculateStop ⟨st.mConfig.fInputChannel, 1⟩]) ∧
    (CaptureFrames st s cycles).final.mGlobalQuit = true ∧
    (CaptureFrames st s cycles).outcome = Outcome.returned := by
  have hq : (startIngest st s).2.mGlobalQuit = true := by
    unfold startIngest
    rcases h with h | ⟨h1, h2, h3⟩
    · simp [h]
    · cases hi : s.initOk <;> simp [hi, h1, h2, h3]
  have hc : (startIngest st s).1
      = Call.AutoCirculateStop st.mActiveFrameStores ::
        Call.AutoCirculateInitForInput st.mConfig.fInputChannel st.mAudioSystem s.initOk ::
        ((if s.initOk then [Call.AutoCirculateStart st.mConfig.fInputChannel false] else []) ++
          [Call.WriteGlobalQuit]) := by
    unfold startIngest
    rcases h with h | ⟨h1, h2, h3⟩
    · simp [h]
    · cases hi : s.initOk <;> simp [hi, h1, h2, h3]
  have hl := captureLoop_quit (startIngest st s).2 AUTOCIRCULATE_TRANSFER.empty cycles hq
  have hf : (captureLoop (startIngest st s).2 AUTOCIRCULATE_TRANSFER.empty cycles).final.mGlobalQuit
      = true := by
    cases cycles with
    | nil => simp [captureLoop, hq]
    | cons e es => simp [captureLoop, hq]
  have hch := captureLoop_config (startIngest st s).2 AUTOCIRCULATE_TRANSFER.empty cycles
  simp only [CaptureFrames, hl.2, hl.1, hc, hf, hch, startIngest_channel]
  simp

/-- A start of the ingest that fails at AutoCirculateStart. -/
theorem CaptureFrames_start_failure_witness :
    (sampleState.mGlobalQuit = false ∧ false = false ∧ false = false) ∧
    (CaptureFrames sampleState ⟨true, false, false⟩ sampleAbortCycles).calls
      = [Call.AutoCirculateStop ⟨0, 2⟩, Call.AutoCirculateInitForInput 0 (some 0) true,
          Call.AutoCirculateStart 0 false, Call.WriteGlobalQuit,
          Call.AutoCirculateStop ⟨0, 1⟩] :=
  ⟨by decide,
    (CaptureFrames_start_failure sampleState ⟨true, false, false⟩ sampleAbortCycles
      (Or.inr (by decide))).1⟩

/-- C7: a pass of the producer loop in which the device is not ready (ingest not running,
or no frame available) makes the status query and one WaitForInputVerticalInterrupt and
nothing else, leaves the object (every slot included) and the transfer structure as they
were, and hands over to the loop condition: the next pass, if the quit flag is not found
raised, starts with the status query. -/
theorem captureLoop_waits_when_not_ready (st : State) (xfer : AUTOCIRCULATE_TRANSFER)
    (e : ProducerCycle) (es : List ProducerCycle)
    (hq : st.mGlobalQuit = false) (ht : e.quitAtTest = false)
    (hr : (e.acStatus.IsRunning && e.acStatus.HasAvailableInputFrame) = false) :
    captureLoop st xfer (e :: es)
      = (captureLoop st xfer es).prepend
          [Call.AutoCirculateGetStatus st.mConfig.fInputChannel e.acStatus,
           Call.WaitForInputVerticalInterrupt st.mConfig.fInputChannel] ∧
    (captureCycle st xfer e).st = st ∧
    (captureCycle st xfer e).xfer = xfer ∧
    ∀ e2 rest, (captureLoop st xfer (e2 :: rest)).calls.head?
      = if e2.quitAtTest then none
        else some (Call.AutoCirculateGetStatus st.mConfig.fInputChannel e2.acStatus) := by
  have hst : ({ st with mGlobalQuit := st.mGlobalQuit || e.quitAtTest } : State) = st := by
    cases st
    simp only [State.mk.injEq, true_and] at hq ⊢
    simp [hq, ht]
  have hcyc : captureCycle st xfer e
      = ⟨[Call.AutoCirculateGetStatus st.mConfig.fInputChannel e.acStatus,
          Call.WaitForInputVerticalInterrupt st.mConfig.fInputChannel], st, xfer, false⟩ := by
    unfold captureCycle
    simp [hr]
  refine ⟨?_, by rw [hcyc], by rw [hcyc], ?_⟩
  · simp only [captureLoop, hst]
    simp only [hq, hcyc]
    simp [ht]
  · intro e2 rest
    cases h2 : e2.quitAtTest with
    | true => simp [captureLoop, h2]
    | false =>
        have hst2 : ({ st with mGlobalQuit := st.mGlobalQuit || e2.quitAtTest } : State) = st := by
          cases st
          simp only [State.mk.injEq, true_and] at hq ⊢
          simp [hq, h2]
        simp only [captureLoop, hst2]
        simp only [hq, Bool.false_eq_true, if_false]
        unfold captureCycle
        by_cases hr2 : (e2.acStatus.IsRunning && e2.acStatus.HasAvailableInputFrame) = true
        · simp only [hr2, if_true]
          generalize AJACircularBuffer.slotOrAbort _ _ = res
          cases res <;> simp [Exec.prepend, h2]
        · simp [hr2, Exec.prepend, h2]

/-- A pass in which the ingest runs but no frame is available yet. -/
theorem captureLoop_waits_when_not_ready_witness :
    (sampleState.mGlobalQuit = false ∧ (statusWaiting.IsRunning
        && statusWaiting.HasAvailableInputFrame) = false) ∧
    captureLoop sampleState AUTOCIRCULATE_TRANSFER.empty
        (⟨false, statusWaiting, false, none, 0, []⟩ :: [])
      = (captureLoop sampleState AUTOCIRCULATE_TRANSFER.empty []).prepend
          [Call.AutoCirculateGetStatus sampleState.mConfig.fInputChannel statusWaiting,
           Call.WaitForInputVerticalInterrupt sampleState.mConfig.fInputChannel] :=
  ⟨by decide,
    (captureLoop_waits_when_not_ready sampleState AUTOCIRCULATE_TRANSFER.empty
      ⟨false, statusWaiting, false, none, 0, []⟩ [] (by decide) rfl (by decide)).1⟩

/-! ## Destruction -/

theorem Quit_returns (st : State) (consumerActive producerActive : List Bool)
    (hc : false ∈ consumerActive) (hp : false ∈ producerActive) :
    Quit st consumerActive producerActive
      = ⟨Call.WriteGlobalQuit ::
          ((waitInactive Worker.consumer consumerActive).1 ++
            (waitInactive Worker.producer producerActive).1 ++
            releaseCalls { st with mGlobalQuit := true }),
        { st with mGlobalQuit := true }, Outcome.returned⟩ := by
  unfold Quit
  simp [waitInactive_of_mem _ _ hc, waitInactive_of_mem _ _ hp]

/-- C8: if each worker thread is eventually observed inactive, destroying the object, in
whatever state it is, returns with the quit flag true, having called DMABufferUnlockAll,
and having called ReleaseStreamForApplication at least as often as Init, run on an object
with the same multi-format setting, acquired the streaming claim. -/
theorem destroy_full_shutdown (K : Constants) (st0 : State) (dev : Device) (st : State)
    (consumerActive producerActive : List Bool)
    (hcfg : st.mConfig.fDoMultiFormat = st0.mConfig.fDoMultiFormat)
    (hc : false ∈ consumerActive) (hp : false ∈ producerActive) :
    (destroy st consumerActive producerActive).outcome = Outcome.returned ∧
    (destroy st consumerActive producerActive).final.mGlobalQuit = true ∧
    Call.DMABufferUnlockAll ∈ (destroy st consumerActive producerActive).calls ∧
    ((Init K st0 dev).2.calls.filter isAcquire).length
      ≤ (destroy st consumerActive producerActive).calls.count
          Call.ReleaseStreamForApplication := by
  have hq := Quit_returns st consumerActive producerActive hc hp
  obtain ⟨-, i2, i3, -⟩ := Init_plain K st0 dev
  unfold destroy
  simp only [hq]
  refine ⟨trivial, trivial, ?_, ?_⟩
  · simp [releaseCalls]
  · by_cases hacq : (Init K st0 dev).2.calls.filter isAcquire = []
    · simp [hacq]
    · have hm := i3 hacq
      rw [← hcfg] at hm
      have hone : 1 ≤ (releaseCalls { st with mGlobalQuit := true }).count
          Call.ReleaseStreamForApplication := by
        simp [releaseCalls, hm]
      calc ((Init K st0 dev).2.calls.filter isAcquire).length ≤ 1 := i2
        _ ≤ (releaseCalls { st with mGlobalQuit := true }).count
              Call.ReleaseStreamForApplication := hone
        _ ≤ _ := by
          simp only [List.count_cons, List.count_append]
          omega

/-- The object initialised on the sample device, destroyed without Quit having been called
and while the producer is still seen active once. -/
theorem destroy_full_shutdown_witness :
    (false ∈ [false] ∧ false ∈ [true, false]) ∧
    ((Init sampleConstants (construct sampleConfig) sampleDevice).2.calls.filter isAcquire).length
      = 1 ∧
    Call.ReleaseStreamForApplication ∈ (destroy sampleState [false] [true, false]).calls ∧
    ((destroy sampleState [false] [true, false]).outcome = Outcome.returned ∧
      (destroy sampleState [false] [true, false]).final.mGlobalQuit = true ∧
      Call.DMABufferUnlockAll ∈ (destroy sampleState [false] [true, false]).calls ∧
      ((Init sampleConstants (construct sampleConfig) sampleDevice).2.calls.filter isAcquire).length
        ≤ (destroy sampleState [false] [true, false]).calls.count
            Call.ReleaseStreamForApplication) :=
  ⟨by decide, by decide, by decide,
    destroy_full_shutdown sampleConstants (construct sampleConfig) sampleDevice sampleState
      [false] [true, false] (by decide) (by decide) (by decide)⟩

/-! ## The pool is registered before the loops start -/

theorem Quit_calls_ringSetup (st : State) (consumerActive producerActive : List Bool) :
    (Quit st consumerActive producerActive).calls.filter isRingSetup = [] := by
  have hcf : ∀ w l, (waitInactive w l).1.filter isRingSetup = [] :=
    fun w l => waitInactive_filter _ w l (fun _ => rfl) rfl
  have hrel : (releaseCalls { st with mGlobalQuit := true }).filter isRingSetup = [] := by
    unfold releaseCalls
    split <;> simp [isRingSetup]
  unfold Quit
  simp only
  split
  · simp [List.filter_cons, isRingSetup, hcf]
  · split
    · simp [List.filter_cons, isRingSetup, hcf]
    · simp only [List.filter_cons, List.filter_append, hcf, hrel]
      simp [isRingSetup]

/-- C9: SetupHostBuffers, run on an object whose pool and ring are still empty, returns
with exactly CIRCULAR_BUFFER_SIZE slots in mHostBuffers, the ring holding the slots
0, 1, ... in allocation order, and its ring registrations being SetAbortFlag followed by
one Add per slot in that order.  A successful Init of a constructed object contains these
registrations, and when Run then starts a thread they have all been made and none
follows; CaptureFrames, ConsumeFrames, Quit and Run register nothing. -/
theorem SetupHostBuffers_registers_pool (K : Constants) (cfg : CaptureConfig) (dev : Device)
    (st : State) (hpool : st.mHostBuffers = []) (hring : st.mAVCircularBuffer.slots = []) :
    ((SetupHostBuffers K st dev).outcome = Outcome.returned ∧
      (SetupHostBuffers K st dev).final.mHostBuffers.length = K.CIRCULAR_BUFFER_SIZE ∧
      (SetupHostBuffers K st dev).final.mAVCircularBuffer.slots
        = List.range K.CIRCULAR_BUFFER_SIZE ∧
      (SetupHostBuffers K st dev).final.mAVCircularBuffer.abortRegistered = true ∧
      (SetupHostBuffers K st dev).calls.filter isRingSetup
        = Call.SetAbortFlag :: (List.range K.CIRCULAR_BUFFER_SIZE).map Call.Add) ∧
    ((Init K (construct cfg) dev).1 = AJAStatus.AJA_STATUS_SUCCESS →
      (Init K (construct cfg) dev).2.final.mHostBuffers.length = K.CIRCULAR_BUFFER_SIZE ∧
      (Init K (construct cfg) dev).2.final.mAVCircularBuffer.slots
        = List.range K.CIRCULAR_BUFFER_SIZE ∧
      ∀ pre c post,
        (Init K (construct cfg) dev).2.calls ++ (Run (Init K (construct cfg) dev).2.final).2.calls
          = pre ++ c :: post →
        isThreadStart c = true →
        pre.filter isRingSetup
          = Call.SetAbortFlag :: (List.range K.CIRCULAR_BUFFER_SIZE).map Call.Add ∧
        post.filter isRingSetup = []) ∧
    (∀ (x : State) (s : IngestStart) (cycles : List ProducerCycle),
      (CaptureFrames x s cycles).calls.filter isRingSetup = []) ∧
    (∀ (x : State) (cycles : List ConsumerCycle),
      (ConsumeFrames x cycles).calls.filter isRingSetup = []) ∧
    (∀ (x : State) (a b : List Bool), (Quit x a b).calls.filter isRingSetup = []) ∧
    ∀ x : State, (Run x).2.calls.filter isRingSetup = [] := by
  have hrun : ∀ x : State, (Run x).2.calls.filter isRingSetup = [] := by
    intro x
    simp [Run, startThread, isRingSetup]
  refine ⟨?_, ?_, ?_, ?_, Quit_calls_ringSetup, hrun⟩
  · obtain ⟨h1, h2, h3, h4⟩ := SetupHostBuffers_spec K st dev hpool
    refine ⟨h1, h2, ?_, ?_, h4⟩
    · rw [h3]
      simp [hring]
    · rw [h3]
  · intro hs
    obtain ⟨-, i2, i3, i4⟩ := Init_success K (construct cfg) dev rfl hs
    refine ⟨i2, ?_, ?_⟩
    · rw [i3]
      simp [construct, AJACircularBuffer.empty]
    · intro pre c post h hc
      obtain ⟨mid, hpre, hrest⟩ := split_after isThreadStart _ _ pre post c
        (Init_plain K (construct cfg) dev).1 hc h
      have hr := hrun (Init K (construct cfg) dev).2.final
      rw [hrest, List.filter_append, List.filter_cons] at hr
      have hmid : mid.filter isRingSetup = [] := (List.append_eq_nil.1 hr).1
      have hpost : (if isRingSetup c = true then c :: post.filter isRingSetup
          else post.filter isRingSetup) = [] := (List.append_eq_nil.1 hr).2
      refine ⟨by rw [hpre, List.filter_append, hmid, i4, List.append_nil], ?_⟩
      split at hpost
      · simp at hpost
      · exact hpost
  · intro x s cycles
    refine filter_nil_of_forall isRingSetup
      (fun c => isCaptureLoopCall c || isIngestControlCall c) _ ?_ ?_
    · intro c hc
      rcases CaptureFrames_calls x s cycles c hc with h | h <;> simp [h]
    · intro c hc
      cases c <;> simp [isCaptureLoopCall, isIngestControlCall] at hc <;> rfl
  · intro x cycles
    refine filter_nil_of_forall isRingSetup isConsumeLoopCall _
      (ConsumeFrames_calls x cycles) ?_
    intro c hc
    cases c <;> simp [isConsumeLoopCall] at hc <;> rfl

/-- The sample initialisation followed by Run, looked at when the consumer thread is
started: the seven slots are registered by then, and nothing is registered afterwards. -/
theorem SetupHostBuffers_registers_pool_witness :
    ((construct sampleConfig).mHostBuffers = [] ∧
      (construct sampleConfig).mAVCircularBuffer.slots = [] ∧
      (Init sampleConstants (construct sampleConfig) sampleDevice).1
        = AJAStatus.AJA_STATUS_SUCCESS ∧
      isThreadStart (Call.ThreadStart Worker.consumer) = true) ∧
    (SetupHostBuffers sampleConstants (construct sampleConfig) sampleDevice).calls.filter
        isRingSetup
      = Call.SetAbortFlag :: (List.range sampleConstants.CIRCULAR_BUFFER_SIZE).map Call.Add ∧
    sampleState.mAVCircularBuffer.slots = [0, 1, 2, 3, 4, 5, 6] ∧
    ((Init sampleConstants (construct sampleConfig) sampleDevice).2.calls ++
        [Call.ThreadAttach Worker.consumer, Call.ThreadSetPriority Worker.consumer]).filter
        isRingSetup
      = Call.SetAbortFlag :: (List.range sampleConstants.CIRCULAR_BUFFER_SIZE).map Call.Add ∧
    (startThread Worker.producer).filter isRingSetup = [] :=
  ⟨by decide,
    (SetupHostBuffers_registers_pool sampleConstants sampleConfig sampleDevice
      (construct sampleConfig) (by decide) (by decide)).1.2.2.2.2,
    by decide,
    ((SetupHostBuffers_registers_pool sampleConstants sampleConfig sampleDevice
      (construct sampleConfig) (by decide) (by decide)).2.1 (by decide)).2.2
      ((Init sampleConstants (construct sampleConfig) sampleDevice).2.calls ++
        [Call.ThreadAttach Worker.consumer, Call.ThreadSetPriority Worker.consumer])
      (Call.ThreadStart Worker.consumer) (startThread Worker.producer)
      (by simp [Run, startThread]) (by decide)⟩

/-! ## The ring: order of delivery -/

theorem slotOrAbort_slot (abort : Bool) (avail : Option Nat) (i : Nat)
    (h : AJACircularBuffer.slotOrAbort abort avail = SlotResult.slot i) :
    abort = false ∧ avail = some i := by
  unfold AJACircularBuffer.slotOrAbort at h
  cases abort with
  | true => simp at h
  | false =>
      cases avail with
      | none => simp at h
      | some j =>
          simp only [Bool.false_eq_true, if_false, SlotResult.slot.injEq] at h
          exact ⟨rfl, by rw [h]⟩

theorem producerStep_inv (sl : List Nat) (p c : Nat) (u : RingUse) (abort : Bool)
    (h : u.inv sl p c) :
    (producerStep u abort).inv sl p c ∨ (producerStep u abort).inv sl (p + 1) c := by
  obtain ⟨h1, h2, h3, h4, h5, h6⟩ := h
  unfold producerStep
  rcases h5 with ⟨hp, hh⟩ | ⟨hp, hh⟩
  · left
    simp only [hp]
    unfold AJACircularBuffer.StartProduceNextBuffer
    cases hres : AJACircularBuffer.slotOrAbort (u.ring.abortRegistered && abort)
        u.ring.nextFree with
    | blocks => exact ⟨h1, h2, h3, h4, Or.inl ⟨hp, hh⟩, h6⟩
    | noSlot => exact ⟨h1, h2, h3, h4, Or.inl ⟨hp, hh⟩, h6⟩
    | slot i =>
        obtain ⟨-, hav⟩ := slotOrAbort_slot _ _ _ hres
        have hi : i = slotAt sl p := by
          unfold AJACircularBuffer.nextFree at hav
          split at hav
          · rw [h1, hh] at hav
            simp [slotAt, hav]
          · simp at hav
        refine ⟨h1, h2, h3, h4, Or.inr ⟨by simp [hi], ?_⟩, h6⟩
        simp [h1, hh, Nat.add_mod]
  · right
    simp only [hp]
    unfold AJACircularBuffer.EndProduceNextBuffer
    simp only [hp]
    refine ⟨h1, ?_, h3, h4, Or.inl ⟨rfl, hh⟩, ?_⟩
    · simp [h2, List.range_succ]
    · rcases h6 with ⟨hc, hn⟩ | ⟨hc, hone, hn⟩
      · exact Or.inl ⟨hc, by simp only; omega⟩
      · exact Or.inr ⟨hc, by simp only; omega, by simp only; omega⟩

theorem consumerStep_inv (sl : List Nat) (p c : Nat) (u : RingUse) (abort : Bool)
    (h : u.inv sl p c) :
    (consumerStep u abort).inv sl p c ∨ (consumerStep u abort).inv sl p (c + 1) := by
  obtain ⟨h1, h2, h3, h4, h5, h6⟩ := h
  unfold consumerStep
  rcases h6 with ⟨hc, hn⟩ | ⟨hc, hone, hn⟩
  · simp only [hc]
    unfold AJACircularBuffer.StartConsumeNextBuffer
    cases hres : AJACircularBuffer.slotOrAbort (u.ring.abortRegistered && abort)
        u.ring.nextPublished with
    | blocks => exact Or.inl ⟨h1, h2, h3, h4, h5, Or.inl ⟨hc, hn⟩⟩
    | noSlot => exact Or.inl ⟨h1, h2, h3, h4, h5, Or.inl ⟨hc, hn⟩⟩
    | slot i =>
        right
        obtain ⟨-, hav⟩ := slotOrAbort_slot _ _ _ hres
        unfold AJACircularBuffer.nextPublished at hav
        split at hav
        · next hpos =>
            have hi : i = slotAt sl c := by
              rw [h1, h4] at hav
              simp [slotAt, hav]
            refine ⟨h1, h2, ?_, ?_, h5, Or.inr ⟨rfl, hpos, by simp only; omega⟩⟩
            · simp [h3, List.range_succ, hi]
            · simp [h1, h4, Nat.add_mod]
        · simp at hav
  · left
    cases hcs : u.ring.consuming with
    | none => simp [hcs] at hc
    | some j =>
        simp only
        unfold AJACircularBuffer.EndConsumeNextBuffer
        simp only [hcs]
        exact ⟨h1, h2, h3, h4, h5, Or.inl ⟨rfl, by simp only; omega⟩⟩

theorem ringRun_inv (sl : List Nat) (schedule : List (Worker × Bool)) (p c : Nat)
    (u : RingUse) (h : u.inv sl p c) :
    ∃ p1 c1, (ringRun u schedule).inv sl p1 c1 := by
  induction schedule generalizing u p c with
  | nil => exact ⟨p, c, h⟩
  | cons step rest ih =>
      simp only [ringRun, List.foldl_cons]
      cases hw : step.1 with
      | producer =>
          have := producerStep_inv sl p c u step.2 h
          simp only [ringStep, hw]
          rcases this with h1 | h1
          · exact ih _ _ _ h1
          · exact ih _ _ _ h1
      | consumer =>
          have := consumerStep_inv sl p c u step.2 h
          simp only [ringStep, hw]
          rcases this with h1 | h1
          · exact ih _ _ _ h1
          · exact ih _ _ _ h1

theorem inv_fifo (sl : List Nat) (p c : Nat) (u : RingUse) (h : u.inv sl p c) :
    u.consumedLog = u.publishedLog.take u.consumedLog.length := by
  obtain ⟨-, h2, h3, -, -, h6⟩ := h
  have hcp : c ≤ p := by
    rcases h6 with ⟨-, hn⟩ | ⟨-, hone, hn⟩ <;> omega
  rw [h2, h3]
  simp only [List.length_map, List.length_range, ← List.map_take, List.take_range]
  rw [Nat.min_eq_left hcp]

theorem produce_pass (sl : List Nat) (p c : Nat) (u : RingUse) (h : u.inv sl p c)
    (hp : u.ring.producing = none) (hfree : u.ring.published < sl.length) :
    (producerStep (producerStep u false) false).inv sl (p + 1) c ∧
    (producerStep (producerStep u false) false).ring.producing = none ∧
    (producerStep (producerStep u false) false).ring.published = u.ring.published + 1 ∧
    (producerStep (producerStep u false) false).ring.consuming = u.ring.consuming := by
  obtain ⟨h1, h2, h3, h4, h5, h6⟩ := h
  have hh : u.ring.head = p % sl.length := by
    rcases h5 with ⟨-, hh⟩ | ⟨hq, -⟩
    · exact hh
    · rw [hp] at hq
      simp at hq
  have hpos : 0 < sl.length := by omega
  have hlt : p % sl.length < sl.length := Nat.mod_lt _ hpos
  have hfree2 : u.ring.published < u.ring.slots.length := by rw [h1]; exact hfree
  have hget : u.ring.slots[u.ring.head]? = some (slotAt sl p) := by
    rw [h1, hh]
    simp [slotAt, List.getElem?_eq_getElem hlt]
  have hstep : producerStep u false
      = { u with ring := { u.ring with head := (u.ring.head + 1) % u.ring.slots.length,
                                        producing := some (slotAt sl p) } } := by
    unfold producerStep
    simp only [hp]
    unfold AJACircularBuffer.StartProduceNextBuffer AJACircularBuffer.nextFree
      AJACircularBuffer.slotOrAbort
    simp [hfree2, hget]
  rw [hstep]
  unfold producerStep
  simp only
  unfold AJACircularBuffer.EndProduceNextBuffer
  simp only
  refine ⟨⟨h1, ?_, h3, h4, Or.inl ⟨rfl, ?_⟩, ?_⟩, trivial, trivial, trivial⟩
  · simp [h2, List.range_succ]
  · simp [h1, hh, Nat.add_mod]
  · rcases h6 with ⟨hc, hn⟩ | ⟨hc, hone, hn⟩
    · exact Or.inl ⟨hc, by simp only; omega⟩
    · exact Or.inr ⟨hc, by simp only; omega, by simp only; omega⟩

theorem consume_pass (sl : List Nat) (p c : Nat) (u : RingUse) (h : u.inv sl p c)
    (hc : u.ring.consuming = none) (hpub : 0 < u.ring.published)
    (hcap : u.ring.published ≤ sl.length) :
    (consumerStep (consumerStep u false) false).inv sl p (c + 1) ∧
    (consumerStep (consumerStep u false) false).ring.consuming = none ∧
    (consumerStep (consumerStep u false) false).ring.published = u.ring.published - 1 ∧
    (consumerStep (consumerStep u false) false).publishedLog = u.publishedLog := by
  obtain ⟨h1, h2, h3, h4, h5, h6⟩ := h
  have hn : u.ring.published + c = p := by
    rcases h6 with ⟨-, hn⟩ | ⟨hq, -, -⟩
    · exact hn
    · rw [hc] at hq
      simp at hq
  have hpos : 0 < sl.length := by omega
  have hlt : c % sl.length < sl.length := Nat.mod_lt _ hpos
  have hget : u.ring.slots[u.ring.tail]? = some (slotAt sl c) := by
    rw [h1, h4]
    simp [slotAt, List.getElem?_eq_getElem hlt]
  have hstep : consumerStep u false
      = { u with ring := { u.ring with tail := (u.ring.tail + 1) % u.ring.slots.length,
                                        consuming := some (slotAt sl c) },
                 consumedLog := u.consumedLog ++ [slotAt sl c] } := by
    unfold consumerStep
    simp only [hc]
    unfold AJACircularBuffer.StartConsumeNextBuffer AJACircularBuffer.nextPublished
      AJACircularBuffer.slotOrAbort
    simp [hpub, hget]
  rw [hstep]
  unfold consumerStep
  simp only
  unfold AJACircularBuffer.EndConsumeNextBuffer
  simp only
  refine ⟨⟨h1, h2, ?_, ?_, h5, Or.inl ⟨rfl, by simp only; omega⟩⟩, trivial, trivial, trivial⟩
  · simp [h3, List.range_succ]
  · simp [h1, h4, Nat.add_mod]

theorem produce_batch (sl : List Nat) (n : Nat) (p c : Nat) (u : RingUse)
    (h : u.inv sl p c) (hp : u.ring.producing = none)
    (hfree : u.ring.published + n ≤ sl.length) :
    (ringRun u (List.replicate (2 * n) (Worker.producer, false))).inv sl (p + n) c ∧
    (ringRun u (List.replicate (2 * n) (Worker.producer, false))).ring.producing = none ∧
    (ringRun u (List.replicate (2 * n) (Worker.producer, false))).ring.published
      = u.ring.published + n ∧
    (ringRun u (List.replicate (2 * n) (Worker.producer, false))).ring.consuming
      = u.ring.consuming := by
  induction n generalizing u p with
  | zero => exact ⟨h, hp, rfl, rfl⟩
  | succ n ih =>
      have hrep : List.replicate (2 * (n + 1)) (Worker.producer, false)
          = (Worker.producer, false) :: (Worker.producer, false) ::
            List.replicate (2 * n) (Worker.producer, false) := by
        rw [show 2 * (n + 1) = 2 * n + 1 + 1 by ring, List.replicate_succ, List.replicate_succ]
      obtain ⟨q1, q2, q3, q4⟩ := produce_pass sl p c u h hp (by omega)
      obtain ⟨r1, r2, r3, r4⟩ := ih (p + 1) _ q1 q2 (by rw [q3]; omega)
      rw [hrep]
      simp only [ringRun, List.foldl_cons, ringStep] at r1 r2 r3 r4 ⊢
      refine ⟨by rw [show p + (n + 1) = p + 1 + n by ring]; exact r1, r2, ?_, ?_⟩
      · rw [r3, q3]; ring
      · rw [r4, q4]

theorem consume_batch (sl : List Nat) (n : Nat) (p c : Nat) (u : RingUse)
    (h : u.inv sl p c) (hc : u.ring.consuming = none)
    (hpub : n ≤ u.ring.published) (hcap : u.ring.published ≤ sl.length) :
    (ringRun u (List.replicate (2 * n) (Worker.consumer, false))).inv sl p (c + n) ∧
    (ringRun u (List.replicate (2 * n) (Worker.consumer, false))).publishedLog
      = u.publishedLog := by
  induction n generalizing u c with
  | zero => exact ⟨h, rfl⟩
  | succ n ih =>
      have hrep : List.replicate (2 * (n + 1)) (Worker.consumer, false)
          = (Worker.consumer, false) :: (Worker.consumer, false) ::
            List.replicate (2 * n) (Worker.consumer, false) := by
        rw [show 2 * (n + 1) = 2 * n + 1 + 1 by ring, List.replicate_succ, List.replicate_succ]
      obtain ⟨q1, q2, q3, q4⟩ := consume_pass sl p c u h hc (by omega) hcap
      obtain ⟨r1, r2⟩ := ih (c + 1) _ q1 q2 (by rw [q3]; omega) (by rw [q3]; omega)
      rw [hrep]
      simp only [ringRun, List.foldl_cons, ringStep] at r1 r2 ⊢
      exact ⟨by rw [show c + (n + 1) = c + 1 + n by ring]; exact r1, by rw [r2, q4]⟩

theorem map_slotAt_range (N n : Nat) (h : n ≤ N) :
    (List.range n).map (slotAt (List.range N)) = List.range n := by
  conv_rhs => rw [← List.map_id (List.range n)]
  apply List.map_congr_left
  intro k hk
  have hk2 : k < N := by
    have := List.mem_range.1 hk
    omega
  simp [slotAt, Nat.mod_eq_of_lt hk2, List.getElem?_range hk2]

theorem ringStart_inv (K : Constants) (cfg : CaptureConfig) (dev : Device) :
    (ringStart (SetupHostBuffers K (construct cfg) dev).final.mAVCircularBuffer).inv
        (List.range K.CIRCULAR_BUFFER_SIZE) 0 0 ∧
    (SetupHostBuffers K (construct cfg) dev).final.mAVCircularBuffer.producing = none ∧
    (SetupHostBuffers K (construct cfg) dev).final.mAVCircularBuffer.consuming = none ∧
    (SetupHostBuffers K (construct cfg) dev).final.mAVCircularBuffer.published = 0 := by
  obtain ⟨-, -, h3, -⟩ := SetupHostBuffers_spec K (construct cfg) dev rfl
  rw [h3]
  simp [ringStart, RingUse.inv, construct, AJACircularBuffer.empty]

/-- C3: on the ring as SetupHostBuffers leaves it, whatever the interleaving of the
producer's and the consumer's ring calls (and whatever the quit flag is at each of them),
the slots the consumer has received are exactly the first of the slots published, in the
order of publication: none skipped, none reordered, none delivered twice.  When n slots
(n at most the capacity) are published and then consumed, the consumer receives all n,
and they are the slots 0, 1, ..., n-1 in this order. -/
theorem ring_delivers_in_publish_order (K : Constants) (cfg : CaptureConfig) (dev : Device)
    (schedule : List (Worker × Bool)) (n : Nat) (hn : n ≤ K.CIRCULAR_BUFFER_SIZE) :
    (ringRun (ringStart (SetupHostBuffers K (construct cfg) dev).final.mAVCircularBuffer)
        schedule).consumedLog
      = (ringRun (ringStart (SetupHostBuffers K (construct cfg) dev).final.mAVCircularBuffer)
          schedule).publishedLog.take
        (ringRun (ringStart (SetupHostBuffers K (construct cfg) dev).final.mAVCircularBuffer)
          schedule).consumedLog.length ∧
    (ringRun (ringStart (SetupHostBuffers K (construct cfg) dev).final.mAVCircularBuffer)
        (List.replicate (2 * n) (Worker.producer, false) ++
          List.replicate (2 * n) (Worker.consumer, false))).publishedLog = List.range n ∧
    (ringRun (ringStart (SetupHostBuffers K (construct cfg) dev).final.mAVCircularBuffer)
        (List.replicate (2 * n) (Worker.producer, false) ++
          List.replicate (2 * n) (Worker.consumer, false))).consumedLog = List.range n := by
  obtain ⟨h0, hp0, hc0, hpub0⟩ := ringStart_inv K cfg dev
  generalize (SetupHostBuffers K (construct cfg) dev).final.mAVCircularBuffer = r0
    at h0 hp0 hc0 hpub0 ⊢
  refine ⟨?_, ?_⟩
  · obtain ⟨p1, c1, h1⟩ := ringRun_inv _ schedule 0 0 _ h0
    exact inv_fifo _ _ _ _ h1
  · obtain ⟨a1, a2, a3, a4⟩ := produce_batch _ n 0 0 (ringStart r0) h0 hp0
      (by simp [ringStart, hpub0, hn])
    obtain ⟨b1, b2⟩ := consume_batch _ n (0 + n) 0 _ a1
      (by rw [a4]; exact hc0)
      (by rw [a3]; simp [ringStart, hpub0])
      (by rw [a3]; simp [ringStart, hpub0, hn])
    have hrun : ringRun (ringStart r0)
        (List.replicate (2 * n) (Worker.producer, false) ++
          List.replicate (2 * n) (Worker.consumer, false))
        = ringRun (ringRun (ringStart r0) (List.replicate (2 * n) (Worker.producer, false)))
            (List.replicate (2 * n) (Worker.consumer, false)) := by
      simp [ringRun, List.foldl_append]
    rw [hrun]
    obtain ⟨-, g2, g3, -⟩ := b1
    simp only [Nat.zero_add] at g2 g3
    exact ⟨by rw [g2]; exact map_slotAt_range _ _ hn, by rw [g3]; exact map_slotAt_range _ _ hn⟩

/-- The pool of seven slots: slots 0, 1, 2 are published, then the consumer receives 0,
then 1, then 2. -/
theorem ring_delivers_in_publish_order_witness :
    3 ≤ sampleConstants.CIRCULAR_BUFFER_SIZE ∧
    (ringRun (ringStart (SetupHostBuffers sampleConstants (construct sampleConfig)
          sampleDevice).final.mAVCircularBuffer)
        (List.replicate (2 * 3) (Worker.producer, false) ++
          List.replicate (2 * 3) (Worker.consumer, false))).publishedLog = [0, 1, 2] ∧
    (ringRun (ringStart (SetupHostBuffers sampleConstants (construct sampleConfig)
          sampleDevice).final.mAVCircularBuffer)
        (List.replicate (2 * 3) (Worker.producer, false) ++
          List.replicate (2 * 3) (Worker.consumer, false))).consumedLog = List.range 3 :=
  ⟨by decide, by decide,
    (ring_delivers_in_publish_order sampleConstants sampleConfig sampleDevice [] 3
      (by decide)).2.2⟩

/-! ## The ring under abort -/

theorem StartProduceBlocking_skip (pre rest : List (Bool × AJACircularBuffer))
    (h : ∀ o ∈ pre, (o.2.StartProduceNextBuffer o.1).1 = SlotResult.blocks) :
    AJACircularBuffer.StartProduceBlocking (pre ++ rest)
      = AJACircularBuffer.StartProduceBlocking rest := by
  induction pre with
  | nil => rfl
  | cons o os ih =>
      have ho := h o (by simp)
      obtain ⟨a, r⟩ := o
      simp only at ho
      simp only [List.cons_append, AJACircularBuffer.StartProduceBlocking, ho]
      exact ih (fun x hx => h x (by simp [hx]))

theorem StartConsumeBlocking_skip (pre rest : List (Bool × AJACircularBuffer))
    (h : ∀ o ∈ pre, (o.2.StartConsumeNextBuffer o.1).1 = SlotResult.blocks) :
    AJACircularBuffer.StartConsumeBlocking (pre ++ rest)
      = AJACircularBuffer.StartConsumeBlocking rest := by
  induction pre with
  | nil => rfl
  | cons o os ih =>
      have ho := h o (by simp)
      obtain ⟨a, r⟩ := o
      simp only at ho
      simp only [List.cons_append, AJACircularBuffer.StartConsumeBlocking, ho]
      exact ih (fun x hx => h x (by simp [hx]))

/-- C10: on a ring with which the abort flag has been registered, a StartProduceNextBuffer
or StartConsumeNextBuffer call made while the flag is true returns "no slot" and leaves
the ring as it was, whatever the state of the ring; and a call that has been blocked
through any number of wait cycles returns "no slot" at the first wait cycle that finds the
flag true. -/
theorem abort_returns_noSlot (r : AJACircularBuffer)
    (waitsP waitsC rest : List (Bool × AJACircularBuffer))
    (hreg : r.abortRegistered = true)
    (hP : ∀ o ∈ waitsP, (o.2.StartProduceNextBuffer o.1).1 = SlotResult.blocks)
    (hC : ∀ o ∈ waitsC, (o.2.StartConsumeNextBuffer o.1).1 = SlotResult.blocks) :
    r.StartProduceNextBuffer true = (SlotResult.noSlot, r) ∧
    r.StartConsumeNextBuffer true = (SlotResult.noSlot, r) ∧
    AJACircularBuffer.StartProduceBlocking (waitsP ++ (true, r) :: rest) = SlotResult.noSlot ∧
    AJACircularBuffer.StartConsumeBlocking (waitsC ++ (true, r) :: rest) = SlotResult.noSlot := by
  have h1 : r.StartProduceNextBuffer true = (SlotResult.noSlot, r) := by
    simp [AJACircularBuffer.StartProduceNextBuffer, AJACircularBuffer.slotOrAbort, hreg]
  have h2 : r.StartConsumeNextBuffer true = (SlotResult.noSlot, r) := by
    simp [AJACircularBuffer.StartConsumeNextBuffer, AJACircularBuffer.slotOrAbort, hreg]
  refine ⟨h1, h2, ?_, ?_⟩
  · rw [StartProduceBlocking_skip _ _ hP]
    unfold AJACircularBuffer.StartProduceBlocking
    simp [h1]
  · rw [StartConsumeBlocking_skip _ _ hC]
    unfold AJACircularBuffer.StartConsumeBlocking
    simp [h2]

/-- A producer blocked twice on the full sample ring, and a consumer blocked once on the
empty sample ring, when the flag turns true. -/
theorem abort_returns_noSlot_witness :
    (sampleFullRing.abortRegistered = true ∧
      (sampleFullRing.StartProduceNextBuffer false).1 = SlotResult.blocks ∧
      (sampleState.mAVCircularBuffer.StartConsumeNextBuffer false).1 = SlotResult.blocks) ∧
    AJACircularBuffer.StartProduceBlocking
        ([(false, sampleFullRing), (false, sampleFullRing)] ++ (true, sampleFullRing) :: [])
      = SlotResult.noSlot ∧
    AJACircularBuffer.StartConsumeBlocking
        ([(false, sampleState.mAVCircularBuffer)] ++ (true, sampleFullRing) :: [])
      = SlotResult.noSlot :=
  ⟨by decide,
    (abort_returns_noSlot sampleFullRing [(false, sampleFullRing), (false, sampleFullRing)]
      [(false, sampleState.mAVCircularBuffer)] [] (by decide) (by decide) (by decide)).2.2⟩

/-! ## The slots that `SetupHostBuffers` allocates -/

theorem hostBufferLoop_pool (K : Constants) (F1 F2 : Nat) (fuel : Nat) (st : State)
    (h : st.mHostBuffers.length + fuel = K.CIRCULAR_BUFFER_SIZE) :
    (hostBufferLoop K F1 F2 fuel st).final.mHostBuffers
      = st.mHostBuffers ++ List.replicate fuel (allocatedSlot K st F1 F2) ∧
    (hostBufferLoop K F1 F2 fuel st).final.mAudioSystem = st.mAudioSystem ∧
    (hostBufferLoop K F1 F2 fuel st).final.mFormatDesc = st.mFormatDesc := by
  induction fuel generalizing st with
  | zero => simp [hostBufferLoop]
  | succ fuel ih =>
      have hlt : st.mHostBuffers.length < K.CIRCULAR_BUFFER_SIZE := by omega
      simp only [hostBufferLoop, hlt, if_true, Exec.prepend_final]
      obtain ⟨h1, h2, h3⟩ := ih
        { st with
          mHostBuffers := st.mHostBuffers ++
            [{ fVideoBuffer := st.mFormatDesc
               fAudioBuffer := if st.mAudioSystem.isSome then K.NTV2_AUDIOSIZE_MAX else 0
               fAncBuffer := F1
               fAncBuffer2 := F2
               fNumAudioBytes := 0
               fTimecodes := [] }],
          mAVCircularBuffer := st.mAVCircularBuffer.Add st.mHostBuffers.length }
        (by simp only [List.length_append, List.length_singleton]; omega)
      refine ⟨?_, h2, h3⟩
      rw [h1]
      simp [allocatedSlot, List.replicate_succ]

theorem SetupHostBuffers_pool (K : Constants) (st : State) (dev : Device)
    (hpool : st.mHostBuffers = []) :
    (SetupHostBuffers K st dev).final.mHostBuffers
      = List.replicate K.CIRCULAR_BUFFER_SIZE
          (allocatedSlot K st
            (ancSizes st.mConfig.fWithAnc (dev.ancField1Offset % 4294967296)
              (dev.ancField2Offset % 4294967296)).1
            (ancSizes st.mConfig.fWithAnc (dev.ancField1Offset % 4294967296)
              (dev.ancField2Offset % 4294967296)).2) := by
  have h := (hostBufferLoop_pool K
    (ancSizes st.mConfig.fWithAnc (dev.ancField1Offset % 4294967296)
      (dev.ancField2Offset % 4294967296)).1
    (ancSizes st.mConfig.fWithAnc (dev.ancField1Offset % 4294967296)
      (dev.ancField2Offset % 4294967296)).2
    (K.CIRCULAR_BUFFER_SIZE - st.mHostBuffers.length)
    { st with mAVCircularBuffer := st.mAVCircularBuffer.SetAbortFlag }
    (by simp [hpool])).1
  simp only [hpool, List.length_nil, Nat.sub_zero, List.nil_append] at h
  simp only [SetupHostBuffers, hpool, List.length_nil, Nat.sub_zero, Exec.prepend_final]
  rw [h]
  rfl

theorem ancSizes_exact (withAnc : Bool) (F1 F2 : Nat)
    (h1 : F1 < 4294967296) (h2 : F2 < 4294967296) :
    ((ancSizes withAnc F1 F2).1 : Int) = (ancSizesReference withAnc F1 F2).1 ∧
    ((ancSizes withAnc F1 F2).2 : Int) = (ancSizesReference withAnc F1 F2).2 ∧
    (ancSizes withAnc F1 F2).1 + (ancSizes withAnc F1 F2).2 ≤ max F1 F2 := by
  unfold ancSizes ancSizesReference
  cases withAnc with
  | false => simp
  | true =>
      by_cases hgt : F2 > F1
      · have hI : (F2 : Int) > F1 := by exact_mod_cast hgt
        have hm : (F2 + 4294967296 - F1) % 4294967296 = F2 - F1 := by omega
        simp only [if_true, hgt, hI, hm]
        refine ⟨by simp, ?_, ?_⟩
        · push_cast [Nat.cast_sub (le_of_lt hgt)]
          ring
        · simp only [Nat.zero_add]
          omega
      · have hI : ¬ ((F2 : Int) > F1) := by
          intro hc
          exact hgt (by exact_mod_cast hc)
        have hle : F2 ≤ F1 := Nat.le_of_not_gt hgt
        have hm : (F1 + 4294967296 - F2) % 4294967296 = F1 - F2 := by omega
        simp only [if_true, hgt, hI, if_false, hm]
        refine ⟨?_, trivial, ?_⟩
        · push_cast [Nat.cast_sub hle]
          ring
        · omega

/-- C12: for register values that fit 32 bits, the two ancillary sizes that
SetupHostBuffers computes are, as exact integers, the reference sizes: (0, 0) when
ancillary capture is disabled, (0, F2Off - F1Off) when F2Off > F1Off, and
(F1Off - F2Off, F2Off) otherwise, so no subtraction wraps around; together they do not
exceed the larger of the two offsets; and these are the ancillary sizes of every slot that
SetupHostBuffers allocates. -/
theorem SetupHostBuffers_anc_sizes (K : Constants) (st : State) (dev : Device)
    (hpool : st.mHostBuffers = [])
    (h1 : dev.ancField1Offset < 4294967296) (h2 : dev.ancField2Offset < 4294967296) :
    (((ancSizes st.mConfig.fWithAnc dev.ancField1Offset dev.ancField2Offset).1 : Int),
      ((ancSizes st.mConfig.fWithAnc dev.ancField1Offset dev.ancField2Offset).2 : Int))
      = ancSizesReference st.mConfig.fWithAnc dev.ancField1Offset dev.ancField2Offset ∧
    (ancSizes st.mConfig.fWithAnc dev.ancField1Offset dev.ancField2Offset).1
        + (ancSizes st.mConfig.fWithAnc dev.ancField1Offset dev.ancField2Offset).2
      ≤ max dev.ancField1Offset dev.ancField2Offset ∧
    (SetupHostBuffers K st dev).final.mHostBuffers.map
        (fun fd => ((fd.fAncBuffer : Int), (fd.fAncBuffer2 : Int)))
      = List.replicate K.CIRCULAR_BUFFER_SIZE
          (ancSizesReference st.mConfig.fWithAnc dev.ancField1Offset dev.ancField2Offset) := by
  obtain ⟨e1, e2, e3⟩ := ancSizes_exact st.mConfig.fWithAnc _ _ h1 h2
  refine ⟨Prod.ext e1 e2, e3, ?_⟩
  rw [SetupHostBuffers_pool K st dev hpool, Nat.mod_eq_of_lt h1, Nat.mod_eq_of_lt h2,
    List.map_replicate]
  simp only [allocatedSlot]
  rw [e1, e2]

/-- The sample device reports the offsets 512 and 256: the sizes are 256 and 256, in
each of the seven slots. -/
theorem SetupHostBuffers_anc_sizes_witness :
    ((construct sampleConfig).mHostBuffers = [] ∧
      sampleDevice.ancField1Offset < 4294967296 ∧ sampleDevice.ancField2Offset < 4294967296) ∧
    ancSizesReference (construct sampleConfig).mConfig.fWithAnc
        sampleDevice.ancField1Offset sampleDevice.ancField2Offset = (256, 256) ∧
    (SetupHostBuffers sampleConstants (construct sampleConfig) sampleDevice).final.mHostBuffers.map
        (fun fd => ((fd.fAncBuffer : Int), (fd.fAncBuffer2 : Int)))
      = List.replicate sampleConstants.CIRCULAR_BUFFER_SIZE
          (ancSizesReference (construct sampleConfig).mConfig.fWithAnc
            sampleDevice.ancField1Offset sampleDevice.ancField2Offset) :=
  ⟨by decide, by decide,
    (SetupHostBuffers_anc_sizes sampleConstants (construct sampleConfig) sampleDevice
      (by decide) (by decide) (by decide)).2.2⟩

/-! ## The shape of `Init` -/

theorem SetupVideo_more (st : State) (dev : Device) :
    (SetupVideo st dev).2.final.mAudioSystem = st.mAudioSystem ∧
    ((SetupVideo st dev).1 = AJAStatus.AJA_STATUS_NOINPUT ∨
      ((SetupVideo st dev).1 = AJAStatus.AJA_STATUS_SUCCESS ∧
        (SetupVideo st dev).2.final.mFormatDesc = dev.videoWriteSize)) := by
  unfold SetupVideo
  cases dev.inputVideoFormat with
  | none => simp
  | some fmt =>
      by_cases h2 : (st.mConfig.fDoTSIRouting && !dev.isRGBFormat && dev.isQuadQuadHFR) = true <;>
        simp [h2]

theorem SetupAudio_more (st : State) (dev : Device) :
    (SetupAudio st dev).1 = AJAStatus.AJA_STATUS_SUCCESS ∧
    (SetupAudio st dev).2.final.mFormatDesc = st.mFormatDesc ∧
    ((SetupAudio st dev).2.final.mAudioSystem = st.mAudioSystem ∨
      (st.mConfig.fInputChannel % 65536 < dev.numAudioSystems ∧
        (SetupAudio st dev).2.final.mAudioSystem
          = dev.channelToAudioSystem st.mConfig.fInputChannel)) := by
  unfold SetupAudio
  refine ⟨rfl, ?_, ?_⟩
  · split_ifs <;> rfl
  · by_cases h1 : st.mConfig.fDoMultiFormat = true
    · by_cases h2 : dev.numAudioSystems > 1
      · by_cases h3 : st.mConfig.fInputChannel % 65536 < dev.numAudioSystems
        · right
          simp [h1, h2, h3]
        · left
          simp [h1, h2, h3]
      · left
        simp [h1, h2]
    · left
      simp [h1]

theorem InitChannel_shape (K : Constants) (st : State) (dev : Device) :
    ((st.mConfig.fInputChannel % 65536 ≥ dev.numFrameStores ∨
        st.mConfig.fInputChannel % 2 = 1 ∨
        (st.mConfig.fInputChannel ≠ 0 ∧ st.mConfig.fDoTSIRouting = false)) ∧
      InitChannel K st dev = (AJAStatus.AJA_STATUS_BAD_PARAM, ⟨[], st, Outcome.returned⟩)) ∨
    (¬ (st.mConfig.fInputChannel % 65536 ≥ dev.numFrameStores ∨
        st.mConfig.fInputChannel % 2 = 1 ∨
        (st.mConfig.fInputChannel ≠ 0 ∧ st.mConfig.fDoTSIRouting = false)) ∧
      (((InitChannel K st dev).1 = AJAStatus.AJA_STATUS_NOINPUT ∧
          (InitChannel K st dev).2.final.mHostBuffers = st.mHostBuffers) ∨
        ∃ a : State,
          a.mHostBuffers = st.mHostBuffers ∧
          a.mConfig.fWithAnc = st.mConfig.fWithAnc ∧
          a.mFormatDesc = dev.videoWriteSize ∧
          (a.mAudioSystem = st.mAudioSystem ∨
            (st.mConfig.fWithAudio = true ∧
              st.mConfig.fInputChannel % 65536 < dev.numAudioSystems ∧
              a.mAudioSystem = dev.channelToAudioSystem st.mConfig.fInputChannel)) ∧
          (InitChannel K st dev).2.final = (SetupHostBuffers K a dev).final ∧
          ((InitChannel K st dev).1 = AJAStatus.AJA_STATUS_SUCCESS ∨
            (InitChannel K st dev).1 = AJAStatus.AJA_STATUS_FAIL))) := by
  unfold InitChannel
  by_cases h1 : st.mConfig.fInputChannel % 65536 ≥ dev.numFrameStores
  · left
    exact ⟨Or.inl h1, by simp [h1]⟩
  · by_cases h2 : st.mConfig.fInputChannel % 2 = 1 ∨
        (st.mConfig.fInputChannel ≠ 0 ∧ st.mConfig.fDoTSIRouting = false)
    · left
      exact ⟨Or.inr h2, by simp [h1, h2]⟩
    · right
      refine ⟨fun hb => hb.elim h1 h2, ?_⟩
      simp only [h1, h2, if_false]
      generalize hst1 : ({ st with
        mConfig := { st.mConfig with
          fInputSource := dev.channelToInputSource st.mConfig.fInputChannel },
        mActiveFrameStores := ⟨st.mConfig.fInputChannel,
          if st.mConfig.fDoTSIRouting then 2 else 4⟩,
        mActiveSDIs := ⟨st.mConfig.fInputChannel,
          if st.mConfig.fDoTSIRouting then (if dev.isRGBFormat then 4 else 2) else 4⟩ } : State)
        = st1
      have hp1 : st1.mHostBuffers = st.mHostBuffers := by rw [← hst1]
      have hanc : st1.mConfig.fWithAnc = st.mConfig.fWithAnc := by rw [← hst1]
      have haud : st1.mConfig.fWithAudio = st.mConfig.fWithAudio := by rw [← hst1]
      have hch : st1.mConfig.fInputChannel = st.mConfig.fInputChannel := by rw [← hst1]
      have hsys : st1.mAudioSystem = st.mAudioSystem := by rw [← hst1]
      obtain ⟨v1, -, v3, -, -, -⟩ := SetupVideo_keeps st1 dev
      obtain ⟨v7, v8⟩ := SetupVideo_more st1 dev
      obtain ⟨a1, -, a3, -, -, -⟩ := SetupAudio_keeps (SetupVideo st1 dev).2.final dev
      obtain ⟨a7, a8, a9⟩ := SetupAudio_more (SetupVideo st1 dev).2.final dev
      rcases v8 with hno | ⟨hok, hfmt⟩
      · left
        have hv : AJA_FAILURE (SetupVideo st1 dev).1 = true := by simp [hno, AJA_FAILURE]
        simp only [hv, if_true]
        exact ⟨hno, by rw [v1, hp1]⟩
      · right
        have hv : AJA_FAILURE (SetupVideo st1 dev).1 = false := by simp [hok, AJA_FAILURE]
        have hsa : AJA_FAILURE (SetupAudio (SetupVideo st1 dev).2.final dev).1 = false := by
          simp [a7, AJA_FAILURE]
        by_cases ha : (SetupVideo st1 dev).2.final.mConfig.fWithAudio = true
        · refine ⟨(SetupAudio (SetupVideo st1 dev).2.final dev).2.final, ?_, ?_, ?_, ?_, ?_, ?_⟩
          · rw [a1, v1, hp1]
          · rw [a3, v3, hanc]
          · rw [a8, hfmt]
          · rcases a9 with h | ⟨hlt, h⟩
            · left
              rw [h, v7, hsys]
            · right
              rw [v3, hch] at hlt h
              rw [v3, haud] at ha
              exact ⟨ha, hlt, h⟩
          · simp only [hv, ha, hsa, if_true, if_false, Bool.false_eq_true]
          · simp only [hv, ha, hsa, if_true, if_false, Bool.false_eq_true]
            by_cases hr : (RouteInputSignal (SetupHostBuffers K
                (SetupAudio (SetupVideo st1 dev).2.final dev).2.final dev).final dev).1 = true
            · left; simp [hr]
            · right; simp [hr]
        · refine ⟨(SetupVideo st1 dev).2.final, ?_, ?_, ?_, ?_, ?_, ?_⟩
          · rw [v1, hp1]
          · rw [v3, hanc]
          · exact hfmt
          · left
            rw [v7, hsys]
          · simp only [hv, ha, hok, if_false, Bool.false_eq_true, AJA_FAILURE]
            simp
          · simp only [hv, ha, if_false, Bool.false_eq_true]
            by_cases hr : (RouteInputSignal (SetupHostBuffers K
                (SetupVideo st1 dev).2.final dev).final dev).1 = true
            · left; simp [hr, hok, AJA_FAILURE]
            · right; simp [hr, hok, AJA_FAILURE]

theorem Init_shape (K : Constants) (st : State) (dev : Device) :
    (¬ (dev.found = true ∧ dev.ready = true ∧ dev.canDoCapture = true ∧
          dev.canDo12gRouting = true ∧ dev.canDoFrameBufferFormat = true ∧
          (st.mConfig.fDoMultiFormat = true ∨ dev.acquireOk = true)) ∧
      (Init K st dev).1 ≠ AJAStatus.AJA_STATUS_BAD_PARAM ∧
      (Init K st dev).1 ≠ AJAStatus.AJA_STATUS_SUCCESS ∧
      (Init K st dev).2.final.mHostBuffers = st.mHostBuffers) ∨
    ((dev.found = true ∧ dev.ready = true ∧ dev.canDoCapture = true ∧
          dev.canDo12gRouting = true ∧ dev.canDoFrameBufferFormat = true ∧
          (st.mConfig.fDoMultiFormat = true ∨ dev.acquireOk = true)) ∧
      ∃ st2 : State,
        st2.mConfig = st.mConfig ∧ st2.mHostBuffers = st.mHostBuffers ∧
        st2.mAudioSystem = st.mAudioSystem ∧
        (Init K st dev).1 = (InitChannel K st2 dev).1 ∧
        (Init K st dev).2.final = (InitChannel K st2 dev).2.final ∧
        (Init K st dev).2.calls
          = ([Call.GetFirstDeviceFromArgument true, Call.IsDeviceReady true,
                Call.GetStreamingApplication, Call.GetEveryFrameServices] ++
              (if st.mConfig.fDoMultiFormat then []
                else [Call.AcquireStreamForApplication true, Call.GetEveryFrameServices]) ++
              [Call.SetEveryFrameServices NTV2TaskMode.NTV2_OEM_TASKS] ++
              (if dev.canDoMultiFormat then [Call.SetMultiFormatMode st.mConfig.fDoMultiFormat]
                else [])) ++ (InitChannel K st2 dev).2.calls) := by
  unfold Init
  cases hf : dev.found
  · left; simp
  cases hr : dev.ready
  · left; simp
  cases h1 : dev.canDoCapture
  · left; simp
  cases h2 : dev.canDo12gRouting
  · left; simp
  cases h3 : dev.canDoFrameBufferFormat
  · left; simp
  cases hm : st.mConfig.fDoMultiFormat
  · cases ha : dev.acquireOk
    · left; simp [hm]
    · right
      refine ⟨by simp, { st with mSavedTaskMode := dev.taskModeAcquired }, rfl, rfl, rfl, ?_⟩
      simp [hm]
  · right
    refine ⟨by simp, { st with mSavedTaskMode := dev.taskMode }, rfl, rfl, rfl, ?_⟩
    simp [hm]

theorem Init_pool (K : Constants) (cfg : CaptureConfig) (dev : Device) :
    (Init K (construct cfg) dev).2.final.mHostBuffers = [] ∨
    ∃ a : State,
      a.mConfig.fWithAnc = cfg.fWithAnc ∧
      a.mFormatDesc = dev.videoWriteSize ∧
      (a.mAudioSystem = (if cfg.fWithAudio then some 0 else none) ∨
        (cfg.fWithAudio = true ∧ cfg.fInputChannel % 65536 < dev.numAudioSystems ∧
          a.mAudioSystem = dev.channelToAudioSystem cfg.fInputChannel)) ∧
      (Init K (construct cfg) dev).2.final.mHostBuffers
        = List.replicate K.CIRCULAR_BUFFER_SIZE
            (allocatedSlot K a
              (ancSizes cfg.fWithAnc (dev.ancField1Offset % 4294967296)
                (dev.ancField2Offset % 4294967296)).1
              (ancSizes cfg.fWithAnc (dev.ancField1Offset % 4294967296)
                (dev.ancField2Offset % 4294967296)).2) := by
  rcases Init_shape K (construct cfg) dev with ⟨-, -, -, hp⟩ | ⟨-, st2, c1, c2, c3, -, c5, -⟩
  · left
    rw [hp]
    rfl
  · have hp2 : st2.mHostBuffers = [] := by rw [c2]; rfl
    have hcfg : st2.mConfig = cfg := by rw [c1]; rfl
    have hsys : st2.mAudioSystem = (if cfg.fWithAudio then some 0 else none) := by rw [c3]; rfl
    rcases InitChannel_shape K st2 dev with ⟨-, hb⟩ | ⟨-, ⟨-, hn⟩ | ⟨a, a1, a2, a3, a4, a5, -⟩⟩
    · left
      rw [c5, hb]
      exact hp2
    · left
      rw [c5, hn]
      exact hp2
    · right
      rw [hcfg] at a2 a4
      refine ⟨a, a2, a3, ?_, ?_⟩
      · rw [hsys] at a4
        exact a4
      · rw [c5, a5, SetupHostBuffers_pool K a dev (by rw [a1]; exact hp2), a2]

/-- C11: when Init is run on a constructed object, every slot that its SetupHostBuffers
allocates has an audio buffer of NTV2_AUDIOSIZE_MAX bytes if fWithAudio is set in the
configuration and of zero bytes if it is not, whatever the channel, the multi-format
setting and the audio system that SetupAudio selects.  NTV2ChannelToAudioSystem is a
parameter of the device; it is taken to give a valid audio system for a channel below the
number of audio systems, which is the guard under which SetupAudio uses it. -/
theorem Init_audio_buffer_size (K : Constants) (cfg : CaptureConfig) (dev : Device)
    (hsys : cfg.fInputChannel % 65536 < dev.numAudioSystems →
      (dev.channelToAudioSystem cfg.fInputChannel).isSome = true) :
    (Init K (construct cfg) dev).2.final.mHostBuffers.map (fun fd => fd.fAudioBuffer)
      = List.replicate (Init K (construct cfg) dev).2.final.mHostBuffers.length
          (if cfg.fWithAudio then K.NTV2_AUDIOSIZE_MAX else 0) := by
  rcases Init_pool K cfg dev with h | ⟨a, -, -, a3, a4⟩
  · rw [h]
    rfl
  · rw [a4, List.map_replicate, List.length_replicate]
    congr 1
    simp only [allocatedSlot]
    rcases a3 with h | ⟨hw, hlt, h⟩
    · rw [h]
      cases cfg.fWithAudio <;> simp
    · rw [h, hsys hlt, hw]

/-- The shared sample configuration has audio on and makes SetupAudio select the audio
system of channel 3: each of the seven slots has an audio buffer of the maximum size,
1024 in the sample constants. -/
theorem Init_audio_buffer_size_witness :
    (sampleSharedConfig.fInputChannel % 65536 < sampleDevice.numAudioSystems ∧
      (sampleDevice.channelToAudioSystem sampleSharedConfig.fInputChannel).isSome = true) ∧
    (Init sampleConstants (construct sampleSharedConfig) sampleDevice).2.final.mAudioSystem
      = some 2 ∧
    (Init sampleConstants (construct sampleSharedConfig) sampleDevice).2.final.mHostBuffers.length
      = 7 ∧
    (Init sampleConstants (construct sampleSharedConfig) sampleDevice).2.final.mHostBuffers.map
        (fun fd => fd.fAudioBuffer)
      = List.replicate
          (Init sampleConstants (construct sampleSharedConfig)
            sampleDevice).2.final.mHostBuffers.length
          (if sampleSharedConfig.fWithAudio then sampleConstants.NTV2_AUDIOSIZE_MAX else 0) :=
  ⟨by decide, by decide, by decide,
    Init_audio_buffer_size sampleConstants sampleSharedConfig sampleDevice
      (fun _ => by decide)⟩

/-! ## The validation of the input channel -/

/-- C16: when all the device checks that precede it pass and the channel index fits the
16 bits of the `UWord` cast, Init returns AJA_STATUS_BAD_PARAM if and only if the channel
index is not below the number of frame stores, or is odd, or is not 0 while TSI routing
is off; and when it does, no host buffer has been allocated or registered, no register
read and no signal routed. -/
theorem Init_channel_validation (K : Constants) (st : State) (dev : Device)
    (hpass : dev.found = true ∧ dev.ready = true ∧ dev.canDoCapture = true ∧
      dev.canDo12gRouting = true ∧ dev.canDoFrameBufferFormat = true ∧
      (st.mConfig.fDoMultiFormat = true ∨ dev.acquireOk = true))
    (hch : st.mConfig.fInputChannel < 65536) :
    ((Init K st dev).1 = AJAStatus.AJA_STATUS_BAD_PARAM ↔
      (st.mConfig.fInputChannel ≥ dev.numFrameStores ∨
        st.mConfig.fInputChannel % 2 = 1 ∨
        (st.mConfig.fInputChannel ≠ 0 ∧ st.mConfig.fDoTSIRouting = false))) ∧
    ((Init K st dev).1 = AJAStatus.AJA_STATUS_BAD_PARAM →
      (Init K st dev).2.final.mHostBuffers = st.mHostBuffers ∧
      (Init K st dev).2.calls.filter isAllocOrRoute = []) := by
  have hmod : st.mConfig.fInputChannel % 65536 = st.mConfig.fInputChannel :=
    Nat.mod_eq_of_lt hch
  rcases Init_shape K st dev with ⟨hn, -⟩ | ⟨-, st2, c1, c2, -, c4, c5, c6⟩
  · exact absurd hpass hn
  · rcases InitChannel_shape K st2 dev with ⟨hbad, hb⟩ | ⟨hgood, hrest⟩
    · rw [c1, hmod] at hbad
      refine ⟨⟨fun _ => hbad, fun _ => by rw [c4, hb]⟩, fun _ => ⟨?_, ?_⟩⟩
      · rw [c5, hb]
        exact c2
      · rw [c6, hb]
        cases st.mConfig.fDoMultiFormat <;> cases dev.canDoMultiFormat <;>
          simp [isAllocOrRoute]
    · rw [c1, hmod] at hgood
      have hne : (Init K st dev).1 ≠ AJAStatus.AJA_STATUS_BAD_PARAM := by
        rw [c4]
        rcases hrest with ⟨h, -⟩ | ⟨a, -, -, -, -, -, h | h⟩ <;> rw [h] <;> decide
      exact ⟨⟨fun h => absurd h hne, fun h => absurd h hgood⟩, fun h => absurd h hne⟩

/-- Channel 2 (index 1) on the sample device: Init answers AJA_STATUS_BAD_PARAM with an
empty pool. -/
theorem Init_channel_validation_witness :
    ((sampleDevice.found = true ∧ sampleDevice.ready = true ∧
        sampleDevice.canDoCapture = true ∧ sampleDevice.canDo12gRouting = true ∧
        sampleDevice.canDoFrameBufferFormat = true ∧
        ((construct sampleOddConfig).mConfig.fDoMultiFormat = true ∨
          sampleDevice.acquireOk = true)) ∧
      (construct sampleOddConfig).mConfig.fInputChannel < 65536 ∧
      (construct sampleOddConfig).mConfig.fInputChannel % 2 = 1) ∧
    (Init sampleConstants (construct sampleOddConfig) sampleDevice).1
      = AJAStatus.AJA_STATUS_BAD_PARAM ∧
    ((Init sampleConstants (construct sampleOddConfig) sampleDevice).2.final.mHostBuffers
        = (construct sampleOddConfig).mHostBuffers ∧
      (Init sampleConstants (construct sampleOddConfig) sampleDevice).2.calls.filter
        isAllocOrRoute = []) :=
  ⟨by decide,
    (Init_channel_validation sampleConstants (construct sampleOddConfig) sampleDevice
      (by decide) (by decide)).1.2 (Or.inr (Or.inl (by decide))),
    (Init_channel_validation sampleConstants (construct sampleOddConfig) sampleDevice
      (by decide) (by decide)).2 (by decide)⟩

/-! ## Page-locking -/

theorem hostBufferLoop_anc2 (K : Constants) (F1 F2 : Nat) (fuel : Nat) (st : State) :
    (hostBufferLoop K F1 F2 fuel st).calls.filter isAnc2Lock = [] := by
  induction fuel generalizing st with
  | zero => simp [hostBufferLoop]
  | succ fuel ih =>
      simp only [hostBufferLoop]
      split
      · simp only [Exec.prepend_calls, List.cons_append, List.filter_cons, List.filter_append,
          ih]
        simp only [lockCalls, List.filter_append]
        split_ifs <;> simp_all [isAnc2Lock]
      · simp

/-- C17: SetupHostBuffers never page-locks a field-2 ancillary buffer, for no
configuration and no device.  On the sample device (offsets 512 and 256) the field-2
ancillary buffer of slot 0 has 256 bytes; Init locks the video, audio and field-1
ancillary buffers of that slot and not the field-2 one; and the first transfer of
CaptureFrames is handed that buffer. -/
theorem SetupHostBuffers_leaves_anc2_unlocked (K : Constants) (st : State) (dev : Device) :
    (SetupHostBuffers K st dev).calls.filter isAnc2Lock = [] ∧
    (sampleState.mHostBuffers.getD 0 default).fAncBuffer2 = 256 ∧
    Call.DMABufferLock ⟨0, BufferKind.video, 4096⟩
      ∈ (Init sampleConstants (construct sampleConfig) sampleDevice).2.calls ∧
    Call.DMABufferLock ⟨0, BufferKind.audio, 1024⟩
      ∈ (Init sampleConstants (construct sampleConfig) sampleDevice).2.calls ∧
    Call.DMABufferLock ⟨0, BufferKind.anc, 256⟩
      ∈ (Init sampleConstants (construct sampleConfig) sampleDevice).2.calls ∧
    Call.DMABufferLock ⟨0, BufferKind.anc2, 256⟩
      ∉ (Init sampleConstants (construct sampleConfig) sampleDevice).2.calls ∧
    Call.AutoCirculateTransfer 0
        ⟨some ⟨0, BufferKind.video, 4096⟩, some ⟨0, BufferKind.audio, 1024⟩,
          some ⟨0, BufferKind.anc, 256⟩, some ⟨0, BufferKind.anc2, 256⟩⟩
      ∈ (CaptureFrames sampleState ⟨true, false, true⟩ [sampleProduceCycle]).calls := by
  refine ⟨?_, by decide, by decide, by decide, by decide, by decide, by decide⟩
  simp only [SetupHostBuffers, Exec.prepend_calls, List.cons_append, List.filter_cons,
    List.filter_append, hostBufferLoop_anc2]
  split_ifs <;> simp_all [isAnc2Lock]

/-! ## What a pass of a loop does to the slots -/

theorem map_set_same {β : Type} (f : NTV2FrameData → β) (l : List NTV2FrameData) (i : Nat)
    (a : NTV2FrameData) (h : f a = f (l.getD i default)) : (l.set i a).map f = l.map f := by
  induction l generalizing i with
  | nil => rfl
  | cons x xs ih =>
      cases i with
      | zero =>
          simp only [List.getD_cons_zero] at h
          simp [h]
      | succ j =>
          simp only [List.getD_cons_succ] at h
          simp only [List.set_cons_succ, List.map_cons, ih j h]

theorem captureCycle_pool (st : State) (xfer : AUTOCIRCULATE_TRANSFER) (e : ProducerCycle) :
    (captureCycle st xfer e).st.mHostBuffers.map capacities = st.mHostBuffers.map capacities ∧
    ((captureCycle st xfer e).st.mHostBuffers = st.mHostBuffers ∨
      ∃ i fd, e.freeSlot = some i ∧
        (captureCycle st xfer e).st.mHostBuffers = st.mHostBuffers.set i fd ∧
        capacities fd = capacities (st.mHostBuffers.getD i default)) ∧
    (e.acStatus.WithAudio = false →
      (captureCycle st xfer e).st.mHostBuffers.map (fun fd => fd.fNumAudioBytes)
          = st.mHostBuffers.map (fun fd => fd.fNumAudioBytes) ∧
        (captureCycle st xfer e).xfer.acAudioBuffer = xfer.acAudioBuffer) := by
  unfold captureCycle
  by_cases hr : (e.acStatus.IsRunning && e.acStatus.HasAvailableInputFrame) = true
  · simp only [hr, if_true]
    generalize hres : AJACircularBuffer.slotOrAbort _ _ = res
    cases res with
    | blocks => exact ⟨rfl, Or.inl rfl, fun _ => ⟨rfl, rfl⟩⟩
    | noSlot => exact ⟨rfl, Or.inl rfl, fun _ => ⟨rfl, rfl⟩⟩
    | slot i =>
        obtain ⟨-, hav⟩ := slotOrAbort_slot _ _ _ hres
        simp only
        refine ⟨?_, Or.inr ⟨i, _, hav, rfl, ?_⟩, fun hw => ⟨?_, ?_⟩⟩
        · apply map_set_same
          by_cases hw : e.acStatus.WithAudio = true <;> simp [hw, capacities]
        · by_cases hw : e.acStatus.WithAudio = true <;> simp [hw, capacities]
        · apply map_set_same
          simp [hw]
        · by_cases hc : e.acStatus.WithCustomAnc = true <;> simp [hw, hc]
  · simp only [hr]
    exact ⟨rfl, Or.inl rfl, fun _ => ⟨rfl, rfl⟩⟩

theorem captureCycle_xfer (wa wc : Bool) (st : State) (xfer : AUTOCIRCULATE_TRANSFER)
    (e : ProducerCycle) (hwa : e.acStatus.WithAudio = wa) (hwc : e.acStatus.WithCustomAnc = wc)
    (hx : xfer.fitsFlags wa wc) :
    (captureCycle st xfer e).xfer.fitsFlags wa wc ∧
    (captureCycle st xfer e).calls.filter hasForeignBuffer = [] ∧
    (wa = false → (captureCycle st xfer e).calls.filter hasAudioBuffer = []) := by
  obtain ⟨hx1, hx2⟩ := hx
  unfold captureCycle
  by_cases hr : (e.acStatus.IsRunning && e.acStatus.HasAvailableInputFrame) = true
  · simp only [hr, if_true]
    generalize AJACircularBuffer.slotOrAbort _ _ = res
    cases res with
    | blocks => exact ⟨⟨hx1, hx2⟩, by simp [hasForeignBuffer], fun _ => by simp [hasAudioBuffer]⟩
    | noSlot => exact ⟨⟨hx1, hx2⟩, by simp [hasForeignBuffer], fun _ => by simp [hasAudioBuffer]⟩
    | slot i =>
        simp only [hwa, hwc]
        cases wa <;> cases wc <;>
          simp_all [AUTOCIRCULATE_TRANSFER.fitsFlags, hasForeignBuffer, hasAudioBuffer,
            AUTOCIRCULATE_TRANSFER.onlySlot]
  · simp only [hr]
    exact ⟨⟨hx1, hx2⟩, by simp [hasForeignBuffer], fun _ => by simp [hasAudioBuffer]⟩

theorem captureLoop_pool (st : State) (xfer : AUTOCIRCULATE_TRANSFER)
    (es : List ProducerCycle) :
    (captureLoop st xfer es).final.mHostBuffers.map capacities
      = st.mHostBuffers.map capacities := by
  induction es generalizing st xfer with
  | nil => simp [captureLoop]
  | cons e es ih =>
      have hc := (captureCycle_pool
        { st with mGlobalQuit := st.mGlobalQuit || e.quitAtTest } xfer e).1
      simp only [captureLoop]
      split
      · rfl
      · split
        · exact hc
        · rw [Exec.prepend_final, ih, hc]

theorem captureLoop_flags (wa wc : Bool) (st : State) (xfer : AUTOCIRCULATE_TRANSFER)
    (es : List ProducerCycle)
    (hflags : ∀ e ∈ es, e.acStatus.WithAudio = wa ∧ e.acStatus.WithCustomAnc = wc)
    (hx : xfer.fitsFlags wa wc) :
    (captureLoop st xfer es).calls.filter hasForeignBuffer = [] ∧
    (wa = false →
      (captureLoop st xfer es).calls.filter hasAudioBuffer = [] ∧
      (captureLoop st xfer es).final.mHostBuffers.map (fun fd => fd.fNumAudioBytes)
        = st.mHostBuffers.map (fun fd => fd.fNumAudioBytes)) := by
  induction es generalizing st xfer with
  | nil => simp [captureLoop]
  | cons e es ih =>
      obtain ⟨hwa, hwc⟩ := hflags e (by simp)
      have hrest : ∀ x ∈ es, x.acStatus.WithAudio = wa ∧ x.acStatus.WithCustomAnc = wc :=
        fun x hx => hflags x (by simp [hx])
      obtain ⟨c1, c2, c3⟩ := captureCycle_xfer wa wc
        { st with mGlobalQuit := st.mGlobalQuit || e.quitAtTest } xfer e hwa hwc hx
      have c4 := (captureCycle_pool
        { st with mGlobalQuit := st.mGlobalQuit || e.quitAtTest } xfer e).2.2
      simp only [captureLoop]
      split
      · exact ⟨rfl, fun _ => ⟨rfl, rfl⟩⟩
      · split
        · refine ⟨c2, fun h => ⟨c3 h, ?_⟩⟩
          exact (c4 (by rw [hwa, h])).1
        · obtain ⟨i1, i2⟩ := ih _ _ hrest c1
          simp only [Exec.prepend_calls, Exec.prepend_final, List.filter_append]
          refine ⟨by rw [c2, i1]; rfl, fun h => ⟨by rw [c3 h, (i2 h).1]; rfl, ?_⟩⟩
          rw [(i2 h).2]
          exact (c4 (by rw [hwa, h])).1

theorem startIngest_pool (st : State) (s : IngestStart) :
    (startIngest st s).2.mHostBuffers = st.mHostBuffers ∧
    (startIngest st s).1.filter hasForeignBuffer = [] ∧
    (startIngest st s).1.filter hasAudioBuffer = [] := by
  unfold startIngest
  cases s.initOk <;> cases s.startOk <;> cases s.quitAtStart <;> cases st.mGlobalQuit <;>
    simp [hasForeignBuffer, hasAudioBuffer]

theorem CaptureFrames_pool (st : State) (s : IngestStart) (cycles : List ProducerCycle) :
    (CaptureFrames st s cycles).final.mHostBuffers.map capacities
      = st.mHostBuffers.map capacities := by
  have h := captureLoop_pool (startIngest st s).2 AUTOCIRCULATE_TRANSFER.empty cycles
  rw [(startIngest_pool st s).1] at h
  simp only [CaptureFrames]
  split
  · exact h
  · exact h

theorem CaptureFrames_flags (wa wc : Bool) (st : State) (s : IngestStart)
    (cycles : List ProducerCycle)
    (hflags : ∀ e ∈ cycles, e.acStatus.WithAudio = wa ∧ e.acStatus.WithCustomAnc = wc) :
    (CaptureFrames st s cycles).calls.filter hasForeignBuffer = [] ∧
    (wa = false →
      (CaptureFrames st s cycles).calls.filter hasAudioBuffer = [] ∧
      (CaptureFrames st s cycles).final.mHostBuffers.map (fun fd => fd.fNumAudioBytes)
        = st.mHostBuffers.map (fun fd => fd.fNumAudioBytes)) := by
  obtain ⟨l1, l2⟩ := captureLoop_flags wa wc (startIngest st s).2
    AUTOCIRCULATE_TRANSFER.empty cycles hflags
    (by simp [AUTOCIRCULATE_TRANSFER.fitsFlags, AUTOCIRCULATE_TRANSFER.empty])
  obtain ⟨s1, s2, s3⟩ := startIngest_pool st s
  rw [s1] at l2
  simp only [CaptureFrames]
  split
  · simp only [List.filter_append, s2, s3, l1]
    exact ⟨by simp [hasForeignBuffer], fun h => ⟨by rw [(l2 h).1]; simp [hasAudioBuffer],
      (l2 h).2⟩⟩
  · simp only [Exec.prepend_calls, Exec.prepend_final, List.filter_append, s2, s3, l1]
    exact ⟨rfl, fun h => ⟨by rw [(l2 h).1]; rfl, (l2 h).2⟩⟩

theorem consumeCycle_pool (st : State) (e : ConsumerCycle) :
    (consumeCycle st e).st.mHostBuffers = st.mHostBuffers := by
  unfold consumeCycle
  simp only
  generalize AJACircularBuffer.slotOrAbort _ _ = res
  cases res <;> rfl

theorem ConsumeFrames_pool (st : State) (cycles : List ConsumerCycle) :
    (ConsumeFrames st cycles).final.mHostBuffers = st.mHostBuffers := by
  unfold ConsumeFrames
  induction cycles generalizing st with
  | nil => simp [consumeLoop]
  | cons e es ih =>
      simp only [consumeLoop]
      split
      · rfl
      · split
        · exact consumeCycle_pool _ e
        · rw [Exec.prepend_final, ih, consumeCycle_pool]

/-! ## Passes without audio -/

theorem captureCycle_audio (st : State) (xfer : AUTOCIRCULATE_TRANSFER) (e : ProducerCycle)
    (h : (captureCycle st xfer e).xfer.acAudioBuffer = none) :
    (captureCycle st xfer e).calls.filter hasAudioBuffer = [] := by
  unfold captureCycle at h ⊢
  by_cases hr : (e.acStatus.IsRunning && e.acStatus.HasAvailableInputFrame) = true
  · simp only [hr, if_true] at h ⊢
    generalize AJACircularBuffer.slotOrAbort _ _ = res at h ⊢
    cases res with
    | blocks => simp [hasAudioBuffer]
    | noSlot => simp [hasAudioBuffer]
    | slot i =>
        by_cases hw : e.acStatus.WithAudio = true <;>
          by_cases hc : e.acStatus.WithCustomAnc = true <;>
          simp [hw, hc] at h <;> simp [hasAudioBuffer, hw, hc, h]
  · simp [hr, hasAudioBuffer]

theorem captureLoop_audio_off (st : State) (xfer : AUTOCIRCULATE_TRANSFER)
    (es : List ProducerCycle) (hoff : ∀ e ∈ es, e.acStatus.WithAudio = false)
    (hx : xfer.acAudioBuffer = none) :
    (captureLoop st xfer es).calls.filter hasAudioBuffer = [] ∧
    (captureLoop st xfer es).final.mHostBuffers.map (fun fd => fd.fNumAudioBytes)
      = st.mHostBuffers.map (fun fd => fd.fNumAudioBytes) := by
  induction es generalizing st xfer with
  | nil => simp [captureLoop]
  | cons e es ih =>
      have hw := hoff e (by simp)
      have hrest : ∀ x ∈ es, x.acStatus.WithAudio = false :=
        fun x hx => hoff x (by simp [hx])
      obtain ⟨c1, c2⟩ := (captureCycle_pool
        { st with mGlobalQuit := st.mGlobalQuit || e.quitAtTest } xfer e).2.2 hw
      rw [hx] at c2
      have c3 := captureCycle_audio _ xfer e c2
      simp only [captureLoop]
      split
      · exact ⟨rfl, rfl⟩
      · split
        · exact ⟨c3, c1⟩
        · obtain ⟨i1, i2⟩ := ih _ _ hrest c2
          simp only [Exec.prepend_calls, Exec.prepend_final, List.filter_append]
          exact ⟨by rw [c3, i1]; rfl, by rw [i2, c1]⟩

/-- C13: a pass of the producer loop whose status reports no audio registers no audio
buffer in the transfer structure and leaves fNumAudioBytes of every slot as it was; and in
a run of CaptureFrames in which every pass reports no audio, no transfer is handed an
audio buffer and fNumAudioBytes of every slot is at the end what it was at the start. -/
theorem CaptureFrames_audio_off (st : State) (s : IngestStart)
    (cycles : List ProducerCycle) (x : State) (xf : AUTOCIRCULATE_TRANSFER)
    (e : ProducerCycle)
    (hoff : ∀ c ∈ cycles, c.acStatus.WithAudio = false)
    (he : e.acStatus.WithAudio = false) :
    ((captureCycle x xf e).xfer.acAudioBuffer = xf.acAudioBuffer ∧
      (captureCycle x xf e).st.mHostBuffers.map (fun fd => fd.fNumAudioBytes)
        = x.mHostBuffers.map (fun fd => fd.fNumAudioBytes)) ∧
    (CaptureFrames st s cycles).calls.filter hasAudioBuffer = [] ∧
    (CaptureFrames st s cycles).final.mHostBuffers.map (fun fd => fd.fNumAudioBytes)
      = st.mHostBuffers.map (fun fd => fd.fNumAudioBytes) := by
  obtain ⟨c1, c2⟩ := (captureCycle_pool x xf e).2.2 he
  obtain ⟨l1, l2⟩ := captureLoop_audio_off (startIngest st s).2
    AUTOCIRCULATE_TRANSFER.empty cycles hoff rfl
  obtain ⟨s1, -, s3⟩ := startIngest_pool st s
  rw [s1] at l2
  refine ⟨⟨c2, c1⟩, ?_⟩
  simp only [CaptureFrames]
  split
  · simp only [List.filter_append, s3, l1]
    exact ⟨by simp [hasAudioBuffer], l2⟩
  · simp only [Exec.prepend_calls, Exec.prepend_final, List.filter_append, s3, l1]
    exact ⟨rfl, l2⟩

/-- The object initialised without audio, two passes that report no audio: both
transfers carry video and ancillary buffers only, and the audio byte counts stay 0. -/
theorem CaptureFrames_audio_off_witness :
    (statusSilent.WithAudio = false ∧
      (sampleSilentState.mHostBuffers.getD 0 default).fAudioBuffer = 0) ∧
    (CaptureFrames sampleSilentState ⟨true, false, true⟩ sampleSilentCycles).calls
      = [Call.AutoCirculateStop ⟨0, 2⟩, Call.AutoCirculateInitForInput 0 none true,
          Call.AutoCirculateStart 0 true,
          Call.AutoCirculateGetStatus 0 statusSilent, Call.StartProduceNextBuffer (some 0),
          Call.AutoCirculateTransfer 0
            ⟨some ⟨0, BufferKind.video, 4096⟩, none, some ⟨0, BufferKind.anc, 256⟩,
              some ⟨0, BufferKind.anc2, 256⟩⟩,
          Call.EndProduceNextBuffer,
          Call.AutoCirculateGetStatus 0 statusSilent, Call.StartProduceNextBuffer (some 1),
          Call.AutoCirculateTransfer 0
            ⟨some ⟨1, BufferKind.video, 4096⟩, none, some ⟨1, BufferKind.anc, 256⟩,
              some ⟨1, BufferKind.anc2, 256⟩⟩,
          Call.EndProduceNextBuffer] ∧
    (CaptureFrames sampleSilentState ⟨true, false, true⟩ sampleSilentCycles).final.mHostBuffers.map
        (fun fd => fd.fNumAudioBytes)
      = sampleSilentState.mHostBuffers.map (fun fd => fd.fNumAudioBytes) :=
  ⟨by decide, by decide,
    (CaptureFrames_audio_off sampleSilentState ⟨true, false, true⟩ sampleSilentCycles
      sampleSilentState AUTOCIRCULATE_TRANSFER.empty
      ⟨false, statusSilent, false, some 0, 16, [(0, 1)]⟩
      (by decide) (by decide)).2.2⟩

/-! ## Capacities are fixed -/

theorem sharedPasses_pool (st : State) (xf : AUTOCIRCULATE_TRANSFER)
    (passes : List (ProducerCycle ⊕ ConsumerCycle)) :
    (sharedPasses st xf passes).mHostBuffers.map capacities
      = st.mHostBuffers.map capacities := by
  induction passes generalizing st xf with
  | nil => rfl
  | cons p rest ih =>
      cases p with
      | inl e =>
          simp only [sharedPasses]
          rw [ih, (captureCycle_pool st xf e).1]
      | inr e =>
          simp only [sharedPasses]
          rw [ih, consumeCycle_pool]

/-- C14: a pass of the producer loop leaves the pool as it was or replaces the slot it
acquired by one with the same four buffer capacities, and a pass of the consumer loop
leaves the pool as it was; so the capacities of all slots are the same after any run of
CaptureFrames, after any run of ConsumeFrames (which changes no slot at all), and after
any interleaving of passes of the two loops.  In a run in which every pass reports the
same audio and ancillary flags, every buffer handed to a transfer belongs to the slot
whose video buffer it is handed, the slot just acquired. -/
theorem passes_keep_capacities (st : State) (s : IngestStart) (cycles : List ProducerCycle)
    (consumerCycles : List ConsumerCycle) (passes : List (ProducerCycle ⊕ ConsumerCycle))
    (x : State) (xf : AUTOCIRCULATE_TRANSFER) (e : ProducerCycle) (ce : ConsumerCycle)
    (wa wc : Bool)
    (hflags : ∀ c ∈ cycles, c.acStatus.WithAudio = wa ∧ c.acStatus.WithCustomAnc = wc) :
    ((captureCycle x xf e).st.mHostBuffers = x.mHostBuffers ∨
      ∃ i fd, e.freeSlot = some i ∧
        (captureCycle x xf e).st.mHostBuffers = x.mHostBuffers.set i fd ∧
        capacities fd = capacities (x.mHostBuffers.getD i default)) ∧
    (consumeCycle x ce).st.mHostBuffers = x.mHostBuffers ∧
    (CaptureFrames st s cycles).final.mHostBuffers.map capacities
      = st.mHostBuffers.map capacities ∧
    (ConsumeFrames st consumerCycles).final.mHostBuffers = st.mHostBuffers ∧
    (sharedPasses st xf passes).mHostBuffers.map capacities
      = st.mHostBuffers.map capacities ∧
    (CaptureFrames st s cycles).calls.filter hasForeignBuffer = [] :=
  ⟨(captureCycle_pool x xf e).2.1, consumeCycle_pool x ce, CaptureFrames_pool st s cycles,
    ConsumeFrames_pool st consumerCycles, sharedPasses_pool st xf passes,
    (CaptureFrames_flags wa wc st s cycles hflags).1⟩

/-- Slot 0 of the sample pool is produced, consumed and produced again: all seven slots
keep the capacities they were allocated with, and the metadata of slot 0 has changed. -/
theorem passes_keep_capacities_witness :
    (statusReady.WithAudio = true ∧ statusReady.WithCustomAnc = true) ∧
    (sharedPasses sampleState AUTOCIRCULATE_TRANSFER.empty sampleRecycling).mHostBuffers.map
        capacities
      = List.replicate 7 (4096, 1024, 256, 256) ∧
    ((sharedPasses sampleState AUTOCIRCULATE_TRANSFER.empty
        sampleRecycling).mHostBuffers.getD 0 default).fNumAudioBytes = 16 ∧
    (sharedPasses sampleState AUTOCIRCULATE_TRANSFER.empty sampleRecycling).mHostBuffers.map
        capacities
      = sampleState.mHostBuffers.map capacities ∧
    (CaptureFrames sampleState ⟨true, false, true⟩
        [sampleProduceCycle, sampleProduceCycle]).calls.filter hasForeignBuffer = [] :=
  ⟨by decide, by decide, by decide,
    (passes_keep_capacities sampleState ⟨true, false, true⟩
      [sampleProduceCycle, sampleProduceCycle] sampleConsumerCycles sampleRecycling
      sampleState AUTOCIRCULATE_TRANSFER.empty sampleProduceCycle ⟨false, false, some 0⟩
      true true (by decide)).2.2.2.2⟩

/-! ## Which thread makes which device call -/

theorem SetupVideo_calls (st : State) (dev : Device) :
    ∀ c ∈ (SetupVideo st dev).2.calls, isSetupCall c = true := by
  unfold SetupVideo
  cases dev.inputVideoFormat with
  | none =>
      by_cases h1 : (dev.hasBiDirectionalSDI && dev.inputSourceIsSDI) = true <;>
        simp [h1, isSetupCall]
  | some fmt =>
      by_cases h1 : (dev.hasBiDirectionalSDI && dev.inputSourceIsSDI) = true <;>
        by_cases h2 : (st.mConfig.fDoTSIRouting && !dev.isRGBFormat && dev.isQuadQuadHFR) = true <;>
        by_cases h3 : st.mConfig.fDoMultiFormat = true <;>
        simp [h1, h2, h3, isSetupCall]

theorem SetupAudio_calls (st : State) (dev : Device) :
    ∀ c ∈ (SetupAudio st dev).2.calls, isSetupCall c = true := by
  unfold SetupAudio
  simp [isSetupCall]

theorem lockCalls_calls (i : Nat) (fd : NTV2FrameData) :
    ∀ c ∈ lockCalls i fd, isSetupCall c = true := by
  unfold lockCalls
  intro c hc
  simp only [List.mem_append] at hc
  rcases hc with (hc | hc) | hc <;> split at hc <;> simp at hc <;> subst hc <;> rfl

theorem hostBufferLoop_calls (K : Constants) (F1 F2 : Nat) (fuel : Nat) (st : State) :
    ∀ c ∈ (hostBufferLoop K F1 F2 fuel st).calls, isSetupCall c = true := by
  induction fuel generalizing st with
  | zero => simp [hostBufferLoop]
  | succ fuel ih =>
      simp only [hostBufferLoop]
      split
      · intro c hc
        simp only [Exec.prepend_calls, List.cons_append, List.mem_cons, List.mem_append] at hc
        rcases hc with hc | hc | hc
        · subst hc; rfl
        · exact lockCalls_calls _ _ c hc
        · exact ih _ c hc
      · simp

theorem SetupHostBuffers_calls (K : Constants) (st : State) (dev : Device) :
    ∀ c ∈ (SetupHostBuffers K st dev).calls, isSetupCall c = true := by
  intro c hc
  simp only [SetupHostBuffers, Exec.prepend_calls, List.cons_append, List.mem_cons,
    List.mem_append] at hc
  rcases hc with hc | hc | hc
  · subst hc; rfl
  · split at hc
    · simp only [List.mem_cons, List.mem_singleton, List.not_mem_nil, or_false] at hc
      rcases hc with hc | hc <;> subst hc <;> rfl
    · simp at hc
  · exact hostBufferLoop_calls _ _ _ _ _ c hc

theorem RouteInputSignal_calls (st : State) (dev : Device) :
    ∀ c ∈ (RouteInputSignal st dev).2, isSetupCall c = true := by
  unfold RouteInputSignal
  split <;> simp [isSetupCall]

theorem InitChannel_calls (K : Constants) (st : State) (dev : Device) :
    ∀ c ∈ (InitChannel K st dev).2.calls, isSetupCall c = true := by
  unfold InitChannel
  by_cases h1 : st.mConfig.fInputChannel % 65536 ≥ dev.numFrameStores
  · simp [h1]
  · by_cases h2 : st.mConfig.fInputChannel % 2 = 1 ∨
        (st.mConfig.fInputChannel ≠ 0 ∧ st.mConfig.fDoTSIRouting = false)
    · simp [h1, h2]
    · simp only [h1, h2, if_false]
      generalize ({ st with
        mConfig := { st.mConfig with
          fInputSource := dev.channelToInputSource st.mConfig.fInputChannel },
        mActiveFrameStores := ⟨st.mConfig.fInputChannel,
          if st.mConfig.fDoTSIRouting then 2 else 4⟩,
        mActiveSDIs := ⟨st.mConfig.fInputChannel,
          if st.mConfig.fDoTSIRouting then (if dev.isRGBFormat then 4 else 2) else 4⟩ } : State)
        = st1
      have hv := SetupVideo_calls st1 dev
      have ha := SetupAudio_calls (SetupVideo st1 dev).2.final dev
      have hh := fun x => SetupHostBuffers_calls K x dev
      have hr := fun x => RouteInputSignal_calls x dev
      have hsa : AJA_FAILURE (SetupAudio (SetupVideo st1 dev).2.final dev).1 = false := by
        simp [SetupAudio, AJA_FAILURE]
      by_cases hf : AJA_FAILURE (SetupVideo st1 dev).1 = true
      · simp only [hf, if_true]
        exact hv
      · by_cases hw : (SetupVideo st1 dev).2.final.mConfig.fWithAudio = true
        · simp only [hf, hw, hsa, if_true, if_false, Bool.false_eq_true]
          intro c hc
          simp only [List.mem_append] at hc
          rcases hc with ((hc | hc) | hc) | hc
          · exact hv c hc
          · exact ha c hc
          · exact hh _ c hc
          · exact hr _ c hc
        · simp only [hf, hw, if_false, Bool.false_eq_true]
          intro c hc
          simp only [List.mem_append] at hc
          rcases hc with ((hc | hc) | hc) | hc
          · exact hv c hc
          · simp at hc
          · exact hh _ c hc
          · exact hr _ c hc

theorem Init_calls (K : Constants) (st : State) (dev : Device) :
    ∀ c ∈ (Init K st dev).2.calls, isSetupCall c = true := by
  rcases Init_shape K st dev with ⟨hn, -⟩ | ⟨-, st2, -, -, -, -, -, c6⟩
  · unfold Init
    cases hf : dev.found
    · simp [isSetupCall]
    cases hr : dev.ready
    · simp [isSetupCall]
    cases h1 : dev.canDoCapture
    · simp [isSetupCall]
    cases h2 : dev.canDo12gRouting
    · simp [isSetupCall]
    cases h3 : dev.canDoFrameBufferFormat
    · simp [isSetupCall]
    cases hm : st.mConfig.fDoMultiFormat
    · cases ha : dev.acquireOk
      · simp [hm, isSetupCall]
      · exact absurd ⟨hf, hr, h1, h2, h3, Or.inr ha⟩ hn
    · exact absurd ⟨hf, hr, h1, h2, h3, Or.inl hm⟩ hn
  · have hpre : ∀ c ∈ [Call.GetFirstDeviceFromArgument true, Call.IsDeviceReady true,
            Call.GetStreamingApplication, Call.GetEveryFrameServices] ++
          (if st.mConfig.fDoMultiFormat then []
            else [Call.AcquireStreamForApplication true, Call.GetEveryFrameServices]) ++
          [Call.SetEveryFrameServices NTV2TaskMode.NTV2_OEM_TASKS] ++
          (if dev.canDoMultiFormat then [Call.SetMultiFormatMode st.mConfig.fDoMultiFormat]
            else []), isSetupCall c = true := by
      cases st.mConfig.fDoMultiFormat <;> cases dev.canDoMultiFormat <;> simp [isSetupCall]
    intro c hc
    rw [c6] at hc
    rcases List.mem_append.1 hc with hc | hc
    · exact hpre c hc
    · exact InitChannel_calls K st2 dev c hc

theorem Quit_calls_engine (st : State) (consumerActive producerActive : List Bool) :
    (Quit st consumerActive producerActive).calls.filter isEngineControl = [] := by
  have hcf : ∀ w l, (waitInactive w l).1.filter isEngineControl = [] :=
    fun w l => waitInactive_filter _ w l (fun _ => rfl) rfl
  have hrel : (releaseCalls { st with mGlobalQuit := true }).filter isEngineControl = [] := by
    unfold releaseCalls
    split <;> simp [isEngineControl]
  unfold Quit
  simp only
  split
  · simp [List.filter_cons, isEngineControl, hcf]
  · split
    · simp [List.filter_cons, isEngineControl, hcf]
    · simp only [List.filter_cons, List.filter_append, hcf, hrel]
      simp [isEngineControl]

theorem startIngest_head (st : State) (s : IngestStart) :
    (startIngest st s).1.take 2
      = [Call.AutoCirculateStop st.mActiveFrameStores,
          Call.AutoCirculateInitForInput st.mConfig.fInputChannel st.mAudioSystem s.initOk] := by
  unfold startIngest
  cases s.initOk <;> cases s.startOk <;> cases s.quitAtStart <;> cases st.mGlobalQuit <;> simp

/-- C15, as the code has it: on the device, the loop of CaptureFrames makes only ingest
calls (status query, frame transfer, interrupt wait), and ConsumeFrames makes no call at
all; the calls that configure, start and stop the ingest engine are made by CaptureFrames
itself, on the producer thread, outside of its loop (it always begins with
AutoCirculateStop and AutoCirculateInitForInput, and its device calls are ingest calls or
such engine calls), and neither Init nor Run nor Quit makes any of them. -/
theorem device_calls_by_thread (K : Constants) (st : State) (dev : Device) (s : IngestStart)
    (xfer : AUTOCIRCULATE_TRANSFER) (cycles : List ProducerCycle)
    (consumerCycles : List ConsumerCycle) (consumerActive producerActive : List Bool) :
    (captureLoop st xfer cycles).calls.filter
        (fun c => isDeviceCall c && !isIngestCall c) = [] ∧
    (ConsumeFrames st consumerCycles).calls.filter isDeviceCall = [] ∧
    (CaptureFrames st s cycles).calls.filter
        (fun c => isDeviceCall c && !isIngestCall c && !isEngineControl c) = [] ∧
    (CaptureFrames st s cycles).calls.take 2
      = [Call.AutoCirculateStop st.mActiveFrameStores,
          Call.AutoCirculateInitForInput st.mConfig.fInputChannel st.mAudioSystem s.initOk] ∧
    (Init K st dev).2.calls.filter isEngineControl = [] ∧
    (Run st).2.calls.filter isEngineControl = [] ∧
    (Quit st consumerActive producerActive).calls.filter isEngineControl = [] := by
  refine ⟨?_, ?_, ?_, ?_, ?_, ?_, Quit_calls_engine st consumerActive producerActive⟩
  · refine filter_nil_of_forall _ isCaptureLoopCall _ (captureLoop_calls st xfer cycles) ?_
    intro c hc
    cases c <;> simp [isCaptureLoopCall] at hc <;> rfl
  · refine filter_nil_of_forall _ isConsumeLoopCall _ (ConsumeFrames_calls st consumerCycles) ?_
    intro c hc
    cases c <;> simp [isConsumeLoopCall] at hc <;> rfl
  · refine filter_nil_of_forall _ (fun c => isCaptureLoopCall c || isIngestControlCall c) _ ?_ ?_
    · intro c hc
      rcases CaptureFrames_calls st s cycles c hc with h | h <;> simp [h]
    · intro c hc
      cases c <;> simp [isCaptureLoopCall, isIngestControlCall] at hc <;> rfl
  · have h2 := startIngest_head st s
    have hlen : 2 ≤ (startIngest st s).1.length := by
      have := congrArg List.length h2
      simp only [List.length_take, List.length_cons, List.length_nil] at this
      omega
    simp only [CaptureFrames]
    split
    · rw [List.append_assoc, List.take_append_of_le_length hlen, h2]
    · rw [Exec.prepend_calls, List.take_append_of_le_length hlen, h2]
  · refine filter_nil_of_forall _ isSetupCall _ (Init_calls K st dev) ?_
    intro c hc
    cases c <;> simp [isSetupCall] at hc <;> rfl
  · simp [Run, startThread, isEngineControl]

/-- On the sample object the ingest engine is configured, started and stopped by
CaptureFrames, on the producer thread: AutoCirculateStart is a device call that is not an
ingest call, it is among the calls of CaptureFrames, and it is neither among the calls of
Init, nor of Run, nor of Quit. -/
theorem engine_control_by_control_thread_counterexample :
    isDeviceCall (Call.AutoCirculateStart 0 true) = true ∧
    isIngestCall (Call.AutoCirculateStart 0 true) = false ∧
    isEngineControl (Call.AutoCirculateStart 0 true) = true ∧
    (CaptureFrames sampleState ⟨true, false, true⟩ sampleAbortCycles).calls.filter
        isEngineControl
      = [Call.AutoCirculateStop ⟨0, 2⟩, Call.AutoCirculateInitForInput 0 (some 0) true,
          Call.AutoCirculateStart 0 true, Call.AutoCirculateStop ⟨0, 1⟩] ∧
    Call.AutoCirculateStart 0 true
      ∉ (Init sampleConstants (construct sampleConfig) sampleDevice).2.calls ∧
    Call.AutoCirculateStart 0 true ∉ (Run sampleState).2.calls ∧
    Call.AutoCirculateStart 0 true ∉ (Quit sampleState [false] [false]).calls := by
  decide

end NTV2Capture8K
